import Mathlib

/-!
MultiColvar: the atom-group builder.

A shallow embedding of `src/multicolvar/MultiColvar.cpp` (plumed 2.0).

Conventions of the embedding.

* A member function that mutates the object takes the object state
  (`MultiColvar`) and returns the new one; an `int&` argument is passed and
  returned by value.
* `error(...)`, `plumed_merror(...)` and a failing `plumed_assert` abort the
  action: they are `Except.error` carrying the message.
* `log.printf` has no effect on the object and is left out.
* Sizes and indices (`unsigned`, `int`, `size_t`) are natural numbers or
  integers: every quantity is the length of, or a position in, an atom list
  held in memory, far below the word size.
-/

namespace PLMD
namespace multicolvar

/-- An atom of the host system, identified by its index. -/
abbrev AtomNumber := Nat

/-! ## DynamicList -/

/-- Modelled from the spec: the class `DynamicList` (tools/DynamicList.h) is
not part of the sources.  It is the Index Set of the specification: an ordered
sequence of indices `all`, one activity flag per member (`onoff`), and the
compacted sequence of the members that were active when the list was last
compacted (`active`), whose positions are the local indices. -/
structure DynamicList (α : Type) where
  all : List α
  onoff : List Bool
  active : List α
deriving DecidableEq, Repr

namespace DynamicList

variable {α : Type}

/-- Modelled from the spec: a list as the constructor of `DynamicList` (not
part of the sources) leaves it, with no member. -/
def empty : DynamicList α := ⟨[], [], []⟩

/-- Modelled from the spec: `DynamicList::addIndexToList` (not part of the
sources), the operation "add index": the index goes to the end of the
sequence, its flag being off until the list is activated. -/
def addIndexToList (l : DynamicList α) (x : α) : DynamicList α :=
  { all := l.all ++ [x], onoff := l.onoff ++ [false], active := l.active }

/-- Modelled from the spec: `DynamicList::clear` (not part of the sources)
removes every member. -/
def clear (_l : DynamicList α) : DynamicList α := empty

/-- Modelled from the spec: `DynamicList::activateAll` (not part of the
sources), the operation "activate all": every flag is switched on. -/
def activateAll (l : DynamicList α) : DynamicList α :=
  { l with onoff := l.all.map (fun _ => true) }

/-- Modelled from the spec: `DynamicList::deactivateAll` (not part of the
sources), the operation "deactivate all": every flag is switched off. -/
def deactivateAll (l : DynamicList α) : DynamicList α :=
  { l with onoff := l.all.map (fun _ => false) }

/-- Modelled from the spec: `DynamicList::updateActiveMembers` (not part of
the sources), the operation "compact": the active-only sequence, in sequence
order. -/
def updateActiveMembers (l : DynamicList α) : DynamicList α :=
  { l with active := ((l.all.zip l.onoff).filter (fun p => p.2)).map (fun p => p.1) }

/-- Modelled from the spec: `DynamicList::retrieveActiveList` (not part of the
sources): the compacted sequence of active members. -/
def retrieveActiveList (l : DynamicList α) : List α := l.active

/-- Modelled from the spec: `DynamicList::fullSize` (not part of the sources):
the number of members, active or not. -/
def fullSize (l : DynamicList α) : Nat := l.all.length

/-- Modelled from the spec: `DynamicList::getNumberActive` (not part of the
sources): the number of active members. -/
def getNumberActive (l : DynamicList α) : Nat := l.active.length

end DynamicList

/-! ## Configuration reader -/

/-- The keywords of `MultiColvar::registerKeywords` that the readers consult. -/
inductive Keyword where
  | ATOMS | GROUP | GROUPA | GROUPB | SPECIES | SPECIESA | SPECIESB
deriving DecidableEq, Repr

/-- What the configuration reader (class `Action`, not part of the sources)
yields for one input line: which keywords the concrete colvar registered
(`keywords.exists`), the numbered tuples `ATOMS1`, `ATOMS2`, ... in order, and
the atom list of every other keyword (empty when the keyword is absent). -/
structure Input where
  keywords_exists : Keyword → Bool
  numbered : List (List AtomNumber)
  atoms : Keyword → List AtomNumber

/-- The call `parseAtomList(key,t)`: the atoms the input gives for `key`. -/
def parseAtomList (inp : Input) (key : Keyword) : List AtomNumber := inp.atoms key

/-! ## Object state -/

/-- The data members of `MultiColvar` that the readers touch, and the list
last handed to `ActionAtomistic::requestAtoms`. -/
structure MultiColvar where
  readatoms : Bool
  verbose_output : Bool
  colvar_atoms : List (DynamicList Nat)
  all_atoms : DynamicList AtomNumber
  requested : List AtomNumber
deriving DecidableEq, Repr

/-- The state the constructor `MultiColvar::MultiColvar` leaves:
`readatoms(false)`, no colvar, no atom. -/
def MultiColvar.init (verbose : Bool) : MultiColvar :=
  { readatoms := false, verbose_output := verbose, colvar_atoms := [],
    all_atoms := DynamicList.empty, requested := [] }

/-- The loop `for(unsigned i=lo;i<hi;++i) body`, threading the variables the
body assigns. -/
def forLoop {σ : Type} (lo hi : Nat) (body : Nat → σ → σ) (s : σ) : σ :=
  (List.range' lo (hi - lo)).foldl (fun acc i => body i acc) s

/-- The loop `for(unsigned i=0;i<t.size();++i) all_atoms.addIndexToList( t[i] )`. -/
def addAllToList (t : List AtomNumber) (all_atoms : DynamicList AtomNumber) :
    DynamicList AtomNumber :=
  forLoop 0 t.length (fun i aa => aa.addIndexToList (t.getD i 0)) all_atoms

/-! ## readAtomsKeyword -/

/-- The body of the loop `for(int i=1;;++i)` of `readAtomsKeyword`, from
iteration `i` on.  The first argument holds what the reads `ATOMS<i>`,
`ATOMS<i+1>`, ... return; a read past its end is empty.  `newlist` is the
local declared before the loop. -/
def readAtomsKeywordLoop :
    List (List AtomNumber) → Nat → Int → DynamicList Nat → MultiColvar →
      Except String (Int × MultiColvar)
  | [], _, natoms, _, s => .ok (natoms, s)
  | t :: rest, i, natoms, newlist, s =>
    if t.isEmpty then .ok (natoms, s)
    else
      let natoms := if i = 1 ∧ natoms < 0 then (t.length : Int) else natoms
      if (t.length : Int) ≠ natoms then
        .error ("ATOMS" ++ toString i ++ " keyword has the wrong number of atoms")
      else
        let r := forLoop 0 natoms.toNat
          (fun j (p : DynamicList Nat × DynamicList AtomNumber) =>
            (p.1.addIndexToList (natoms.toNat * (i - 1) + j),
             p.2.addIndexToList (t.getD j 0)))
          (newlist, s.all_atoms)
        readAtomsKeywordLoop rest (i + 1) natoms r.1.clear
          { s with all_atoms := r.2, colvar_atoms := s.colvar_atoms ++ [r.1],
                   readatoms := true }

/-- The member function `MultiColvar::readAtomsKeyword( int& natoms )`. -/
def readAtomsKeyword (inp : Input) (natoms : Int) (s : MultiColvar) :
    Except String (Int × MultiColvar) :=
  if s.readatoms then .ok (natoms, s)
  else readAtomsKeywordLoop inp.numbered 1 natoms DynamicList.empty s

/-! ## readGroupsKeyword -/

/-- The two nested loops of the `GROUP` branch of `readGroupsKeyword`, on
`colvar_atoms` and the local `newlist`. -/
def groupLoops (n : Nat) (p : List (DynamicList Nat) × DynamicList Nat) :
    List (DynamicList Nat) × DynamicList Nat :=
  forLoop 1 n (fun i p =>
    forLoop 0 i (fun j p =>
      let newlist := (p.2.addIndexToList i).addIndexToList j
      (p.1 ++ [newlist], newlist.clear)) p) p

/-- The two nested loops of the `GROUPA`/`GROUPB` branch of
`readGroupsKeyword`, on `colvar_atoms` and the local `newlist`. -/
def groupABLoops (n1 n2 : Nat) (p : List (DynamicList Nat) × DynamicList Nat) :
    List (DynamicList Nat) × DynamicList Nat :=
  forLoop 0 n1 (fun i p =>
    forLoop 0 n2 (fun j p =>
      let newlist := (p.2.addIndexToList i).addIndexToList (n1 + j)
      (p.1 ++ [newlist], newlist.clear)) p) p

/-- The member function `MultiColvar::readGroupsKeyword( int& natoms )`. -/
def readGroupsKeyword (inp : Input) (natoms : Int) (s : MultiColvar) :
    Except String (Int × MultiColvar) := do
  if s.readatoms then return (natoms, s)
  if natoms = 2 then
    if !inp.keywords_exists .GROUPA then
      throw "use GROUPA and GROUPB keywords as well as GROUP"
    if !inp.keywords_exists .GROUPB then
      throw "use GROUPA and GROUPB keywords as well as GROUP"
  else
    throw "Cannot use groups keyword unless the number of atoms equals 2"
  let t := parseAtomList inp .GROUP
  if !t.isEmpty then
    let all_atoms := addAllToList t s.all_atoms
    let r := groupLoops t.length (s.colvar_atoms, DynamicList.empty)
    return (natoms, { s with readatoms := true, all_atoms := all_atoms, colvar_atoms := r.1 })
  else
    let t1 := parseAtomList inp .GROUPA
    if !t1.isEmpty then
      let t2 := parseAtomList inp .GROUPB
      if t2.isEmpty then
        throw ("GROUPB keyword defines no atoms or is missing. " ++
               "Use either GROUPA and GROUPB or just GROUP")
      let all_atoms := addAllToList t2 (addAllToList t1 s.all_atoms)
      let r := groupABLoops t1.length t2.length (s.colvar_atoms, DynamicList.empty)
      return (natoms, { s with readatoms := true, all_atoms := all_atoms, colvar_atoms := r.1 })
    else return (natoms, s)

/-! ## readSpeciesKeyword -/

/-- The loops of the `SPECIES` branch of `readSpeciesKeyword` taken when
`SPECIESA` and `SPECIESB` are both registered, on `colvar_atoms` and the local
`newlist`. -/
def speciesLoops (n : Nat) (p : List (DynamicList Nat) × DynamicList Nat) :
    List (DynamicList Nat) × DynamicList Nat :=
  forLoop 0 n (fun i p =>
    let newlist := p.2.addIndexToList i
    let newlist := forLoop 0 n (fun j nl => if i ≠ j then nl.addIndexToList j else nl) newlist
    (p.1 ++ [newlist], newlist.clear)) p

/-- The loop of the `SPECIES` branch of `readSpeciesKeyword` taken when
`SPECIESA` and `SPECIESB` are not both registered. -/
def speciesOnlyLoop (n : Nat) (p : List (DynamicList Nat) × DynamicList Nat) :
    List (DynamicList Nat) × DynamicList Nat :=
  forLoop 0 n (fun i p =>
    let newlist := p.2.addIndexToList i
    (p.1 ++ [newlist], newlist.clear)) p

/-- The loops of the `SPECIESA`/`SPECIESB` branch of `readSpeciesKeyword`, on
`colvar_atoms` and the local `newlist`. -/
def speciesABLoops (n1 n2 : Nat) (p : List (DynamicList Nat) × DynamicList Nat) :
    List (DynamicList Nat) × DynamicList Nat :=
  forLoop 0 n1 (fun i p =>
    let newlist := p.2.addIndexToList i
    let newlist := forLoop 0 n2 (fun j nl => nl.addIndexToList (n1 + j)) newlist
    (p.1 ++ [newlist], newlist.clear)) p

/-- The member function `MultiColvar::readSpeciesKeyword( int& natoms )`. -/
def readSpeciesKeyword (inp : Input) (natoms : Int) (s : MultiColvar) :
    Except String (Int × MultiColvar) := do
  if s.readatoms then return (natoms, s)
  let t := parseAtomList inp .SPECIES
  if !t.isEmpty then
    let natoms : Int := t.length
    let all_atoms := addAllToList t s.all_atoms
    if inp.keywords_exists .SPECIESA && inp.keywords_exists .SPECIESB then
      let r := speciesLoops t.length (s.colvar_atoms, DynamicList.empty)
      return (natoms, { s with readatoms := true, all_atoms := all_atoms, colvar_atoms := r.1 })
    else if !(inp.keywords_exists .SPECIESA && inp.keywords_exists .SPECIESB) then
      let r := speciesOnlyLoop t.length (s.colvar_atoms, DynamicList.empty)
      return (natoms, { s with readatoms := true, all_atoms := all_atoms, colvar_atoms := r.1 })
    else
      throw "SPECIES keyword is not for density or coordination like CV"
  else if inp.keywords_exists .SPECIESA && inp.keywords_exists .SPECIESB then
    let t1 := parseAtomList inp .SPECIESA
    if !t1.isEmpty then
      let t2 := parseAtomList inp .SPECIESB
      if t2.isEmpty then
        throw ("SPECIESB keyword defines no atoms or is missing. " ++
               "Use either SPECIESA and SPECIESB or just SPECIES")
      let natoms : Int := 1 + (t2.length : Int)
      let all_atoms := addAllToList t2 (addAllToList t1 s.all_atoms)
      let r := speciesABLoops t1.length t2.length (s.colvar_atoms, DynamicList.empty)
      return (natoms, { s with readatoms := true, all_atoms := all_atoms, colvar_atoms := r.1 })
    else return (natoms, s)
  else return (natoms, s)

/-! ## readAtoms -/

/-- The member function `MultiColvar::readAtoms( int& natoms )`: the three readers in turn, each
under its `keywords.exists` test, the check of `readatoms`, the activation of
every list, and `ActionAtomistic::requestAtoms`, which records the list it is
given. -/
def readAtoms (inp : Input) (natoms : Int) (s : MultiColvar) :
    Except String (Int × MultiColvar) :=
  (if inp.keywords_exists .ATOMS then readAtomsKeyword inp natoms s
   else .ok (natoms, s)).bind fun r1 =>
  (if inp.keywords_exists .GROUP then readGroupsKeyword inp r1.1 r1.2
   else .ok r1).bind fun r2 =>
  (if inp.keywords_exists .SPECIES then readSpeciesKeyword inp r2.1 r2.2
   else .ok r2).bind fun r3 =>
  if !r3.2.readatoms then .error "No atoms have been read in"
  else
    let colvar_atoms := r3.2.colvar_atoms.map (fun l => l.activateAll.updateActiveMembers)
    let all_atoms := r3.2.all_atoms.activateAll.updateActiveMembers
    .ok (r3.1, { r3.2 with colvar_atoms := colvar_atoms, all_atoms := all_atoms,
                           requested := all_atoms.retrieveActiveList })

/-! ## Values with derivatives -/

/-- Modelled from the spec: the class `Value` (core/Value.h) is not part of
the sources.  It is the Value-with-Derivatives of the specification: a scalar
and a dense ordered sequence of partial derivatives.  The scalars `double` are
taken in a type `R` with the operations the code uses. -/
structure Value (R : Type) where
  value : R
  derivatives : List R

namespace Value

variable {R : Type}

/-- Modelled from the spec: `Value::getNumberOfDerivatives` (not part of the
sources): the length of the derivative sequence. -/
def getNumberOfDerivatives (v : Value R) : Nat := v.derivatives.length

/-- Modelled from the spec: `Value::getDerivative` (not part of the sources):
the derivative in slot `n`. -/
def getDerivative [Zero R] (v : Value R) (n : Nat) : R := v.derivatives.getD n 0

/-- Modelled from the spec: `Value::addDerivative` (not part of the sources):
`derivatives[i] += d`, an accumulation into slot `i`; a slot the sequence does
not have receives nothing. -/
def addDerivative [Zero R] [Add R] (v : Value R) (i : Nat) (d : R) : Value R :=
  { v with derivatives := v.derivatives.set i (v.derivatives.getD i 0 + d) }

/-- Modelled from the spec: `Value::resizeDerivatives` (not part of the
sources): the sequence is cut or padded with zeros to `n` slots. -/
def resizeDerivatives [Zero R] (v : Value R) (n : Nat) : Value R :=
  { v with derivatives := v.derivatives.take n ++ List.replicate (n - v.derivatives.length) 0 }

/-- Modelled from the spec: `Value::clearDerivatives` (not part of the
sources): every slot is set to zero, the number of slots being kept. -/
def clearDerivatives [Zero R] (v : Value R) : Value R :=
  { v with derivatives := v.derivatives.map (fun _ => 0) }

/-- Modelled from the spec: `Value::set` (not part of the sources): the scalar
is assigned. -/
def set (v : Value R) (x : R) : Value R := { v with value := x }

end Value

/-- Modelled from the spec: `Vessel::addToBufferElement` (vesselbase/Vessel.h,
not part of the sources): `buffer[i] += d` on the buffer the vessel writes to;
a slot the buffer does not have receives nothing. -/
def addToBufferElement {R : Type} [Zero R] [Add R] (buffer : List R) (i : Nat) (d : R) :
    List R :=
  buffer.set i (buffer.getD i 0 + d)

/-! ## Link index and number of atoms -/

/-- Modelled from the spec: `linkIndex` (tools/DynamicList.h, not part of the
sources), the translation of the local index `ii` of the list `l1` to a
position in the larger list `l2`.  The `ii`-th active member of `l1` names a
member of `l2`; the result is the local index of that member among the active
members of `l2`, and `-1` when `l1` has no `ii`-th active member or the member
named is not active in `l2` (unresolved). -/
def linkIndex {α : Type} (ii : Nat) (l1 : DynamicList Nat) (l2 : DynamicList α) : Int :=
  match l1.active[ii]? with
  | none => -1
  | some nn =>
    if l2.onoff.getD nn false then (((l2.onoff.take nn).filter (fun b => b)).length : Int)
    else -1

/-- The call `ActionAtomistic::getNumberOfAtoms()`: the number of atoms last
requested with `requestAtoms`. -/
def getNumberOfAtoms (s : MultiColvar) : Nat := s.requested.length

/-- The loop `for(unsigned i=lo;i<hi;++i) body` whose body can abort: the
error carries what the body had reached. -/
def forLoopE {σ ε : Type} (lo hi : Nat) (body : Nat → σ → Except ε σ) (s : σ) : Except ε σ :=
  (List.range' lo (hi - lo)).foldlM (fun acc i => body i acc) s

/-! ## mergeDerivatives -/

/-- The member function `MultiColvar::mergeDerivatives( jcv, value_in, df,
vstart, valout )` with a vessel as destination, on the buffer the vessel
writes to.  A failing `plumed_assert` returns the message with the buffer as
the abort leaves it.  The loop threads the buffer and the counter `in`. -/
def mergeDerivatives_Vessel {R : Type} [Zero R] [Add R] [Mul R] (s : MultiColvar) (jcv : Nat)
    (value_in : Value R) (df : R) (vstart : Nat) (valout : List R) :
    Except (String × List R) (List R) :=
  let cv := s.colvar_atoms.getD jcv DynamicList.empty
  if value_in.getNumberOfDerivatives ≠ 3 * cv.getNumberActive + 9 then
    .error ("plumed_assert: value_in.getNumberOfDerivatives()==" ++
            "3*colvar_atoms[jcv].getNumberActive()+9", valout)
  else
    let innat := cv.getNumberActive
    (forLoopE 0 innat (fun i (p : List R × Nat) =>
      let thisatom := linkIndex i cv s.all_atoms
      if ¬ (thisatom ≥ 0) then .error ("plumed_assert: thisatom>=0", p.1)
      else
        let thispos := vstart + 3 * thisatom.toNat
        let b := addToBufferElement p.1 thispos (df * value_in.getDerivative p.2)
        let b := addToBufferElement b (thispos + 1) (df * value_in.getDerivative (p.2 + 1))
        let b := addToBufferElement b (thispos + 2) (df * value_in.getDerivative (p.2 + 2))
        .ok (b, p.2 + 3)) (valout, 0)).bind fun p =>
    let outnat := vstart + 3 * getNumberOfAtoms s
    let b := addToBufferElement p.1 (outnat + 0) (df * value_in.getDerivative p.2)
    let b := addToBufferElement b (outnat + 1) (df * value_in.getDerivative (p.2 + 1))
    let b := addToBufferElement b (outnat + 2) (df * value_in.getDerivative (p.2 + 2))
    let b := addToBufferElement b (outnat + 3) (df * value_in.getDerivative (p.2 + 3))
    let b := addToBufferElement b (outnat + 4) (df * value_in.getDerivative (p.2 + 4))
    let b := addToBufferElement b (outnat + 5) (df * value_in.getDerivative (p.2 + 5))
    let b := addToBufferElement b (outnat + 6) (df * value_in.getDerivative (p.2 + 6))
    let b := addToBufferElement b (outnat + 7) (df * value_in.getDerivative (p.2 + 7))
    let b := addToBufferElement b (outnat + 8) (df * value_in.getDerivative (p.2 + 8))
    .ok b

/-- The member function `MultiColvar::mergeDerivatives( jcv, value_in, df,
valout )` with a `Value` as destination.  A failing `plumed_assert` returns
the message with the destination as the abort leaves it. -/
def mergeDerivatives_Value {R : Type} [Zero R] [Add R] [Mul R] (s : MultiColvar) (jcv : Nat)
    (value_in : Value R) (df : R) (valout : Value R) :
    Except (String × Value R) (Value R) :=
  let cv := s.colvar_atoms.getD jcv DynamicList.empty
  if value_in.getNumberOfDerivatives ≠ 3 * cv.getNumberActive + 9 then
    .error ("plumed_assert: value_in.getNumberOfDerivatives()==" ++
            "3*colvar_atoms[jcv].getNumberActive()+9", valout)
  else
    let innat := cv.getNumberActive
    (forLoopE 0 innat (fun i (valout : Value R) =>
      let thisatom := linkIndex i cv s.all_atoms
      if ¬ (thisatom ≥ 0) then .error ("plumed_assert: thisatom>=0", valout)
      else
        let v := valout.addDerivative (3 * thisatom.toNat + 0)
          (df * value_in.getDerivative (3 * i + 0))
        let v := v.addDerivative (3 * thisatom.toNat + 1) (df * value_in.getDerivative (3 * i + 1))
        let v := v.addDerivative (3 * thisatom.toNat + 2) (df * value_in.getDerivative (3 * i + 2))
        .ok v) valout).bind fun v =>
    let outnat := getNumberOfAtoms s
    let v := v.addDerivative (3 * outnat + 0) (df * value_in.getDerivative (3 * innat + 0))
    let v := v.addDerivative (3 * outnat + 1) (df * value_in.getDerivative (3 * innat + 1))
    let v := v.addDerivative (3 * outnat + 2) (df * value_in.getDerivative (3 * innat + 2))
    let v := v.addDerivative (3 * outnat + 3) (df * value_in.getDerivative (3 * innat + 3))
    let v := v.addDerivative (3 * outnat + 4) (df * value_in.getDerivative (3 * innat + 4))
    let v := v.addDerivative (3 * outnat + 5) (df * value_in.getDerivative (3 * innat + 5))
    let v := v.addDerivative (3 * outnat + 6) (df * value_in.getDerivative (3 * innat + 6))
    let v := v.addDerivative (3 * outnat + 7) (df * value_in.getDerivative (3 * innat + 7))
    let v := v.addDerivative (3 * outnat + 8) (df * value_in.getDerivative (3 * innat + 8))
    .ok v

/-! ## Vectors, tensors and the collaborators of the evaluator -/

/-- Modelled from the spec: the class `Vector` (tools/Vector.h, not part of the
sources), a 3-vector with components 0, 1, 2. -/
abbrev Vector (R : Type) := Fin 3 → R

/-- Modelled from the spec: the class `Tensor` (tools/Tensor.h, not part of the
sources), a 3×3 tensor, `t r c` being the entry `t(r,c)`. -/
abbrev Tensor (R : Type) := Fin 3 → Fin 3 → R

/-- Modelled from the spec: the assignment `x[c] = a` to a component of a
`Vector` (not part of the sources). -/
def Vector.setComponent {R : Type} (x : Vector R) (c : Fin 3) (a : R) : Vector R :=
  fun c' => if c' = c then a else x c'

/-- Modelled from the spec: the accumulation `t(r,c) += a` into an entry of a
`Tensor` (not part of the sources). -/
def Tensor.addEntry {R : Type} [Add R] (t : Tensor R) (r c : Fin 3) (a : R) : Tensor R :=
  fun r' c' => if r' = r ∧ c' = c then t r' c' + a else t r' c'

/-- Modelled from the spec: `Tensor::zero` (not part of the sources): every
entry is set to zero. -/
def Tensor.zero {R : Type} [Zero R] (_t : Tensor R) : Tensor R := fun _ _ => 0

/-- Modelled from the spec: `Tensor::transpose` (not part of the sources). -/
def Tensor.transpose {R : Type} (t : Tensor R) : Tensor R := fun r c => t c r

/-- Modelled from the spec: `matmul` of two tensors (tools/Tensor.h, not part
of the sources), the matrix product accumulated from zero. -/
def matmul {R : Type} [Zero R] [Add R] [Mul R] (a b : Tensor R) : Tensor R :=
  fun i j => 0 + a i 0 * b 0 j + a i 1 * b 1 j + a i 2 * b 2 j

/-- The call `v.resize(n)` of a `std::vector`: the sequence is cut or padded
with the default element `d` to `n` entries. -/
def vectorResize {α : Type} (l : List α) (n : Nat) (d : α) : List α :=
  l.take n ++ List.replicate (n - l.length) d

/-- The virtual functions of `MultiColvar` that the concrete colvar supplies
(declared in MultiColvar.h, not part of the sources), taken as parameters:
`isPossibleToSkip`, the pre-filter `contributionIsSmall`, the formula
`compute`, which returns the value and adds derivatives to `thisval` slot by
slot (given as the list of its `addDerivative` calls), and `getCentralAtom`,
which returns the central position and the derivative tensors, or aborts. -/
structure Colvar (R : Type) where
  isPossibleToSkip : Bool
  contributionIsSmall : List (Vector R) → Bool
  compute : Nat → List (Vector R) → R × List (Nat × R)
  getCentralAtom : List (Vector R) → List (Tensor R) → Except String (Vector R × List (Tensor R))

/-- What the evaluator asks of the host system and of the periodic box (classes
`ActionAtomistic` and `Pbc`, not part of the sources), taken as parameters:
the position of an atom, the conversion to scaled coordinates and the inverse
box matrix. -/
structure Host (R : Type) where
  getPosition : Nat → Vector R
  realToScaled : Vector R → Vector R
  getInvBox : Tensor R

/-- The data members of `MultiColvar` that the evaluation touches. -/
structure Evaluator (R : Type) where
  needsCentralAtomPosition : Bool
  pos : List (Vector R)
  thisval : Value R
  central_derivs : List (Tensor R)
  catom_pos : List (Value R)
  current : Nat

/-- The evaluation members as the constructor `MultiColvar::MultiColvar` leaves
them: `needsCentralAtomPosition(false)`, `catom_pos(3)`, `current(0)`, the
other members empty. -/
def Evaluator.init {R : Type} [Zero R] : Evaluator R :=
  { needsCentralAtomPosition := false, pos := [], thisval := ⟨0, []⟩, central_derivs := [],
    catom_pos := List.replicate 3 ⟨0, []⟩, current := 0 }

/-- The member function `MultiColvar::useCentralAtom()`. -/
def useCentralAtom {R : Type} (e : Evaluator R) : Evaluator R :=
  { e with needsCentralAtomPosition := true }

/-! ## calculateThisFunction -/

/-- The part of `calculateThisFunction` under `if(needsCentralAtomPosition)`:
the central position in scaled coordinates and its derivatives, stored in
`catom_pos`. -/
def centralAtomStep {R : Type} [Zero R] [Add R] [Mul R] (cvf : Colvar R) (host : Host R)
    (natoms : Nat) (e : Evaluator R) : Except String (Evaluator R) :=
  let e := if e.central_derivs.length ≠ e.pos.length then
      { e with central_derivs := vectorResize e.central_derivs e.pos.length (fun _ _ => 0) }
    else e
  match cvf.getCentralAtom e.pos e.central_derivs with
  | .error m => .error m
  | .ok (central_pos, central_derivs) =>
    let fpos := host.realToScaled central_pos
    let nder := 3 * e.pos.length + 9
    let catom_pos := forLoop 0 3 (fun i (cp : List (Value R)) =>
      let v := cp.getD i ⟨0, []⟩
      let v := if v.getNumberOfDerivatives ≠ nder then v.resizeDerivatives nder else v
      cp.set i v.clearDerivatives) e.catom_pos
    let catom_pos := catom_pos.set 0 ((catom_pos.getD 0 ⟨0, []⟩).set (fpos 0))
    let catom_pos := catom_pos.set 1 ((catom_pos.getD 1 ⟨0, []⟩).set (fpos 1))
    let catom_pos := catom_pos.set 2 ((catom_pos.getD 2 ⟨0, []⟩).set (fpos 2))
    let ibox := host.getInvBox.transpose
    let catom_pos := forLoop 0 natoms (fun i (cp : List (Value R)) =>
      let dbox := matmul ibox (central_derivs.getD i (fun _ _ => 0))
      forLoop 0 3 (fun j (cp : List (Value R)) =>
        let cp := cp.set 0 ((cp.getD 0 ⟨0, []⟩).addDerivative (3 * i + j)
          (dbox 0 (Fin.ofNat j)))
        let cp := cp.set 1 ((cp.getD 1 ⟨0, []⟩).addDerivative (3 * i + j)
          (dbox 1 (Fin.ofNat j)))
        cp.set 2 ((cp.getD 2 ⟨0, []⟩).addDerivative (3 * i + j) (dbox 2 (Fin.ofNat j)))) cp)
      catom_pos
    .ok { e with central_derivs := central_derivs, catom_pos := catom_pos }

/-- The member function `MultiColvar::calculateThisFunction( j )`: the result
is the boolean returned (true for a skipped colvar) with the evaluation
members as the call leaves them, or the abort of `getCentralAtom`. -/
def calculateThisFunction {R : Type} [Zero R] [Add R] [Mul R] (cvf : Colvar R) (host : Host R)
    (s : MultiColvar) (e : Evaluator R) (j : Nat) : Except String (Bool × Evaluator R) :=
  let cv := s.colvar_atoms.getD j DynamicList.empty
  let natoms := cv.getNumberActive
  if natoms = 0 then .ok (true, e)
  else
    let e := if e.pos.length ≠ natoms then
        let pos := vectorResize e.pos natoms (fun _ => 0)
        { e with pos := pos, thisval := e.thisval.resizeDerivatives (3 * pos.length + 9) }
      else e
    let pos := forLoop 0 natoms (fun i (pos : List (Vector R)) =>
      pos.set i (host.getPosition (cv.active.getD i 0))) e.pos
    let e := { e with pos := pos, thisval := e.thisval.clearDerivatives }
    if cvf.contributionIsSmall e.pos then .ok (true, e)
    else
      let e := { e with current := j }
      let r := cvf.compute j e.pos
      let thisval := r.2.foldl (fun (v : Value R) a => v.addDerivative a.1 a.2) e.thisval
      let e := { e with thisval := thisval.set r.1 }
      if e.needsCentralAtomPosition then
        (centralAtomStep cvf host natoms e).bind fun e => .ok (false, e)
      else .ok (false, e)

/-! ## retrieveColvarWeight -/

/-- The member function `MultiColvar::retrieveColvarWeight( j, ww )`. -/
def retrieveColvarWeight {R : Type} [Zero R] [One R] (cvf : Colvar R) (s : MultiColvar)
    (j : Nat) (ww : Value R) : Except String (Value R) :=
  if cvf.isPossibleToSkip then
    .error ("cannot calculate this quantity for this setup. You have something that causes " ++
      "colvars to be skipped without being calculated.  This can cause discontinuities " ++
      "in the final value of the quantity")
  else
    let nder := 3 * (s.colvar_atoms.getD j DynamicList.empty).getNumberActive + 9
    let ww := if ww.getNumberOfDerivatives ≠ nder then ww.resizeDerivatives nder else ww
    .ok (ww.clearDerivatives.set 1)

/-! ## apply -/

/-- Modelled from the spec: a vessel (vesselbase/Vessel.h, not part of the
sources) as `apply` sees it: `applyForce( forces )` reports whether the vessel
holds a pending force and leaves the buffer it was given as it returns it. -/
structure Vessel (R : Type) where
  applyForce : List R → Bool × List R

/-- Modelled from the spec: the two kinds of vessel of the specification: one
that reports no pending contribution and leaves the buffer alone (`none`), and
one that reports a contribution and fills the buffer with it (`some F`). -/
def Vessel.ofReport {R : Type} (r : Option (List R)) : Vessel R :=
  match r with
  | none => { applyForce := fun forces => (false, forces) }
  | some F => { applyForce := fun _ => (true, F) }

/-- The body of the loop over the vessels in `MultiColvar::apply()`, for one
vessel, on the force array, the virial and the buffer `forces`. -/
def applyVessel {R : Type} [Zero R] [Add R] (nat vstart : Nat) (vessel : Vessel R)
    (st : List (Vector R) × Tensor R × List R) : List (Vector R) × Tensor R × List R :=
  let a := vessel.applyForce st.2.2
  let forces := a.2
  if a.1 then
    let f := forLoop 0 nat (fun j (f : List (Vector R)) =>
      let x := f.getD j (fun _ => 0)
      let x := x.setComponent 0 (x 0 + forces.getD (3 * j + 0) 0)
      let x := x.setComponent 1 (x 1 + forces.getD (3 * j + 1) 0)
      let x := x.setComponent 2 (x 2 + forces.getD (3 * j + 2) 0)
      f.set j x) st.1
    let v := st.2.1
    let v := v.addEntry 0 0 (forces.getD (vstart + 0) 0)
    let v := v.addEntry 0 1 (forces.getD (vstart + 1) 0)
    let v := v.addEntry 0 2 (forces.getD (vstart + 2) 0)
    let v := v.addEntry 1 0 (forces.getD (vstart + 3) 0)
    let v := v.addEntry 1 1 (forces.getD (vstart + 4) 0)
    let v := v.addEntry 1 2 (forces.getD (vstart + 5) 0)
    let v := v.addEntry 2 0 (forces.getD (vstart + 6) 0)
    let v := v.addEntry 2 1 (forces.getD (vstart + 7) 0)
    let v := v.addEntry 2 2 (forces.getD (vstart + 8) 0)
    (f, v, forces)
  else (st.1, st.2.1, forces)

/-- The member function `MultiColvar::apply()`, on the force array and the
virial that `modifyForces()` and `modifyVirial()` give, with the vessels of
`getPntrToVessel`; the result is the force array and the virial afterwards. -/
def apply {R : Type} [Zero R] [Add R] (s : MultiColvar) (vessels : List (Vessel R))
    (f : List (Vector R)) (v : Tensor R) : List (Vector R) × Tensor R :=
  let f := forLoop 0 f.length (fun i (f : List (Vector R)) =>
    f.set i ((((f.getD i (fun _ => 0)).setComponent 0 0).setComponent 1 0).setComponent 2 0)) f
  let v := v.zero
  let nat := getNumberOfAtoms s
  let forces : List R := List.replicate (3 * getNumberOfAtoms s + 9) 0
  let vstart := 3 * getNumberOfAtoms s
  let r := forLoop 0 vessels.length
    (fun i (st : List (Vector R) × Tensor R × List R) =>
      applyVessel nat vstart (vessels.getD i (Vessel.ofReport none)) st) (f, v, forces)
  (r.1, r.2.1)

/-! ## Test inputs -/

/-- An input line of a colvar that registers every keyword. -/
def mkInput (numbered : List (List AtomNumber))
    (group groupa groupb species speciesa speciesb : List AtomNumber) : Input :=
  { keywords_exists := fun _ => true,
    numbered := numbered,
    atoms := fun k => match k with
      | .ATOMS => []
      | .GROUP => group
      | .GROUPA => groupa
      | .GROUPB => groupb
      | .SPECIES => species
      | .SPECIESA => speciesa
      | .SPECIESB => speciesb }

/-- An input line of a colvar that registers `SPECIES` only. -/
def speciesOnlyInput (species : List AtomNumber) : Input :=
  { keywords_exists := fun k => decide (k = .SPECIES),
    numbered := [],
    atoms := fun k => if k = .SPECIES then species else [] }

/-- The amount that, in the words of the specification, a scatter of instance
`jcv` with source `value_in` and weight `df` adds to slot `p` of the
destination: `df*value_in[3i+c]` for every active local atom `i` and component
`c` whose slot `3*g_i+c` is `p`, `g_i` being the link index of `i`, and
`df*value_in[3k+m]` for every `m < 9` whose slot `3N+m` is `p`. -/
def scatteredAmount {R : Type} [Semiring R] (s : MultiColvar) (jcv : Nat)
    (value_in : Value R) (df : R) (p : Nat) : R :=
  (∑ i ∈ Finset.range (s.colvar_atoms.getD jcv DynamicList.empty).getNumberActive,
    ∑ c ∈ Finset.range 3,
      if 3 * (linkIndex i (s.colvar_atoms.getD jcv DynamicList.empty) s.all_atoms).toNat + c = p
      then df * value_in.getDerivative (3 * i + c) else 0) +
  ∑ m ∈ Finset.range 9,
    if 3 * getNumberOfAtoms s + m = p
    then df * value_in.getDerivative
      (3 * (s.colvar_atoms.getD jcv DynamicList.empty).getNumberActive + m)
    else 0

/-- The object of example scenario D: two atoms requested, one instance whose
only active atom is the second of them. -/
def scenarioD : MultiColvar :=
  { readatoms := true, verbose_output := false,
    colvar_atoms := [{ all := [1], onoff := [true], active := [1] }],
    all_atoms := { all := [10, 20], onoff := [true, true], active := [10, 20] },
    requested := [10, 20] }

/-- An object with two atoms requested and two instances whose only active
atom is the second of them. -/
def scenarioShared : MultiColvar :=
  { readatoms := true, verbose_output := false,
    colvar_atoms := [{ all := [1], onoff := [true], active := [1] },
                     { all := [1], onoff := [true], active := [1] }],
    all_atoms := { all := [10, 20], onoff := [true, true], active := [10, 20] },
    requested := [10, 20] }

/-- A colvar over the integers: never skipped, value 5, one derivative added
to the first slot, no central atom. -/
def sampleColvar : Colvar ℤ :=
  { isPossibleToSkip := false, contributionIsSmall := fun _ => false,
    compute := fun _ _ => (5, [(0, 1)]), getCentralAtom := fun _ _ => .error "unsupported" }

/-- A host over the integers with every atom at the origin and a unit box. -/
def sampleHost : Host ℤ :=
  { getPosition := fun _ _ => 0, realToScaled := fun x => x,
    getInvBox := fun r c => if r = c then 1 else 0 }

/-- An object with two atoms requested, a first instance with both atoms active
and a second instance with no active atom. -/
def scenarioSkip : MultiColvar :=
  { readatoms := true, verbose_output := false,
    colvar_atoms := [{ all := [0, 1], onoff := [true, true], active := [0, 1] },
                     { all := [0, 1], onoff := [false, false], active := [] }],
    all_atoms := { all := [10, 20], onoff := [true, true], active := [10, 20] },
    requested := [10, 20] }

/-- A colvar over the integers whose central atom is its first atom: never
skipped, value 0, no derivative of the value; `getCentralAtom` returns the
position of the first atom and writes the unit tensor as its derivative with
respect to that atom. -/
def centralColvar : Colvar ℤ :=
  { isPossibleToSkip := false, contributionIsSmall := fun _ => false,
    compute := fun _ _ => (0, []),
    getCentralAtom := fun pos deriv =>
      .ok (pos.getD 0 (fun _ => 0), deriv.set 0 (fun r c => if r = c then 1 else 0)) }

/-- A host over the integers with a sheared box: atom `n` sits at `(n, 0, 0)`,
the inverse box is the unit matrix with one more entry 1 in row 0, column 1,
and the scaled coordinates are the row vector times the inverse box. -/
def skewHost : Host ℤ :=
  { getPosition := fun n c => if c = 0 then (n : ℤ) else 0,
    realToScaled := fun x c => if c = 1 then x 0 + x 1 else x c,
    getInvBox := fun r c => if r = c then 1 else if r = 0 ∧ c = 1 then 1 else 0 }

/-- The evaluation members after instance 0 of `scenarioD` is evaluated with
`centralColvar` on `skewHost`, the central position being required. -/
def centralResult : Evaluator ℤ :=
  { needsCentralAtomPosition := true,
    pos := [skewHost.getPosition 1],
    thisval := ⟨0, [0, 0, 0, 0, 0, 0, 0, 0, 0, 0, 0, 0]⟩,
    central_derivs := [fun r c => if r = c then 1 else 0],
    catom_pos := [⟨1, [1, 0, 0, 0, 0, 0, 0, 0, 0, 0, 0, 0]⟩,
                  ⟨1, [1, 1, 0, 0, 0, 0, 0, 0, 0, 0, 0, 0]⟩,
                  ⟨0, [0, 0, 1, 0, 0, 0, 0, 0, 0, 0, 0, 0]⟩],
    current := 0 }

/-- The index sequences of the colvars of a result, when there is one. -/
def colvarsOf (r : Except String (Int × MultiColvar)) : Option (List (List Nat)) :=
  match r with
  | .ok (_, s) => some (s.colvar_atoms.map (fun l => l.all))
  | .error _ => none

/-- The list with members `xs`, as a sequence of `addIndexToList` builds it. -/
def DynamicList.ofList {α : Type} (xs : List α) : DynamicList α :=
  { all := xs, onoff := xs.map (fun _ => false), active := [] }

/-! ## Lemmas on the loops -/

theorem forLoop_zero_eq_foldl {σ : Type} (n : Nat) (body : Nat → σ → σ) (s : σ) :
    forLoop 0 n body s = (List.range n).foldl (fun acc i => body i acc) s := by
  simp [forLoop, List.range_eq_range']

theorem forLoop_one_eq_foldl {σ : Type} (n : Nat) (body : Nat → σ → σ) (s : σ) :
    forLoop 1 n body s = (List.range' 1 (n - 1)).foldl (fun acc i => body i acc) s := rfl

/-- A loop whose body pushes the block `F i` and hands the scratch variable
back as it found it pushes the blocks of all iterations, in order. -/
theorem foldl_push {β γ : Type} (F : Nat → List β) (e : γ)
    (body : List β × γ → Nat → List β × γ)
    (h : ∀ i cv, body (cv, e) i = (cv ++ F i, e)) (L : List Nat) (cv : List β) :
    L.foldl body (cv, e) = (cv ++ L.flatMap F, e) := by
  induction L generalizing cv with
  | nil => simp
  | cons a L ih => simp [h, ih, List.flatMap_cons, List.append_assoc]

theorem flatMap_singleton_eq_map {α β : Type} (f : α → β) (L : List α) :
    L.flatMap (fun j => [f j]) = L.map f := by
  induction L with
  | nil => rfl
  | cons a L ih => simp [List.flatMap_cons, ih]

/-- A loop whose body pushes one element `f i` pushes `f` of every index. -/
theorem foldl_push_one {β γ : Type} (f : Nat → β) (e : γ)
    (body : List β × γ → Nat → List β × γ)
    (h : ∀ i cv, body (cv, e) i = (cv ++ [f i], e)) (L : List Nat) (cv : List β) :
    L.foldl body (cv, e) = (cv ++ L.map f, e) := by
  rw [foldl_push (fun i => [f i]) e body h, flatMap_singleton_eq_map]

theorem foldl_addIndexToList {α : Type} (g : Nat → α) (L : List Nat) (l : DynamicList α) :
    L.foldl (fun acc i => acc.addIndexToList (g i)) l =
      { all := l.all ++ L.map g, onoff := l.onoff ++ L.map (fun _ => false),
        active := l.active } := by
  induction L generalizing l with
  | nil => simp
  | cons a L ih =>
    rw [List.foldl_cons, ih]
    simp [DynamicList.addIndexToList]

theorem map_getD_range {α : Type} (t : List α) (d : α) :
    (List.range t.length).map (fun i => t.getD i d) = t := by
  apply List.ext_getElem
  · simp
  · intro i h1 h2
    simp [List.getD_eq_getElem?_getD, List.getElem?_eq_getElem h2]

theorem addAllToList_eq (t : List AtomNumber) (l : DynamicList AtomNumber) :
    addAllToList t l =
      { all := l.all ++ t, onoff := l.onoff ++ t.map (fun _ => false),
        active := l.active } := by
  unfold addAllToList
  rw [forLoop_zero_eq_foldl, foldl_addIndexToList, map_getD_range]
  congr 2
  apply List.ext_getElem <;> simp

theorem addAllToList_all (t : List AtomNumber) (l : DynamicList AtomNumber) :
    (addAllToList t l).all = l.all ++ t := by
  rw [addAllToList_eq]

theorem groupLoops_eq (n : Nat) (cv : List (DynamicList Nat)) :
    groupLoops n (cv, DynamicList.empty) =
      (cv ++ (List.range' 1 (n - 1)).flatMap (fun i =>
          (List.range i).map (fun j => DynamicList.ofList [i, j])),
       DynamicList.empty) := by
  unfold groupLoops
  rw [forLoop_one_eq_foldl]
  apply foldl_push
  intro i cv
  rw [forLoop_zero_eq_foldl]
  exact foldl_push_one (fun j => DynamicList.ofList [i, j]) (DynamicList.empty (α := Nat))
    (fun p j => (p.1 ++ [(p.2.addIndexToList i).addIndexToList j],
                  ((p.2.addIndexToList i).addIndexToList j).clear))
    (by intro j cv; rfl) (List.range i) cv

theorem length_pairs_two_mul (n : Nat) :
    2 * ((List.range' 1 (n - 1)).flatMap (fun i =>
          (List.range i).map (fun j => DynamicList.ofList [i, j]))).length = n * (n - 1) := by
  induction n with
  | zero => simp
  | succ n ih =>
    cases n with
    | zero => simp
    | succ m =>
      simp only [Nat.add_sub_cancel] at ih ⊢
      rw [List.range'_concat, List.flatMap_append, List.length_append, Nat.mul_add, ih]
      simp
      ring

theorem map_all_pairs (n : Nat) :
    ((List.range' 1 (n - 1)).flatMap (fun i =>
        (List.range i).map (fun j => DynamicList.ofList [i, j]))).map (fun l => l.all) =
      (List.range' 1 (n - 1)).flatMap (fun i => (List.range i).map (fun j => [i, j])) := by
  simp [List.map_flatMap, DynamicList.ofList, Function.comp_def]

theorem mem_pairs (n : Nat) (p : List Nat) :
    p ∈ (List.range' 1 (n - 1)).flatMap (fun i => (List.range i).map (fun j => [i, j])) ↔
      ∃ i j, j < i ∧ i < n ∧ p = [i, j] := by
  simp only [List.mem_flatMap, List.mem_map, List.mem_range, List.mem_range'_1]
  constructor
  · rintro ⟨i, ⟨h1, h2⟩, j, hj, rfl⟩
    exact ⟨i, j, hj, by omega, rfl⟩
  · rintro ⟨i, j, hj, hi, rfl⟩
    exact ⟨i, ⟨by omega, by omega⟩, j, hj, rfl⟩

theorem nodup_pairs (n : Nat) :
    ((List.range' 1 (n - 1)).flatMap (fun i => (List.range i).map (fun j => [i, j]))).Nodup := by
  rw [List.nodup_flatMap]
  constructor
  · intro i _
    apply List.Nodup.map _ (List.nodup_range i)
    intro a b h
    simpa using h
  · apply List.Pairwise.imp _ (List.nodup_range' 1 (n - 1))
    intro a b hab
    simp only [Function.onFun]
    rw [List.disjoint_left]
    intro x hx hy
    simp only [List.mem_map, List.mem_range] at hx hy
    obtain ⟨j, _, rfl⟩ := hx
    obtain ⟨k, _, h⟩ := hy
    simp at h
    exact hab h.1.symm

/-- The `GROUP` branch of `readGroupsKeyword`, in closed form. -/
theorem readGroupsKeyword_group (inp : Input) (s : MultiColvar)
    (hread : s.readatoms = false)
    (hA : inp.keywords_exists .GROUPA = true) (hB : inp.keywords_exists .GROUPB = true)
    (hne : parseAtomList inp .GROUP ≠ []) :
    readGroupsKeyword inp 2 s = .ok (2,
      { s with
        readatoms := true
        all_atoms := addAllToList (parseAtomList inp .GROUP) s.all_atoms
        colvar_atoms := s.colvar_atoms ++
          (List.range' 1 ((parseAtomList inp .GROUP).length - 1)).flatMap (fun i =>
            (List.range i).map (fun j => DynamicList.ofList [i, j])) }) := by
  simp [readGroupsKeyword, hread, hA, hB, hne, groupLoops_eq, pure, Except.pure, bind,
    Except.bind]

theorem length_flatMap_range_map {β : Type} (f : Nat → Nat → β) (n1 n2 : Nat) :
    ((List.range n1).flatMap (fun i => (List.range n2).map (f i))).length = n1 * n2 := by
  induction n1 with
  | zero => simp
  | succ n ih =>
    rw [List.range_succ, List.flatMap_append, List.length_append, ih]
    simp [List.flatMap_cons]
    ring

theorem getElem?_flatMap_range_map {β : Type} (f : Nat → Nat → β) (n1 n2 i j : Nat)
    (hi : i < n1) (hj : j < n2) :
    ((List.range n1).flatMap (fun i => (List.range n2).map (f i)))[i * n2 + j]? =
      some (f i j) := by
  induction n1 with
  | zero => omega
  | succ n ih =>
    rw [List.range_succ, List.flatMap_append]
    have hlen := length_flatMap_range_map f n n2
    by_cases h : i < n
    · have hlt : i * n2 + j < n * n2 := by
        have : (i + 1) * n2 ≤ n * n2 := Nat.mul_le_mul_right _ h
        rw [Nat.add_mul] at this
        omega
      rw [List.getElem?_append_left (by rw [hlen]; exact hlt)]
      exact ih h
    · have hin : i = n := by omega
      subst hin
      rw [List.getElem?_append_right (by rw [hlen]; omega)]
      simp [hlen, List.flatMap_cons, hj]

theorem groupABLoops_eq (n1 n2 : Nat) (cv : List (DynamicList Nat)) :
    groupABLoops n1 n2 (cv, DynamicList.empty) =
      (cv ++ (List.range n1).flatMap (fun i =>
          (List.range n2).map (fun j => DynamicList.ofList [i, n1 + j])),
       DynamicList.empty) := by
  unfold groupABLoops
  rw [forLoop_zero_eq_foldl]
  apply foldl_push
  intro i cv
  rw [forLoop_zero_eq_foldl]
  exact foldl_push_one (fun j => DynamicList.ofList [i, n1 + j]) (DynamicList.empty (α := Nat))
    (fun p j => (p.1 ++ [(p.2.addIndexToList i).addIndexToList (n1 + j)],
                  ((p.2.addIndexToList i).addIndexToList (n1 + j)).clear))
    (by intro j cv; rfl) (List.range n2) cv

/-- The `GROUPA`/`GROUPB` branch of `readGroupsKeyword`, in closed form. -/
theorem readGroupsKeyword_groupAB (inp : Input) (s : MultiColvar)
    (hread : s.readatoms = false)
    (hA : inp.keywords_exists .GROUPA = true) (hB : inp.keywords_exists .GROUPB = true)
    (hG : parseAtomList inp .GROUP = [])
    (hne1 : parseAtomList inp .GROUPA ≠ []) (hne2 : parseAtomList inp .GROUPB ≠ []) :
    readGroupsKeyword inp 2 s = .ok (2,
      { s with
        readatoms := true
        all_atoms := addAllToList (parseAtomList inp .GROUPB)
          (addAllToList (parseAtomList inp .GROUPA) s.all_atoms)
        colvar_atoms := s.colvar_atoms ++
          (List.range (parseAtomList inp .GROUPA).length).flatMap (fun i =>
            (List.range (parseAtomList inp .GROUPB).length).map (fun j =>
              DynamicList.ofList [i, (parseAtomList inp .GROUPA).length + j])) }) := by
  simp [readGroupsKeyword, hread, hA, hB, hG, hne1, hne2, groupABLoops_eq, pure, Except.pure,
    bind, Except.bind]

theorem foldl_addIndexToList_if {α : Type} (g : Nat → α) (c : Nat → Bool) (L : List Nat)
    (l : DynamicList α) :
    L.foldl (fun acc i => if c i then acc.addIndexToList (g i) else acc) l =
      { all := l.all ++ (L.filter c).map g,
        onoff := l.onoff ++ (L.filter c).map (fun _ => false),
        active := l.active } := by
  induction L generalizing l with
  | nil => simp
  | cons a L ih =>
    rw [List.foldl_cons, ih]
    cases h : c a <;> simp [h, DynamicList.addIndexToList]

theorem speciesLoops_eq (n : Nat) (cv : List (DynamicList Nat)) :
    speciesLoops n (cv, DynamicList.empty) =
      (cv ++ (List.range n).map (fun i =>
          DynamicList.ofList (i :: (List.range n).filter (fun j => decide (i ≠ j)))),
       DynamicList.empty) := by
  unfold speciesLoops
  rw [forLoop_zero_eq_foldl]
  apply foldl_push_one
  intro i cv
  simp only [forLoop_zero_eq_foldl]
  have h := foldl_addIndexToList_if (fun j => j) (fun j => decide (i ≠ j)) (List.range n)
    ((DynamicList.empty (α := Nat)).addIndexToList i)
  simp only [decide_eq_true_eq] at h
  rw [h]
  simp [DynamicList.ofList, DynamicList.addIndexToList, DynamicList.empty, DynamicList.clear]

theorem speciesOnlyLoop_eq (n : Nat) (cv : List (DynamicList Nat)) :
    speciesOnlyLoop n (cv, DynamicList.empty) =
      (cv ++ (List.range n).map (fun i => DynamicList.ofList [i]), DynamicList.empty) := by
  unfold speciesOnlyLoop
  rw [forLoop_zero_eq_foldl]
  apply foldl_push_one
  intro i cv
  rfl

theorem speciesABLoops_eq (n1 n2 : Nat) (cv : List (DynamicList Nat)) :
    speciesABLoops n1 n2 (cv, DynamicList.empty) =
      (cv ++ (List.range n1).map (fun i =>
          DynamicList.ofList (i :: (List.range n2).map (fun j => n1 + j))),
       DynamicList.empty) := by
  unfold speciesABLoops
  rw [forLoop_zero_eq_foldl]
  apply foldl_push_one
  intro i cv
  simp only [forLoop_zero_eq_foldl]
  rw [foldl_addIndexToList (fun j => n1 + j)]
  simp [DynamicList.ofList, DynamicList.addIndexToList, DynamicList.empty, DynamicList.clear]

/-- The `SPECIES` branch of `readSpeciesKeyword`, in closed form. -/
theorem readSpeciesKeyword_species (inp : Input) (natoms : Int) (s : MultiColvar)
    (hread : s.readatoms = false) (hne : parseAtomList inp .SPECIES ≠ []) :
    readSpeciesKeyword inp natoms s = .ok (((parseAtomList inp .SPECIES).length : Int),
      { s with
        readatoms := true
        all_atoms := addAllToList (parseAtomList inp .SPECIES) s.all_atoms
        colvar_atoms := s.colvar_atoms ++
          (List.range (parseAtomList inp .SPECIES).length).map (fun i =>
            if inp.keywords_exists .SPECIESA && inp.keywords_exists .SPECIESB then
              DynamicList.ofList
                (i :: (List.range (parseAtomList inp .SPECIES).length).filter
                  (fun j => decide (i ≠ j)))
            else DynamicList.ofList [i]) }) := by
  cases hAB : (inp.keywords_exists .SPECIESA && inp.keywords_exists .SPECIESB) <;>
    simp [readSpeciesKeyword, hread, hne, hAB, speciesLoops_eq, speciesOnlyLoop_eq, pure,
      Except.pure, bind, Except.bind]

/-- The `SPECIESA`/`SPECIESB` branch of `readSpeciesKeyword`, in closed form. -/
theorem readSpeciesKeyword_speciesAB (inp : Input) (natoms : Int) (s : MultiColvar)
    (hread : s.readatoms = false)
    (hA : inp.keywords_exists .SPECIESA = true) (hB : inp.keywords_exists .SPECIESB = true)
    (hS : parseAtomList inp .SPECIES = [])
    (hne1 : parseAtomList inp .SPECIESA ≠ []) (hne2 : parseAtomList inp .SPECIESB ≠ []) :
    readSpeciesKeyword inp natoms s = .ok (1 + ((parseAtomList inp .SPECIESB).length : Int),
      { s with
        readatoms := true
        all_atoms := addAllToList (parseAtomList inp .SPECIESB)
          (addAllToList (parseAtomList inp .SPECIESA) s.all_atoms)
        colvar_atoms := s.colvar_atoms ++
          (List.range (parseAtomList inp .SPECIESA).length).map (fun i =>
            DynamicList.ofList (i :: (List.range (parseAtomList inp .SPECIESB).length).map
              (fun j => (parseAtomList inp .SPECIESA).length + j))) }) := by
  simp [readSpeciesKeyword, hread, hA, hB, hS, hne1, hne2, speciesABLoops_eq, pure, Except.pure,
    bind, Except.bind]

theorem length_filter_ne_range (i n : Nat) :
    ((List.range n).filter (fun j => decide (i ≠ j))).length = if i < n then n - 1 else n := by
  induction n with
  | zero => simp
  | succ n ih =>
    rw [List.range_succ, List.filter_append, List.length_append, ih]
    by_cases h : i = n
    · subst h; simp
    · by_cases h2 : i < n
      · have h3 : i < n + 1 := by omega
        simp [h, h2, h3]
        omega
      · have h3 : ¬ i < n + 1 := by omega
        simp [h, h2, h3]

theorem foldl_pair_addIndexToList {α β : Type} (f : Nat → α) (g : Nat → β) (L : List Nat)
    (a : DynamicList α) (b : DynamicList β) :
    L.foldl (fun (p : DynamicList α × DynamicList β) j =>
        (p.1.addIndexToList (f j), p.2.addIndexToList (g j))) (a, b) =
      (L.foldl (fun acc j => acc.addIndexToList (f j)) a,
       L.foldl (fun acc j => acc.addIndexToList (g j)) b) := by
  induction L generalizing a b with
  | nil => rfl
  | cons x L ih => simp [ih]

/-- The first iteration of the loop of `readAtomsKeyword` fixes a negative
`natoms` to the length of the first tuple. -/
theorem readAtomsKeywordLoop_neg (t : List AtomNumber) (rest : List (List AtomNumber))
    (natoms : Int) (hneg : natoms < 0) (nl : DynamicList Nat) (s : MultiColvar)
    (hne : t ≠ []) :
    readAtomsKeywordLoop (t :: rest) 1 natoms nl s =
      readAtomsKeywordLoop (t :: rest) 1 (t.length : Int) nl s := by
  have h : ¬ ((t.length : Int) < 0) := by omega
  simp [readAtomsKeywordLoop, hneg, h, hne]

/-- One iteration of the loop of `readAtomsKeyword` on a tuple of the right
length. -/
theorem readAtomsKeywordLoop_cons (t : List AtomNumber) (rest : List (List AtomNumber))
    (i : Nat) (s : MultiColvar) (hne : t ≠ []) :
    readAtomsKeywordLoop (t :: rest) i (t.length : Int) DynamicList.empty s =
      readAtomsKeywordLoop rest (i + 1) (t.length : Int) DynamicList.empty
        { s with
          all_atoms := addAllToList t s.all_atoms
          colvar_atoms := s.colvar_atoms ++
            [DynamicList.ofList ((List.range t.length).map (fun j => t.length * (i - 1) + j))]
          readatoms := true } := by
  have h : ¬ ((t.length : Int) < 0) := by omega
  rw [readAtomsKeywordLoop]
  simp only [List.isEmpty_eq_true, hne, if_false, h, and_false, ne_eq, not_true_eq_false,
    Int.toNat_ofNat, forLoop_zero_eq_foldl, foldl_pair_addIndexToList, foldl_addIndexToList,
    map_getD_range, DynamicList.clear]
  congr 1
  rw [addAllToList_eq]
  simp only [DynamicList.ofList, DynamicList.empty, List.nil_append, List.map_map,
    Function.comp_def]
  congr 3
  apply List.ext_getElem <;> simp

/-- One iteration of the loop of `readAtomsKeyword` on a tuple of the wrong
length. -/
theorem readAtomsKeywordLoop_cons_error (t : List AtomNumber) (rest : List (List AtomNumber))
    (i n : Nat) (nl : DynamicList Nat) (s : MultiColvar) (hne : t ≠ []) (hlen : t.length ≠ n) :
    readAtomsKeywordLoop (t :: rest) i (n : Int) nl s =
      .error ("ATOMS" ++ toString i ++ " keyword has the wrong number of atoms") := by
  have h : ¬ ((n : Int) < 0) := by omega
  have h2 : ¬ ((t.length : Int) = (n : Int)) := by omega
  rw [readAtomsKeywordLoop]
  simp [hne, h, h2]

/-- The loop of `readAtomsKeyword` on tuples that all have `n` atoms: it
succeeds, the registry receives the tuples in order and the tuple read at
iteration `i + k` gives the instance holding the positions
`n*(i+k-1) .. n*(i+k-1)+n-1`. -/
theorem readAtomsKeywordLoop_ok (n : Nat) (ts : List (List AtomNumber))
    (hne : ∀ t ∈ ts, t ≠ []) (hlen : ∀ t ∈ ts, t.length = n) (i : Nat) (hi : 1 ≤ i)
    (s : MultiColvar) :
    ∃ s', readAtomsKeywordLoop ts i (n : Int) DynamicList.empty s = .ok ((n : Int), s') ∧
      s'.all_atoms.all = s.all_atoms.all ++ ts.flatten ∧
      s'.colvar_atoms = s.colvar_atoms ++ (List.range ts.length).map (fun k =>
        DynamicList.ofList ((List.range n).map (fun j => n * (i - 1 + k) + j))) ∧
      s'.readatoms = (s.readatoms || !ts.isEmpty) := by
  induction ts generalizing i s with
  | nil => exact ⟨s, by simp [readAtomsKeywordLoop]⟩
  | cons t rest ih =>
    have ht : t.length = n := hlen t (by simp)
    subst ht
    obtain ⟨s', h1, h2, h3, h4⟩ := ih (fun u hu => hne u (by simp [hu]))
      (fun u hu => hlen u (by simp [hu])) (i + 1) (by omega)
      { s with
        all_atoms := addAllToList t s.all_atoms
        colvar_atoms := s.colvar_atoms ++
          [DynamicList.ofList ((List.range t.length).map (fun j => t.length * (i - 1) + j))]
        readatoms := true }
    refine ⟨s', ?_, ?_, ?_, ?_⟩
    · rw [readAtomsKeywordLoop_cons t rest i s (hne t (by simp))]
      exact h1
    · rw [h2]
      simp [addAllToList_all]
    · rw [h3, List.length_cons, List.range_succ_eq_map]
      simp only [List.map_cons, List.map_map, Function.comp_def, List.append_assoc,
        List.singleton_append, Nat.add_zero]
      congr 2
      apply List.map_congr_left
      intro k _
      have e : i + 1 - 1 + k = i - 1 + (k + 1) := by omega
      simp only [Nat.succ_eq_add_one, e]
    · rw [h4]
      simp

/-- The loop of `readAtomsKeyword` fails at the first tuple whose length is
not `n`, with the number of that tuple in the message. -/
theorem readAtomsKeywordLoop_error (n : Nat) (ts : List (List AtomNumber))
    (hne : ∀ t ∈ ts, t ≠ []) (k : Nat) (hk : k < ts.length)
    (hpre : ∀ m, m < k → (ts.getD m []).length = n) (hbad : (ts.getD k []).length ≠ n)
    (i : Nat) (s : MultiColvar) :
    readAtomsKeywordLoop ts i (n : Int) DynamicList.empty s =
      .error ("ATOMS" ++ toString (i + k) ++ " keyword has the wrong number of atoms") := by
  induction ts generalizing k i s with
  | nil => simp at hk
  | cons t rest ih =>
    cases k with
    | zero =>
      exact readAtomsKeywordLoop_cons_error t rest i n _ s (hne t (by simp)) (by simpa using hbad)
    | succ k =>
      have ht : t.length = n := by simpa using hpre 0 (by omega)
      subst ht
      rw [readAtomsKeywordLoop_cons t rest i s (hne t (by simp))]
      have e : i + (k + 1) = i + 1 + k := by omega
      rw [e]
      apply ih (fun u hu => hne u (by simp [hu])) k (by simpa using hk)
      · intro m hm
        simpa using hpre (m + 1) (by omega)
      · simpa using hbad

/-- The loop of `readAtomsKeyword` succeeds only if every tuple has `n`
atoms. -/
theorem readAtomsKeywordLoop_ok_only (n : Nat) (ts : List (List AtomNumber))
    (hne : ∀ t ∈ ts, t ≠ []) (i : Nat) (s : MultiColvar) (r : Int × MultiColvar)
    (hok : readAtomsKeywordLoop ts i (n : Int) DynamicList.empty s = .ok r) :
    ∀ t ∈ ts, t.length = n := by
  induction ts generalizing i s with
  | nil => simp
  | cons t rest ih =>
    by_cases ht : t.length = n
    · subst ht
      rw [readAtomsKeywordLoop_cons t rest i s (hne t (by simp))] at hok
      intro u hu
      rcases List.mem_cons.1 hu with rfl | hu
      · rfl
      · exact ih (fun u hu => hne u (by simp [hu])) _ _ hok u hu
    · rw [readAtomsKeywordLoop_cons_error t rest i n _ s (hne t (by simp)) ht] at hok
      cases hok

theorem getElem?_flatten_uniform {α : Type} (n : Nat) (ts : List (List α))
    (hlen : ∀ t ∈ ts, t.length = n) (i j : Nat) (hi : i < ts.length) (hj : j < n) :
    ts.flatten[n * i + j]? = (ts.getD i [])[j]? := by
  induction ts generalizing i with
  | nil => simp at hi
  | cons t rest ih =>
    have ht : t.length = n := hlen t (by simp)
    rw [List.flatten_cons]
    cases i with
    | zero =>
      rw [List.getElem?_append_left (by omega)]
      simp
    | succ i =>
      rw [List.getElem?_append_right (by rw [ht, Nat.mul_succ]; omega)]
      have e : n * (i + 1) + j - t.length = n * i + j := by
        rw [ht, Nat.mul_succ]; omega
      rw [e, ih (fun u hu => hlen u (by simp [hu])) i (by simpa using hi)]
      simp

/-- With no atoms read before and a negative `natoms`, `readAtomsKeyword` on
the tuples `t0, rest` is the loop started with `natoms` equal to the length of
`t0`. -/
theorem readAtomsKeyword_eq_loop (inp : Input) (natoms : Int) (s : MultiColvar)
    (hread : s.readatoms = false) (t0 : List AtomNumber) (rest : List (List AtomNumber))
    (hnum : inp.numbered = t0 :: rest) (hne0 : t0 ≠ [])
    (hnat : natoms < 0 ∨ natoms = (t0.length : Int)) :
    readAtomsKeyword inp natoms s =
      readAtomsKeywordLoop (t0 :: rest) 1 (t0.length : Int) DynamicList.empty s := by
  unfold readAtomsKeyword
  rw [hnum]
  simp only [hread, Bool.false_eq_true, if_false]
  rcases hnat with h | h
  · exact readAtomsKeywordLoop_neg t0 rest natoms h _ s hne0
  · rw [h]

theorem readAtomsKeyword_skip (inp : Input) (natoms : Int) (s : MultiColvar)
    (hread : s.readatoms = true) : readAtomsKeyword inp natoms s = .ok (natoms, s) := by
  simp [readAtomsKeyword, hread]

theorem readGroupsKeyword_skip (inp : Input) (natoms : Int) (s : MultiColvar)
    (hread : s.readatoms = true) : readGroupsKeyword inp natoms s = .ok (natoms, s) := by
  simp [readGroupsKeyword, hread, pure, Except.pure]

theorem readSpeciesKeyword_skip (inp : Input) (natoms : Int) (s : MultiColvar)
    (hread : s.readatoms = true) : readSpeciesKeyword inp natoms s = .ok (natoms, s) := by
  simp [readSpeciesKeyword, hread, pure, Except.pure]

/-- The steps of `readAtoms` after the three readers. -/
theorem readAtoms_eq (inp : Input) (natoms : Int) (s : MultiColvar)
    (r1 r2 r3 : Int × MultiColvar)
    (h1 : (if inp.keywords_exists .ATOMS then readAtomsKeyword inp natoms s
            else .ok (natoms, s)) = .ok r1)
    (h2 : (if inp.keywords_exists .GROUP then readGroupsKeyword inp r1.1 r1.2
            else .ok r1) = .ok r2)
    (h3 : (if inp.keywords_exists .SPECIES then readSpeciesKeyword inp r2.1 r2.2
            else .ok r2) = .ok r3) :
    readAtoms inp natoms s =
      if r3.2.readatoms then
        .ok (r3.1, { r3.2 with
          colvar_atoms := r3.2.colvar_atoms.map (fun l => l.activateAll.updateActiveMembers)
          all_atoms := r3.2.all_atoms.activateAll.updateActiveMembers
          requested := r3.2.all_atoms.activateAll.updateActiveMembers.retrieveActiveList })
      else .error "No atoms have been read in" := by
  unfold readAtoms
  rw [h1]
  simp only [Except.bind]
  rw [h2]
  simp only []
  rw [h3]
  cases h : r3.2.readatoms <;> simp [h]


theorem readGroupsKeyword_ok_pre (inp : Input) (natoms : Int) (s : MultiColvar)
    (r : Int × MultiColvar) (hread : s.readatoms = false)
    (h : readGroupsKeyword inp natoms s = .ok r) :
    natoms = 2 ∧ inp.keywords_exists .GROUPA = true ∧ inp.keywords_exists .GROUPB = true := by
  by_cases h2 : natoms = 2
  · cases hA : inp.keywords_exists .GROUPA
    · simp [readGroupsKeyword, hread, h2, hA, pure, Except.pure, bind, Except.bind, throw,
        throwThe, MonadExceptOf.throw] at h
    · cases hB : inp.keywords_exists .GROUPB
      · simp [readGroupsKeyword, hread, h2, hA, hB, pure, Except.pure, bind, Except.bind, throw,
          throwThe, MonadExceptOf.throw] at h
      · exact ⟨h2, rfl, rfl⟩
  · simp [readGroupsKeyword, hread, h2, pure, Except.pure, bind, Except.bind, throw,
      throwThe, MonadExceptOf.throw] at h

theorem readGroupsKeyword_noA (inp : Input) (s : MultiColvar)
    (hread : s.readatoms = false)
    (hA : inp.keywords_exists .GROUPA = true) (hB : inp.keywords_exists .GROUPB = true)
    (hG : parseAtomList inp .GROUP = []) (h1 : parseAtomList inp .GROUPA = []) :
    readGroupsKeyword inp 2 s = .ok (2, s) := by
  simp [readGroupsKeyword, hread, hA, hB, hG, h1, pure, Except.pure, bind, Except.bind]

theorem readGroupsKeyword_noB (inp : Input) (s : MultiColvar)
    (hread : s.readatoms = false)
    (hA : inp.keywords_exists .GROUPA = true) (hB : inp.keywords_exists .GROUPB = true)
    (hG : parseAtomList inp .GROUP = []) (h1 : parseAtomList inp .GROUPA ≠ [])
    (h2 : parseAtomList inp .GROUPB = []) :
    readGroupsKeyword inp 2 s =
      .error "GROUPB keyword defines no atoms or is missing. Use either GROUPA and GROUPB or just GROUP" := by
  simp [readGroupsKeyword, hread, hA, hB, hG, h1, h2, pure, Except.pure, bind, Except.bind, throw,
      throwThe, MonadExceptOf.throw]

theorem readSpeciesKeyword_none (inp : Input) (natoms : Int) (s : MultiColvar)
    (hread : s.readatoms = false) (hS : parseAtomList inp .SPECIES = [])
    (h : (inp.keywords_exists .SPECIESA && inp.keywords_exists .SPECIESB) = false ∨
      parseAtomList inp .SPECIESA = []) :
    readSpeciesKeyword inp natoms s = .ok (natoms, s) := by
  rcases h with h | h
  · simp only [Bool.and_eq_false_iff] at h
    rcases h with h | h <;>
    simp [readSpeciesKeyword, hread, hS, h, pure, Except.pure, bind, Except.bind]
  · simp [readSpeciesKeyword, hread, hS, h, pure, Except.pure, bind, Except.bind]

theorem readSpeciesKeyword_noB (inp : Input) (natoms : Int) (s : MultiColvar)
    (hread : s.readatoms = false)
    (hA : inp.keywords_exists .SPECIESA = true) (hB : inp.keywords_exists .SPECIESB = true)
    (hS : parseAtomList inp .SPECIES = []) (h1 : parseAtomList inp .SPECIESA ≠ [])
    (h2 : parseAtomList inp .SPECIESB = []) :
    readSpeciesKeyword inp natoms s =
      .error "SPECIESB keyword defines no atoms or is missing. Use either SPECIESA and SPECIESB or just SPECIES" := by
  simp [readSpeciesKeyword, hread, hA, hB, hS, h1, h2, pure, Except.pure, bind, Except.bind, throw,
      throwThe, MonadExceptOf.throw]

theorem readAtomsKeywordLoop_progress (ts : List (List AtomNumber)) (i : Nat) (natoms : Int)
    (nl : DynamicList Nat) (s : MultiColvar) (r : Int × MultiColvar)
    (h : readAtomsKeywordLoop ts i natoms nl s = .ok r) :
    r.2 = s ∨ (r.2.readatoms = true ∧ r.2.all_atoms.all ≠ [] ∧ r.2.colvar_atoms ≠ []) := by
  induction ts generalizing i natoms nl s with
  | nil =>
    simp only [readAtomsKeywordLoop, Except.ok.injEq] at h
    exact Or.inl (by rw [← h])
  | cons t rest ih =>
    rw [readAtomsKeywordLoop] at h
    dsimp only at h
    generalize (if i = 1 ∧ natoms < 0 then (t.length : Int) else natoms) = n' at h
    split_ifs at h with h1 h2
    · simp only [Except.ok.injEq] at h
      exact Or.inl (by rw [← h])
    · right
      have hlen : 0 < t.length := by
        cases t with
        | nil => simp at h1
        | cons a t => simp
      have hnat : n'.toNat = t.length := by
        have := not_not.1 h2
        rw [← this]
        simp
      rcases ih _ _ _ _ h with h3 | h3
      · rw [h3]
        refine ⟨rfl, ?_, by simp⟩
        simp only [hnat, forLoop_zero_eq_foldl, foldl_pair_addIndexToList, foldl_addIndexToList]
        intro hcon
        have := congrArg List.length hcon
        simp only [List.length_append, List.length_map, List.length_range, hnat,
          List.length_nil] at this
        omega
      · exact h3

theorem readAtomsKeyword_none (inp : Input) (natoms : Int) (s : MultiColvar)
    (h : inp.numbered = []) : readAtomsKeyword inp natoms s = .ok (natoms, s) := by
  unfold readAtomsKeyword
  rw [h]
  cases s.readatoms <;> simp [readAtomsKeywordLoop]

theorem readAtomsKeyword_progress (inp : Input) (natoms : Int) (s : MultiColvar)
    (r : Int × MultiColvar) (h : readAtomsKeyword inp natoms s = .ok r) :
    r.2 = s ∨ (r.2.readatoms = true ∧ r.2.all_atoms.all ≠ [] ∧ r.2.colvar_atoms ≠ []) := by
  cases hread : s.readatoms
  · unfold readAtomsKeyword at h
    simp only [hread, Bool.false_eq_true, if_false] at h
    exact readAtomsKeywordLoop_progress _ _ _ _ _ _ h
  · rw [readAtomsKeyword_skip inp natoms s hread] at h
    simp only [Except.ok.injEq] at h
    exact Or.inl (by rw [← h])

theorem readGroupsKeyword_progress (inp : Input) (natoms : Int) (s : MultiColvar)
    (r : Int × MultiColvar) (h : readGroupsKeyword inp natoms s = .ok r) :
    r.2 = s ∨ (r.2.readatoms = true ∧ r.2.all_atoms.all ≠ [] ∧
      (r.2.colvar_atoms ≠ [] ∨ (parseAtomList inp .GROUP).length = 1)) := by
  cases hread : s.readatoms
  · obtain ⟨h2, hA, hB⟩ := readGroupsKeyword_ok_pre inp natoms s r hread h
    subst h2
    by_cases hG : parseAtomList inp .GROUP = []
    · by_cases h1 : parseAtomList inp .GROUPA = []
      · rw [readGroupsKeyword_noA inp s hread hA hB hG h1] at h
        simp only [Except.ok.injEq] at h
        exact Or.inl (by rw [← h])
      · by_cases h2 : parseAtomList inp .GROUPB = []
        · rw [readGroupsKeyword_noB inp s hread hA hB hG h1 h2] at h
          cases h
        · rw [readGroupsKeyword_groupAB inp s hread hA hB hG h1 h2] at h
          simp only [Except.ok.injEq] at h
          subst h
          refine Or.inr ⟨rfl, ?_, Or.inl ?_⟩
          · simp [addAllToList_all, h1]
          · intro hcon
            have hl := congrArg List.length hcon
            rw [List.length_append, length_flatMap_range_map] at hl
            have ha := List.length_pos.2 h1
            have hb := List.length_pos.2 h2
            have := Nat.mul_pos ha hb
            simp only [List.length_nil] at hl
            omega
    · rw [readGroupsKeyword_group inp s hread hA hB hG] at h
      simp only [Except.ok.injEq] at h
      subst h
      refine Or.inr ⟨rfl, ?_, ?_⟩
      · simp [addAllToList_all, hG]
      · by_cases hone : (parseAtomList inp .GROUP).length = 1
        · exact Or.inr hone
        · left
          intro hcon
          have hl := congrArg List.length hcon
          have h2 := length_pairs_two_mul (parseAtomList inp .GROUP).length
          have hpos := List.length_pos.2 hG
          have hmul : 0 < (parseAtomList inp .GROUP).length *
              ((parseAtomList inp .GROUP).length - 1) := Nat.mul_pos hpos (by omega)
          simp only [List.length_append, List.length_nil] at hl
          omega
  · rw [readGroupsKeyword_skip inp natoms s hread] at h
    simp only [Except.ok.injEq] at h
    exact Or.inl (by rw [← h])

theorem readSpeciesKeyword_progress (inp : Input) (natoms : Int) (s : MultiColvar)
    (r : Int × MultiColvar) (h : readSpeciesKeyword inp natoms s = .ok r) :
    r.2 = s ∨ (r.2.readatoms = true ∧ r.2.all_atoms.all ≠ [] ∧ r.2.colvar_atoms ≠ []) := by
  cases hread : s.readatoms
  · by_cases hS : parseAtomList inp .SPECIES = []
    · cases hA : inp.keywords_exists .SPECIESA
      · rw [readSpeciesKeyword_none inp natoms s hread hS (Or.inl (by simp [hA]))] at h
        simp only [Except.ok.injEq] at h
        exact Or.inl (by rw [← h])
      · cases hB : inp.keywords_exists .SPECIESB
        · rw [readSpeciesKeyword_none inp natoms s hread hS (Or.inl (by simp [hB]))] at h
          simp only [Except.ok.injEq] at h
          exact Or.inl (by rw [← h])
        · by_cases h1 : parseAtomList inp .SPECIESA = []
          · rw [readSpeciesKeyword_none inp natoms s hread hS (Or.inr h1)] at h
            simp only [Except.ok.injEq] at h
            exact Or.inl (by rw [← h])
          · by_cases h2 : parseAtomList inp .SPECIESB = []
            · rw [readSpeciesKeyword_noB inp natoms s hread hA hB hS h1 h2] at h
              cases h
            · rw [readSpeciesKeyword_speciesAB inp natoms s hread hA hB hS h1 h2] at h
              simp only [Except.ok.injEq] at h
              subst h
              refine Or.inr ⟨rfl, ?_, ?_⟩
              · simp [addAllToList_all, h1]
              · simp [h1]
    · rw [readSpeciesKeyword_species inp natoms s hread hS] at h
      simp only [Except.ok.injEq] at h
      subst h
      refine Or.inr ⟨rfl, ?_, ?_⟩
      · simp [addAllToList_all, hS]
      · simp [hS]
  · rw [readSpeciesKeyword_skip inp natoms s hread] at h
    simp only [Except.ok.injEq] at h
    exact Or.inl (by rw [← h])

/-- A successful `readAtoms` went through its three readers without error and
found `readatoms` set. -/
theorem readAtoms_ok_inv (inp : Input) (natoms : Int) (s : MultiColvar)
    (r : Int × MultiColvar) (h : readAtoms inp natoms s = .ok r) :
    ∃ r1 r2 r3,
      (if inp.keywords_exists .ATOMS then readAtomsKeyword inp natoms s
        else .ok (natoms, s)) = .ok r1 ∧
      (if inp.keywords_exists .GROUP then readGroupsKeyword inp r1.1 r1.2
        else .ok r1) = .ok r2 ∧
      (if inp.keywords_exists .SPECIES then readSpeciesKeyword inp r2.1 r2.2
        else .ok r2) = .ok r3 ∧
      r3.2.readatoms = true ∧
      r = (r3.1, { r3.2 with
          colvar_atoms := r3.2.colvar_atoms.map (fun l => l.activateAll.updateActiveMembers)
          all_atoms := r3.2.all_atoms.activateAll.updateActiveMembers
          requested := r3.2.all_atoms.activateAll.updateActiveMembers.retrieveActiveList }) := by
  cases e1 : (if inp.keywords_exists .ATOMS then readAtomsKeyword inp natoms s
      else .ok (natoms, s)) with
  | error m => simp [readAtoms, e1, Except.bind] at h
  | ok r1 =>
    cases e2 : (if inp.keywords_exists .GROUP then readGroupsKeyword inp r1.1 r1.2
        else .ok r1) with
    | error m => simp [readAtoms, e1, e2, Except.bind] at h
    | ok r2 =>
      cases e3 : (if inp.keywords_exists .SPECIES then readSpeciesKeyword inp r2.1 r2.2
          else .ok r2) with
      | error m => simp [readAtoms, e1, e2, e3, Except.bind] at h
      | ok r3 =>
        rw [readAtoms_eq inp natoms s r1 r2 r3 e1 e2 e3] at h
        cases hr : r3.2.readatoms
        · simp [hr] at h
        · simp only [hr, if_true, Except.ok.injEq] at h
          exact ⟨r1, r2, r3, rfl, e2, e3, hr, by rw [← h]; simp [hr]⟩

theorem activate_update_idem {α : Type} (l : DynamicList α) :
    l.activateAll.updateActiveMembers.activateAll.updateActiveMembers =
      l.activateAll.updateActiveMembers := by
  simp [DynamicList.activateAll, DynamicList.updateActiveMembers]

/-- Once `readatoms` is set, `readAtoms` runs no reader: it only activates the
lists again and requests the atoms. -/
theorem readAtoms_of_readatoms (inp : Input) (natoms : Int) (s : MultiColvar)
    (hread : s.readatoms = true) :
    readAtoms inp natoms s = .ok (natoms, { s with
      colvar_atoms := s.colvar_atoms.map (fun l => l.activateAll.updateActiveMembers)
      all_atoms := s.all_atoms.activateAll.updateActiveMembers
      requested := s.all_atoms.activateAll.updateActiveMembers.retrieveActiveList }) := by
  rw [readAtoms_eq inp natoms s (natoms, s) (natoms, s) (natoms, s)
    (by simp [readAtomsKeyword_skip, hread]) (by simp [readGroupsKeyword_skip, hread])
    (by simp [readSpeciesKeyword_skip, hread])]
  simp [hread]

/-- The `ATOMS` step of `readAtoms` does nothing when the keyword is not
registered or no tuple is given. -/
theorem readAtoms_step_atoms_none (inp : Input) (natoms : Int) (s : MultiColvar)
    (h : inp.keywords_exists .ATOMS = false ∨ inp.numbered = []) :
    (if inp.keywords_exists .ATOMS then readAtomsKeyword inp natoms s
      else .ok (natoms, s)) = .ok (natoms, s) := by
  rcases h with h | h
  · simp [h]
  · simp [readAtomsKeyword_none inp natoms s h]

/-! ## Lemmas on the scatter -/

theorem foldlM_ok {σ ε α : Type} (body : σ → α → Except ε σ) (g : σ → α → σ) (L : List α)
    (h : ∀ i ∈ L, ∀ acc, body acc i = .ok (g acc i)) (a : σ) :
    L.foldlM body a = .ok (L.foldl g a) := by
  induction L generalizing a with
  | nil => rfl
  | cons x L ih =>
    rw [List.foldlM_cons, h x (by simp)]
    exact ih (fun i hi => h i (by simp [hi])) (g a x)

theorem getD_set_add {R : Type} [AddMonoid R] (l : List R) (i p : Nat) (d : R)
    (hp : p < l.length) :
    (l.set i (l.getD i 0 + d)).getD p 0 = l.getD p 0 + if i = p then d else 0 := by
  by_cases h : i = p
  · subst h
    simp [List.getD_eq_getElem?_getD, List.getElem?_set, hp]
  · simp [List.getD_eq_getElem?_getD, List.getElem?_set, h]

theorem length_addToBufferElement {R : Type} [Zero R] [Add R] (l : List R) (i : Nat) (d : R) :
    (addToBufferElement l i d).length = l.length := by
  simp [addToBufferElement]

theorem getD_addToBufferElement {R : Type} [AddMonoid R] (l : List R) (i p : Nat) (d : R)
    (hp : p < l.length) :
    (addToBufferElement l i d).getD p 0 = l.getD p 0 + if i = p then d else 0 :=
  getD_set_add l i p d hp

/-- The three accumulations of one atom, at the slots `q`, `q+1`, `q+2`. -/
theorem getD_three_adds {R : Type} [AddCommMonoid R] (l : List R) (q p : Nat) (x : Nat → R)
    (hp : p < l.length) :
    (addToBufferElement (addToBufferElement (addToBufferElement l q (x 0)) (q + 1) (x 1))
        (q + 2) (x 2)).getD p 0 =
      l.getD p 0 + ∑ c ∈ Finset.range 3, if q + c = p then x c else 0 := by
  rw [getD_addToBufferElement _ _ _ _ (by simpa [length_addToBufferElement] using hp),
    getD_addToBufferElement _ _ _ _ (by simpa [length_addToBufferElement] using hp),
    getD_addToBufferElement _ _ _ _ hp]
  simp [Finset.sum_range_succ, add_assoc]

/-- The scatter loop over the atoms, on a list of slots: every slot of the
list receives the amounts addressed to it. -/
theorem scatter_loop_getD {R : Type} [AddCommMonoid R] (q : Nat → Nat) (x : Nat → Nat → R)
    (k : Nat) (l : List R) :
    ((List.range k).foldl (fun l i =>
        addToBufferElement (addToBufferElement (addToBufferElement l (q i) (x i 0))
          (q i + 1) (x i 1)) (q i + 2) (x i 2)) l).length = l.length ∧
    ∀ p, p < l.length →
      ((List.range k).foldl (fun l i =>
        addToBufferElement (addToBufferElement (addToBufferElement l (q i) (x i 0))
          (q i + 1) (x i 1)) (q i + 2) (x i 2)) l).getD p 0 =
      l.getD p 0 + ∑ i ∈ Finset.range k, ∑ c ∈ Finset.range 3,
        if q i + c = p then x i c else 0 := by
  induction k with
  | zero => simp
  | succ k ih =>
    rw [List.range_succ, List.foldl_append]
    simp only [List.foldl_cons, List.foldl_nil]
    constructor
    · simp [length_addToBufferElement, ih.1]
    · intro p hp
      rw [getD_three_adds _ _ _ (x k) (by rw [ih.1]; exact hp), ih.2 p hp,
        Finset.sum_range_succ _ k, add_assoc]

/-- The nine accumulations of the virial block, at the slots `q .. q+8`. -/
theorem getD_nine_adds {R : Type} [AddCommMonoid R] (l : List R) (q : Nat) (x : Nat → R) :
    (addToBufferElement (addToBufferElement (addToBufferElement (addToBufferElement
      (addToBufferElement (addToBufferElement (addToBufferElement (addToBufferElement
      (addToBufferElement l (q + 0) (x 0)) (q + 1) (x 1)) (q + 2) (x 2)) (q + 3) (x 3))
      (q + 4) (x 4)) (q + 5) (x 5)) (q + 6) (x 6)) (q + 7) (x 7)) (q + 8) (x 8)).length =
      l.length ∧
    ∀ p, p < l.length →
      (addToBufferElement (addToBufferElement (addToBufferElement (addToBufferElement
        (addToBufferElement (addToBufferElement (addToBufferElement (addToBufferElement
        (addToBufferElement l (q + 0) (x 0)) (q + 1) (x 1)) (q + 2) (x 2)) (q + 3) (x 3))
        (q + 4) (x 4)) (q + 5) (x 5)) (q + 6) (x 6)) (q + 7) (x 7)) (q + 8) (x 8)).getD p 0 =
      l.getD p 0 + ∑ m ∈ Finset.range 9, if q + m = p then x m else 0 := by
  constructor
  · simp [length_addToBufferElement]
  · intro p hp
    rw [getD_addToBufferElement _ _ _ _ (by simpa [length_addToBufferElement] using hp),
      getD_addToBufferElement _ _ _ _ (by simpa [length_addToBufferElement] using hp),
      getD_addToBufferElement _ _ _ _ (by simpa [length_addToBufferElement] using hp),
      getD_addToBufferElement _ _ _ _ (by simpa [length_addToBufferElement] using hp),
      getD_addToBufferElement _ _ _ _ (by simpa [length_addToBufferElement] using hp),
      getD_addToBufferElement _ _ _ _ (by simpa [length_addToBufferElement] using hp),
      getD_addToBufferElement _ _ _ _ (by simpa [length_addToBufferElement] using hp),
      getD_addToBufferElement _ _ _ _ (by simpa [length_addToBufferElement] using hp),
      getD_addToBufferElement _ _ _ _ hp]
    simp [Finset.sum_range_succ, add_assoc]

theorem forLoopE_zero_eq_foldlM {σ ε : Type} (n : Nat) (body : Nat → σ → Except ε σ) (s : σ) :
    forLoopE 0 n body s = (List.range n).foldlM (fun acc i => body i acc) s := by
  simp [forLoopE, List.range_eq_range']

/-- The atom loop of `mergeDerivatives` with a `Value` as destination acts on
the derivative list alone. -/
theorem foldl_addDerivative {R : Type} [Zero R] [Add R] (q : Nat → Nat) (x : Nat → Nat → R)
    (L : List Nat) (v : Value R) :
    L.foldl (fun (v : Value R) i =>
        ((v.addDerivative (q i + 0) (x i 0)).addDerivative (q i + 1) (x i 1)).addDerivative
          (q i + 2) (x i 2)) v =
      { value := v.value,
        derivatives := L.foldl (fun l i =>
          addToBufferElement (addToBufferElement (addToBufferElement l (q i) (x i 0))
            (q i + 1) (x i 1)) (q i + 2) (x i 2)) v.derivatives } := by
  induction L generalizing v with
  | nil => rfl
  | cons a L ih =>
    rw [List.foldl_cons, ih]
    rfl

/-- The atom loop of `mergeDerivatives` with a vessel as destination: the
counter `in` is three times the loop index. -/
theorem foldl_vessel_counter {R : Type} [Zero R] [Add R] (q : Nat → Nat) (src : Nat → R)
    (k : Nat) (b : List R) :
    (List.range k).foldl (fun (p : List R × Nat) i =>
        (addToBufferElement (addToBufferElement (addToBufferElement p.1 (q i) (src p.2))
          (q i + 1) (src (p.2 + 1))) (q i + 2) (src (p.2 + 2)), p.2 + 3)) (b, 0) =
      ((List.range k).foldl (fun l i =>
          addToBufferElement (addToBufferElement (addToBufferElement l (q i) (src (3 * i + 0)))
            (q i + 1) (src (3 * i + 1))) (q i + 2) (src (3 * i + 2))) b, 3 * k) := by
  induction k with
  | zero => rfl
  | succ k ih =>
    rw [List.range_succ, List.foldl_append, List.foldl_append, ih]
    simp only [List.foldl_cons, List.foldl_nil, Nat.add_zero]
    rfl

/-- The closed form of `mergeDerivatives` with a `Value` as destination, when
the source has `3k+9` derivatives and every link index resolves. -/
theorem mergeDerivatives_Value_eq {R : Type} [Zero R] [Add R] [Mul R] (s : MultiColvar)
    (jcv : Nat) (value_in : Value R) (df : R) (valout : Value R)
    (hlen : value_in.getNumberOfDerivatives =
      3 * (s.colvar_atoms.getD jcv DynamicList.empty).getNumberActive + 9)
    (hlink : ∀ i, i < (s.colvar_atoms.getD jcv DynamicList.empty).getNumberActive →
      0 ≤ linkIndex i (s.colvar_atoms.getD jcv DynamicList.empty) s.all_atoms) :
    mergeDerivatives_Value s jcv value_in df valout = .ok
      { value := valout.value,
        derivatives :=
          addToBufferElement (addToBufferElement (addToBufferElement (addToBufferElement
          (addToBufferElement (addToBufferElement (addToBufferElement (addToBufferElement
          (addToBufferElement
            ((List.range (s.colvar_atoms.getD jcv DynamicList.empty).getNumberActive).foldl
              (fun l i =>
                addToBufferElement (addToBufferElement (addToBufferElement l
                  (3 * (linkIndex i (s.colvar_atoms.getD jcv DynamicList.empty)
                    s.all_atoms).toNat)
                  (df * value_in.getDerivative (3 * i + 0)))
                  (3 * (linkIndex i (s.colvar_atoms.getD jcv DynamicList.empty)
                    s.all_atoms).toNat + 1)
                  (df * value_in.getDerivative (3 * i + 1)))
                  (3 * (linkIndex i (s.colvar_atoms.getD jcv DynamicList.empty)
                    s.all_atoms).toNat + 2)
                  (df * value_in.getDerivative (3 * i + 2))) valout.derivatives)
            (3 * getNumberOfAtoms s + 0) (df * value_in.getDerivative
              (3 * (s.colvar_atoms.getD jcv DynamicList.empty).getNumberActive + 0)))
            (3 * getNumberOfAtoms s + 1) (df * value_in.getDerivative
              (3 * (s.colvar_atoms.getD jcv DynamicList.empty).getNumberActive + 1)))
            (3 * getNumberOfAtoms s + 2) (df * value_in.getDerivative
              (3 * (s.colvar_atoms.getD jcv DynamicList.empty).getNumberActive + 2)))
            (3 * getNumberOfAtoms s + 3) (df * value_in.getDerivative
              (3 * (s.colvar_atoms.getD jcv DynamicList.empty).getNumberActive + 3)))
            (3 * getNumberOfAtoms s + 4) (df * value_in.getDerivative
              (3 * (s.colvar_atoms.getD jcv DynamicList.empty).getNumberActive + 4)))
            (3 * getNumberOfAtoms s + 5) (df * value_in.getDerivative
              (3 * (s.colvar_atoms.getD jcv DynamicList.empty).getNumberActive + 5)))
            (3 * getNumberOfAtoms s + 6) (df * value_in.getDerivative
              (3 * (s.colvar_atoms.getD jcv DynamicList.empty).getNumberActive + 6)))
            (3 * getNumberOfAtoms s + 7) (df * value_in.getDerivative
              (3 * (s.colvar_atoms.getD jcv DynamicList.empty).getNumberActive + 7)))
            (3 * getNumberOfAtoms s + 8) (df * value_in.getDerivative
              (3 * (s.colvar_atoms.getD jcv DynamicList.empty).getNumberActive + 8)) } := by
  unfold mergeDerivatives_Value
  simp only [hlen, ne_eq, not_true_eq_false, if_false]
  rw [forLoopE_zero_eq_foldlM,
    foldlM_ok _ (fun (v : Value R) i =>
      ((v.addDerivative
        (3 * (linkIndex i (s.colvar_atoms.getD jcv DynamicList.empty) s.all_atoms).toNat + 0)
        (df * value_in.getDerivative (3 * i + 0))).addDerivative
        (3 * (linkIndex i (s.colvar_atoms.getD jcv DynamicList.empty) s.all_atoms).toNat + 1)
        (df * value_in.getDerivative (3 * i + 1))).addDerivative
        (3 * (linkIndex i (s.colvar_atoms.getD jcv DynamicList.empty) s.all_atoms).toNat + 2)
        (df * value_in.getDerivative (3 * i + 2)))]
  · rw [foldl_addDerivative (fun i =>
      3 * (linkIndex i (s.colvar_atoms.getD jcv DynamicList.empty) s.all_atoms).toNat)
      (fun i c => df * value_in.getDerivative (3 * i + c))]
    rfl
  · intro i hi acc
    have h := hlink i (List.mem_range.1 hi)
    simp only [ge_iff_le, h, not_true_eq_false, if_false]

/-- What `mergeDerivatives` with a `Value` as destination does, slot by slot,
when the source has `3k+9` derivatives and every link index resolves. -/
theorem mergeDerivatives_Value_spec {R : Type} [Semiring R] (s : MultiColvar)
    (jcv : Nat) (value_in : Value R) (df : R) (valout : Value R)
    (hlen : value_in.getNumberOfDerivatives =
      3 * (s.colvar_atoms.getD jcv DynamicList.empty).getNumberActive + 9)
    (hlink : ∀ i, i < (s.colvar_atoms.getD jcv DynamicList.empty).getNumberActive →
      0 ≤ linkIndex i (s.colvar_atoms.getD jcv DynamicList.empty) s.all_atoms) :
    ∃ v', mergeDerivatives_Value s jcv value_in df valout = .ok v' ∧
      v'.value = valout.value ∧
      v'.derivatives.length = valout.derivatives.length ∧
      ∀ p, p < valout.derivatives.length →
        v'.derivatives.getD p 0 =
          valout.derivatives.getD p 0 + scatteredAmount s jcv value_in df p := by
  refine ⟨_, mergeDerivatives_Value_eq s jcv value_in df valout hlen hlink, rfl, ?_, ?_⟩
  · simp only []
    rw [(getD_nine_adds _ _ (fun m => df * value_in.getDerivative
      (3 * (s.colvar_atoms.getD jcv DynamicList.empty).getNumberActive + m))).1]
    exact (scatter_loop_getD _ (fun i c => df * value_in.getDerivative (3 * i + c)) _ _).1
  · intro p hp
    have h1 := scatter_loop_getD (fun i =>
      3 * (linkIndex i (s.colvar_atoms.getD jcv DynamicList.empty) s.all_atoms).toNat)
      (fun i c => df * value_in.getDerivative (3 * i + c))
      (s.colvar_atoms.getD jcv DynamicList.empty).getNumberActive valout.derivatives
    simp only []
    rw [(getD_nine_adds _ _ (fun m => df * value_in.getDerivative
      (3 * (s.colvar_atoms.getD jcv DynamicList.empty).getNumberActive + m))).2 p
        (by rw [h1.1]; exact hp), h1.2 p hp]
    unfold scatteredAmount
    rw [add_assoc]

/-- The closed form of `mergeDerivatives` with a vessel as destination, when
the source has `3k+9` derivatives and every link index resolves. -/
theorem mergeDerivatives_Vessel_eq {R : Type} [Zero R] [Add R] [Mul R] (s : MultiColvar)
    (jcv : Nat) (value_in : Value R) (df : R) (vstart : Nat) (valout : List R)
    (hlen : value_in.getNumberOfDerivatives =
      3 * (s.colvar_atoms.getD jcv DynamicList.empty).getNumberActive + 9)
    (hlink : ∀ i, i < (s.colvar_atoms.getD jcv DynamicList.empty).getNumberActive →
      0 ≤ linkIndex i (s.colvar_atoms.getD jcv DynamicList.empty) s.all_atoms) :
    mergeDerivatives_Vessel s jcv value_in df vstart valout = .ok
      (addToBufferElement (addToBufferElement (addToBufferElement (addToBufferElement
      (addToBufferElement (addToBufferElement (addToBufferElement (addToBufferElement
      (addToBufferElement
        ((List.range (s.colvar_atoms.getD jcv DynamicList.empty).getNumberActive).foldl
          (fun l i =>
            addToBufferElement (addToBufferElement (addToBufferElement l
              (vstart + 3 * (linkIndex i (s.colvar_atoms.getD jcv DynamicList.empty)
                s.all_atoms).toNat)
              (df * value_in.getDerivative (3 * i + 0)))
              (vstart + 3 * (linkIndex i (s.colvar_atoms.getD jcv DynamicList.empty)
                s.all_atoms).toNat + 1)
              (df * value_in.getDerivative (3 * i + 1)))
              (vstart + 3 * (linkIndex i (s.colvar_atoms.getD jcv DynamicList.empty)
                s.all_atoms).toNat + 2)
              (df * value_in.getDerivative (3 * i + 2))) valout)
        (vstart + 3 * getNumberOfAtoms s + 0) (df * value_in.getDerivative
          (3 * (s.colvar_atoms.getD jcv DynamicList.empty).getNumberActive + 0)))
        (vstart + 3 * getNumberOfAtoms s + 1) (df * value_in.getDerivative
          (3 * (s.colvar_atoms.getD jcv DynamicList.empty).getNumberActive + 1)))
        (vstart + 3 * getNumberOfAtoms s + 2) (df * value_in.getDerivative
          (3 * (s.colvar_atoms.getD jcv DynamicList.empty).getNumberActive + 2)))
        (vstart + 3 * getNumberOfAtoms s + 3) (df * value_in.getDerivative
          (3 * (s.colvar_atoms.getD jcv DynamicList.empty).getNumberActive + 3)))
        (vstart + 3 * getNumberOfAtoms s + 4) (df * value_in.getDerivative
          (3 * (s.colvar_atoms.getD jcv DynamicList.empty).getNumberActive + 4)))
        (vstart + 3 * getNumberOfAtoms s + 5) (df * value_in.getDerivative
          (3 * (s.colvar_atoms.getD jcv DynamicList.empty).getNumberActive + 5)))
        (vstart + 3 * getNumberOfAtoms s + 6) (df * value_in.getDerivative
          (3 * (s.colvar_atoms.getD jcv DynamicList.empty).getNumberActive + 6)))
        (vstart + 3 * getNumberOfAtoms s + 7) (df * value_in.getDerivative
          (3 * (s.colvar_atoms.getD jcv DynamicList.empty).getNumberActive + 7)))
        (vstart + 3 * getNumberOfAtoms s + 8) (df * value_in.getDerivative
          (3 * (s.colvar_atoms.getD jcv DynamicList.empty).getNumberActive + 8))) := by
  unfold mergeDerivatives_Vessel
  simp only [hlen, ne_eq, not_true_eq_false, if_false]
  rw [forLoopE_zero_eq_foldlM,
    foldlM_ok _ (fun (p : List R × Nat) i =>
      (addToBufferElement (addToBufferElement (addToBufferElement p.1
        (vstart + 3 * (linkIndex i (s.colvar_atoms.getD jcv DynamicList.empty)
          s.all_atoms).toNat) (df * value_in.getDerivative p.2))
        (vstart + 3 * (linkIndex i (s.colvar_atoms.getD jcv DynamicList.empty)
          s.all_atoms).toNat + 1) (df * value_in.getDerivative (p.2 + 1)))
        (vstart + 3 * (linkIndex i (s.colvar_atoms.getD jcv DynamicList.empty)
          s.all_atoms).toNat + 2) (df * value_in.getDerivative (p.2 + 2)), p.2 + 3))]
  · rw [foldl_vessel_counter (fun i =>
      vstart + 3 * (linkIndex i (s.colvar_atoms.getD jcv DynamicList.empty) s.all_atoms).toNat)
      (fun n => df * value_in.getDerivative n)]
    rfl
  · intro i hi acc
    have h := hlink i (List.mem_range.1 hi)
    simp only [ge_iff_le, h, not_true_eq_false, if_false]

/-- What `mergeDerivatives` with a vessel as destination does, slot by slot,
when the source has `3k+9` derivatives and every link index resolves: slot
`vstart + p` receives what the specification gives slot `p`. -/
theorem mergeDerivatives_Vessel_spec {R : Type} [Semiring R] (s : MultiColvar)
    (jcv : Nat) (value_in : Value R) (df : R) (vstart : Nat) (valout : List R)
    (hlen : value_in.getNumberOfDerivatives =
      3 * (s.colvar_atoms.getD jcv DynamicList.empty).getNumberActive + 9)
    (hlink : ∀ i, i < (s.colvar_atoms.getD jcv DynamicList.empty).getNumberActive →
      0 ≤ linkIndex i (s.colvar_atoms.getD jcv DynamicList.empty) s.all_atoms) :
    ∃ b', mergeDerivatives_Vessel s jcv value_in df vstart valout = .ok b' ∧
      b'.length = valout.length ∧
      ∀ q, q < valout.length →
        b'.getD q 0 =
          valout.getD q 0 +
            if vstart ≤ q then scatteredAmount s jcv value_in df (q - vstart) else 0 := by
  refine ⟨_, mergeDerivatives_Vessel_eq s jcv value_in df vstart valout hlen hlink, ?_, ?_⟩
  · rw [(getD_nine_adds _ _ (fun m => df * value_in.getDerivative
      (3 * (s.colvar_atoms.getD jcv DynamicList.empty).getNumberActive + m))).1]
    exact (scatter_loop_getD _ (fun i c => df * value_in.getDerivative (3 * i + c)) _ _).1
  · intro q hq
    have h1 := scatter_loop_getD (fun i =>
      vstart + 3 * (linkIndex i (s.colvar_atoms.getD jcv DynamicList.empty) s.all_atoms).toNat)
      (fun i c => df * value_in.getDerivative (3 * i + c))
      (s.colvar_atoms.getD jcv DynamicList.empty).getNumberActive valout
    rw [(getD_nine_adds _ _ (fun m => df * value_in.getDerivative
      (3 * (s.colvar_atoms.getD jcv DynamicList.empty).getNumberActive + m))).2 q
        (by rw [h1.1]; exact hq), h1.2 q hq, add_assoc]
    congr 1
    unfold scatteredAmount
    by_cases hv : vstart ≤ q
    · rw [if_pos hv]
      congr 1
      · apply Finset.sum_congr rfl
        intro i _
        apply Finset.sum_congr rfl
        intro c _
        apply if_congr _ rfl rfl
        omega
      · apply Finset.sum_congr rfl
        intro m _
        apply if_congr _ rfl rfl
        omega
    · rw [if_neg hv]
      have e1 : ∀ i c, ¬ (vstart + 3 * (linkIndex i
          (s.colvar_atoms.getD jcv DynamicList.empty) s.all_atoms).toNat + c = q) := by
        intro i c; omega
      have e2 : ∀ m, ¬ (vstart + 3 * getNumberOfAtoms s + m = q) := by
        intro m; omega
      simp only [e1, e2, if_false, Finset.sum_const_zero, add_zero]

/-- Past the virial block nothing is scattered, when every link index is below
the number of atoms. -/
theorem scatteredAmount_eq_zero {R : Type} [Semiring R] (s : MultiColvar)
    (jcv : Nat) (value_in : Value R) (df : R) (p : Nat)
    (hlt : ∀ i, i < (s.colvar_atoms.getD jcv DynamicList.empty).getNumberActive →
      (linkIndex i (s.colvar_atoms.getD jcv DynamicList.empty) s.all_atoms).toNat <
        getNumberOfAtoms s)
    (hp : 3 * getNumberOfAtoms s + 9 ≤ p) :
    scatteredAmount s jcv value_in df p = 0 := by
  unfold scatteredAmount
  have e1 : ∀ i ∈ Finset.range (s.colvar_atoms.getD jcv DynamicList.empty).getNumberActive,
      (∑ c ∈ Finset.range 3,
        if 3 * (linkIndex i (s.colvar_atoms.getD jcv DynamicList.empty) s.all_atoms).toNat + c = p
        then df * value_in.getDerivative (3 * i + c) else 0) = 0 := by
    intro i hi
    apply Finset.sum_eq_zero
    intro c hc
    have := hlt i (Finset.mem_range.1 hi)
    have := Finset.mem_range.1 hc
    rw [if_neg (by omega)]
  have e2 : ∀ m ∈ Finset.range 9,
      (if 3 * getNumberOfAtoms s + m = p
        then df * value_in.getDerivative
          (3 * (s.colvar_atoms.getD jcv DynamicList.empty).getNumberActive + m)
        else 0) = 0 := by
    intro m hm
    have := Finset.mem_range.1 hm
    rw [if_neg (by omega)]
  rw [Finset.sum_eq_zero e1, Finset.sum_eq_zero e2, add_zero]

theorem list_ext_getD {R : Type} [Zero R] (l1 l2 : List R) (hlen : l1.length = l2.length)
    (h : ∀ p, p < l1.length → l1.getD p 0 = l2.getD p 0) : l1 = l2 := by
  apply List.ext_getElem hlen
  intro p h1 h2
  have := h p h1
  simpa [List.getD_eq_getElem?_getD, List.getElem?_eq_getElem h1,
    List.getElem?_eq_getElem h2] using this

/-- A sequence of scatters into a `Value`, each with a source of the right
length and resolved link indices: all succeed and every slot receives the sum
of the amounts of all of them. -/
theorem foldlM_mergeDerivatives_Value {R : Type} [Semiring R] (s : MultiColvar)
    (ops : List (Nat × Value R × R))
    (hpre : ∀ op ∈ ops,
      op.2.1.getNumberOfDerivatives =
        3 * (s.colvar_atoms.getD op.1 DynamicList.empty).getNumberActive + 9 ∧
      ∀ i, i < (s.colvar_atoms.getD op.1 DynamicList.empty).getNumberActive →
        0 ≤ linkIndex i (s.colvar_atoms.getD op.1 DynamicList.empty) s.all_atoms)
    (valout : Value R) :
    ∃ v, ops.foldlM (fun d op => mergeDerivatives_Value s op.1 op.2.1 op.2.2 d) valout = .ok v ∧
      v.value = valout.value ∧
      v.derivatives.length = valout.derivatives.length ∧
      ∀ p, p < valout.derivatives.length →
        v.derivatives.getD p 0 = valout.derivatives.getD p 0 +
          (ops.map (fun op => scatteredAmount s op.1 op.2.1 op.2.2 p)).sum := by
  induction ops generalizing valout with
  | nil => exact ⟨valout, rfl, rfl, rfl, by simp⟩
  | cons op ops ih =>
    obtain ⟨v1, h1, h2, h3, h4⟩ := mergeDerivatives_Value_spec s op.1 op.2.1 op.2.2 valout
      (hpre op (by simp)).1 (hpre op (by simp)).2
    obtain ⟨v, g1, g2, g3, g4⟩ := ih (fun o ho => hpre o (by simp [ho])) v1
    refine ⟨v, ?_, by rw [g2, h2], by rw [g3, h3], ?_⟩
    · rw [List.foldlM_cons, h1]
      exact g1
    · intro p hp
      rw [g4 p (by rw [h3]; exact hp), h4 p hp, List.map_cons, List.sum_cons, add_assoc]

/-- A sequence of scatters into a vessel buffer at offset `vstart`, each with a
source of the right length and resolved link indices: all succeed and every
slot receives the sum of the amounts of all of them. -/
theorem foldlM_mergeDerivatives_Vessel {R : Type} [Semiring R] (s : MultiColvar)
    (vstart : Nat) (ops : List (Nat × Value R × R))
    (hpre : ∀ op ∈ ops,
      op.2.1.getNumberOfDerivatives =
        3 * (s.colvar_atoms.getD op.1 DynamicList.empty).getNumberActive + 9 ∧
      ∀ i, i < (s.colvar_atoms.getD op.1 DynamicList.empty).getNumberActive →
        0 ≤ linkIndex i (s.colvar_atoms.getD op.1 DynamicList.empty) s.all_atoms)
    (buffer : List R) :
    ∃ b, ops.foldlM (fun d op => mergeDerivatives_Vessel s op.1 op.2.1 op.2.2 vstart d) buffer =
        .ok b ∧
      b.length = buffer.length ∧
      ∀ q, q < buffer.length →
        b.getD q 0 = buffer.getD q 0 +
          (ops.map (fun op =>
            if vstart ≤ q then scatteredAmount s op.1 op.2.1 op.2.2 (q - vstart) else 0)).sum := by
  induction ops generalizing buffer with
  | nil => exact ⟨buffer, rfl, rfl, by simp⟩
  | cons op ops ih =>
    obtain ⟨b1, h1, h3, h4⟩ := mergeDerivatives_Vessel_spec s op.1 op.2.1 op.2.2 vstart buffer
      (hpre op (by simp)).1 (hpre op (by simp)).2
    obtain ⟨b, g1, g3, g4⟩ := ih (fun o ho => hpre o (by simp [ho])) b1
    refine ⟨b, ?_, by rw [g3, h3], ?_⟩
    · rw [List.foldlM_cons, h1]
      exact g1
    · intro q hq
      rw [g4 q (by rw [h3]; exact hq), h4 q hq, List.map_cons, List.sum_cons, add_assoc]

theorem getD_of_length_le {R : Type} (l : List R) (q : Nat) (d : R) (h : l.length ≤ q) :
    l.getD q d = d := by
  simp [List.getD_eq_getElem?_getD, List.getElem?_eq_none h]

/-! ## Lemmas on the evaluator -/

theorem length_foldl_addDerivative {R : Type} [Zero R] [Add R] (L : List (Nat × R))
    (v : Value R) :
    (L.foldl (fun (v : Value R) a => v.addDerivative a.1 a.2) v).derivatives.length =
      v.derivatives.length := by
  induction L generalizing v with
  | nil => rfl
  | cons a L ih =>
    rw [List.foldl_cons, ih]
    simp [Value.addDerivative]

theorem length_forLoop_set {α : Type} (n : Nat) (g : Nat → α) (l : List α) :
    (forLoop 0 n (fun i (l : List α) => l.set i (g i)) l).length = l.length := by
  rw [forLoop_zero_eq_foldl]
  induction n with
  | zero => rfl
  | succ n ih =>
    rw [List.range_succ, List.foldl_append]
    simp [ih]

theorem length_vectorResize {α : Type} (l : List α) (n : Nat) (d : α) :
    (vectorResize l n d).length = n := by
  simp only [vectorResize, List.length_append, List.length_take, List.length_replicate]
  omega

theorem length_resizeDerivatives {R : Type} [Zero R] (v : Value R) (n : Nat) :
    (v.resizeDerivatives n).derivatives.length = n := by
  simp only [Value.resizeDerivatives, List.length_append, List.length_take,
    List.length_replicate]
  omega

/-- The central-atom step leaves `pos` and `thisval` alone. -/
theorem centralAtomStep_frame {R : Type} [Zero R] [Add R] [Mul R] (cvf : Colvar R)
    (host : Host R) (natoms : Nat) (e e' : Evaluator R)
    (h : centralAtomStep cvf host natoms e = .ok e') :
    e'.pos = e.pos ∧ e'.thisval = e.thisval := by
  unfold centralAtomStep at h
  generalize hE : (if e.central_derivs.length ≠ e.pos.length then
      { e with central_derivs := vectorResize e.central_derivs e.pos.length (fun _ _ => 0) }
    else e) = e1 at h
  have hp : e1.pos = e.pos ∧ e1.thisval = e.thisval := by
    rw [← hE]
    split_ifs <;> exact ⟨rfl, rfl⟩
  cases hg : cvf.getCentralAtom e1.pos e1.central_derivs with
  | error m =>
    simp only [hg] at h
    cases h
  | ok r =>
    simp only [hg, Except.ok.injEq] at h
    rw [← h]
    exact hp

theorem calculateThisFunction_length {R : Type} [Zero R] [Add R] [Mul R] (cvf : Colvar R)
    (host : Host R) (s : MultiColvar) (e : Evaluator R) (j : Nat) (b : Bool) (e' : Evaluator R)
    (hinv : e.pos = [] ∨ e.thisval.getNumberOfDerivatives = 3 * e.pos.length + 9)
    (h : calculateThisFunction cvf host s e j = .ok (b, e')) :
    ((s.colvar_atoms.getD j DynamicList.empty).getNumberActive = 0 → b = true ∧ e' = e) ∧
    ((s.colvar_atoms.getD j DynamicList.empty).getNumberActive ≠ 0 →
      e'.pos.length = (s.colvar_atoms.getD j DynamicList.empty).getNumberActive ∧
      e'.thisval.getNumberOfDerivatives =
        3 * (s.colvar_atoms.getD j DynamicList.empty).getNumberActive + 9) := by
  unfold calculateThisFunction at h
  by_cases hk : (s.colvar_atoms.getD j DynamicList.empty).getNumberActive = 0
  · simp only [hk, if_true, Except.ok.injEq, Prod.mk.injEq] at h
    exact ⟨fun _ => ⟨h.1.symm, h.2.symm⟩, fun hne => absurd hk hne⟩
  · refine ⟨fun h0 => absurd h0 hk, fun _ => ?_⟩
    simp only [hk, if_false] at h
    generalize hE : (if e.pos.length ≠ (s.colvar_atoms.getD j DynamicList.empty).getNumberActive
      then
        { e with
          pos := vectorResize e.pos
            (s.colvar_atoms.getD j DynamicList.empty).getNumberActive (fun _ => 0)
          thisval := e.thisval.resizeDerivatives
            (3 * (vectorResize e.pos
              (s.colvar_atoms.getD j DynamicList.empty).getNumberActive (fun _ => 0)).length + 9) }
      else e) = e1 at h
    have h1 : e1.pos.length = (s.colvar_atoms.getD j DynamicList.empty).getNumberActive ∧
        e1.thisval.derivatives.length =
          3 * (s.colvar_atoms.getD j DynamicList.empty).getNumberActive + 9 := by
      rw [← hE]
      split_ifs with hc
      · simp only [length_vectorResize, length_resizeDerivatives, and_self]
      · have hc' := not_not.1 hc
        rcases hinv with h0 | h0
        · rw [h0] at hc'
          exact absurd hc'.symm hk
        · exact ⟨hc', by rw [← hc']; exact h0⟩
    split_ifs at h with hsmall hcen
    · simp only [Except.ok.injEq, Prod.mk.injEq] at h
      rw [← h.2]
      exact ⟨by simp only [length_forLoop_set]; exact h1.1,
        by simp only [Value.getNumberOfDerivatives, Value.clearDerivatives, List.length_map]
           exact h1.2⟩
    · cases hc : centralAtomStep cvf host
          (s.colvar_atoms.getD j DynamicList.empty).getNumberActive _ with
      | error m =>
        rw [hc] at h
        cases h
      | ok e2 =>
        rw [hc] at h
        simp only [Except.bind, Except.ok.injEq, Prod.mk.injEq] at h
        obtain ⟨hp, ht⟩ := centralAtomStep_frame _ _ _ _ _ hc
        rw [← h.2, hp, ht]
        exact ⟨by simp only [length_forLoop_set]; exact h1.1,
          by simp only [Value.getNumberOfDerivatives, Value.set, length_foldl_addDerivative,
               Value.clearDerivatives, List.length_map]
             exact h1.2⟩
    · simp only [Except.ok.injEq, Prod.mk.injEq] at h
      rw [← h.2]
      exact ⟨by simp only [length_forLoop_set]; exact h1.1,
        by simp only [Value.getNumberOfDerivatives, Value.set, length_foldl_addDerivative,
             Value.clearDerivatives, List.length_map]
           exact h1.2⟩

/-- A sequence of evaluations keeps the derivative buffer of `thisval` sized
on `pos`, once `pos` is not empty. -/
theorem foldlM_calculateThisFunction_inv {R : Type} [Zero R] [Add R] [Mul R] (cvf : Colvar R)
    (host : Host R) (evals : List (MultiColvar × Nat)) (e0 e1 : Evaluator R)
    (hinv : e0.pos = [] ∨ e0.thisval.getNumberOfDerivatives = 3 * e0.pos.length + 9)
    (hseq : evals.foldlM (fun e sj =>
      (calculateThisFunction cvf host sj.1 e sj.2).bind fun r => .ok r.2) e0 = .ok e1) :
    e1.pos = [] ∨ e1.thisval.getNumberOfDerivatives = 3 * e1.pos.length + 9 := by
  induction evals generalizing e0 with
  | nil =>
    simp only [List.foldlM_nil, pure, Except.pure, Except.ok.injEq] at hseq
    rw [← hseq]
    exact hinv
  | cons sj evals ih =>
    rw [List.foldlM_cons] at hseq
    cases hc : calculateThisFunction cvf host sj.1 e0 sj.2 with
    | error m =>
      rw [hc] at hseq
      cases hseq
    | ok r =>
      rw [hc] at hseq
      apply ih r.2 _ hseq
      obtain ⟨g0, g1⟩ := calculateThisFunction_length cvf host sj.1 e0 sj.2 r.1 r.2 hinv hc
      by_cases hk : (sj.1.colvar_atoms.getD sj.2 DynamicList.empty).getNumberActive = 0
      · rw [(g0 hk).2]
        exact hinv
      · right
        rw [(g1 hk).2, (g1 hk).1]

/-! ## Lemmas on the reducer -/

theorem getD_set_eq {α : Type} (l : List α) (i : Nat) (x d : α) (h : i < l.length) :
    (l.set i x).getD i d = x := by
  simp [List.getD_eq_getElem?_getD, List.getElem?_set, h]

theorem getD_set_ne {α : Type} (l : List α) (i p : Nat) (x d : α) (h : i ≠ p) :
    (l.set i x).getD p d = l.getD p d := by
  simp [List.getD_eq_getElem?_getD, List.getElem?_set, h]

/-- A loop that rewrites entry `i` of a list from its own content, for
`i < n`: every entry below `n` is rewritten once, the others are kept. -/
theorem forLoop_set_getD {α : Type} (n : Nat) (g : Nat → α → α) (d : α) (l : List α) :
    (forLoop 0 n (fun i (l : List α) => l.set i (g i (l.getD i d))) l).length = l.length ∧
    ∀ p, p < l.length →
      (forLoop 0 n (fun i (l : List α) => l.set i (g i (l.getD i d))) l).getD p d =
        if p < n then g p (l.getD p d) else l.getD p d := by
  rw [forLoop_zero_eq_foldl]
  induction n with
  | zero => exact ⟨rfl, fun p _ => by rw [if_neg (Nat.not_lt_zero p)]; rfl⟩
  | succ n ih =>
    rw [List.range_succ, List.foldl_append]
    simp only [List.foldl_cons, List.foldl_nil]
    refine ⟨by rw [List.length_set]; exact ih.1, ?_⟩
    intro p hp
    by_cases hnp : n = p
    · subst hnp
      rw [getD_set_eq _ _ _ _ (by rw [ih.1]; exact hp), ih.2 n hp, if_neg (Nat.lt_irrefl n),
        if_pos (Nat.lt_succ_self n)]
    · rw [getD_set_ne _ _ _ _ _ hnp, ih.2 p hp]
      by_cases h1 : p < n
      · rw [if_pos h1, if_pos (Nat.lt_succ_of_lt h1)]
      · have h2 : ¬ p < n + 1 := by omega
        rw [if_neg h1, if_neg h2]

theorem foldl_range_getD {α σ : Type} (l : List α) (d : α) (h : σ → α → σ) (a : σ) :
    (List.range l.length).foldl (fun acc i => h acc (l.getD i d)) a = l.foldl h a := by
  conv_rhs => rw [← map_getD_range l d]
  rw [List.foldl_map]

theorem list_ext_getD' {α : Type} (d : α) (l1 l2 : List α) (hlen : l1.length = l2.length)
    (h : ∀ p, p < l1.length → l1.getD p d = l2.getD p d) : l1 = l2 := by
  apply List.ext_getElem hlen
  intro p h1 h2
  have := h p h1
  simpa [List.getD_eq_getElem?_getD, List.getElem?_eq_getElem h1,
    List.getElem?_eq_getElem h2] using this

/-- The force loop of one reporting vessel: entry `j < nat` of the force array
receives the three buffer entries `3j`, `3j+1`, `3j+2`. -/
theorem applyVessel_forces {R : Type} [AddCommMonoid R] (nat : Nat) (forces : List R)
    (f : List (Vector R)) :
    (forLoop 0 nat (fun j (f : List (Vector R)) =>
      let x := f.getD j (fun _ => 0)
      let x := x.setComponent 0 (x 0 + forces.getD (3 * j + 0) 0)
      let x := x.setComponent 1 (x 1 + forces.getD (3 * j + 1) 0)
      let x := x.setComponent 2 (x 2 + forces.getD (3 * j + 2) 0)
      f.set j x) f).length = f.length ∧
    ∀ j, j < f.length → ∀ c : Fin 3,
      ((forLoop 0 nat (fun j (f : List (Vector R)) =>
        let x := f.getD j (fun _ => 0)
        let x := x.setComponent 0 (x 0 + forces.getD (3 * j + 0) 0)
        let x := x.setComponent 1 (x 1 + forces.getD (3 * j + 1) 0)
        let x := x.setComponent 2 (x 2 + forces.getD (3 * j + 2) 0)
        f.set j x) f).getD j (fun _ => 0)) c =
      (f.getD j (fun _ => 0)) c + if j < nat then forces.getD (3 * j + c.val) 0 else 0 := by
  have h := forLoop_set_getD nat (fun j (x : Vector R) =>
    let x := x.setComponent 0 (x 0 + forces.getD (3 * j + 0) 0)
    let x := x.setComponent 1 (x 1 + forces.getD (3 * j + 1) 0)
    x.setComponent 2 (x 2 + forces.getD (3 * j + 2) 0))
    (fun _ => 0) f
  refine ⟨h.1, ?_⟩
  intro j hj c
  refine Eq.trans (congrFun (h.2 j hj) c) ?_
  by_cases hn : j < nat
  · simp only [hn, if_true]
    fin_cases c <;> simp [Vector.setComponent]
  · simp only [hn, if_false, add_zero]

/-- The nine accumulations into the virial, in row-major order. -/
theorem applyVessel_virial {R : Type} [AddCommMonoid R] (vstart : Nat) (forces : List R)
    (v : Tensor R) (r c : Fin 3) :
    (((((((((v.addEntry 0 0 (forces.getD (vstart + 0) 0)).addEntry 0 1
      (forces.getD (vstart + 1) 0)).addEntry 0 2 (forces.getD (vstart + 2) 0)).addEntry 1 0
      (forces.getD (vstart + 3) 0)).addEntry 1 1 (forces.getD (vstart + 4) 0)).addEntry 1 2
      (forces.getD (vstart + 5) 0)).addEntry 2 0 (forces.getD (vstart + 6) 0)).addEntry 2 1
      (forces.getD (vstart + 7) 0)).addEntry 2 2 (forces.getD (vstart + 8) 0)) r c =
      v r c + forces.getD (vstart + 3 * r.val + c.val) 0 := by
  fin_cases r <;> fin_cases c <;> simp [Tensor.addEntry]

/-- The loop over the vessels, for vessels that either report nothing or
report a buffer: the force array and the virial receive the entries of every
reported buffer. -/
theorem foldl_applyVessel {R : Type} [AddCommMonoid R] (nat vstart : Nat)
    (rs : List (Option (List R))) (st : List (Vector R) × Tensor R × List R) :
    (rs.foldl (fun st r => applyVessel nat vstart (Vessel.ofReport r) st) st).1.length =
      st.1.length ∧
    (∀ j, j < st.1.length → ∀ c : Fin 3,
      ((rs.foldl (fun st r => applyVessel nat vstart (Vessel.ofReport r) st) st).1.getD j
          (fun _ => 0)) c =
        (st.1.getD j (fun _ => 0)) c +
          ((rs.filterMap id).map (fun F =>
            if j < nat then F.getD (3 * j + c.val) 0 else 0)).sum) ∧
    (∀ r c : Fin 3,
      (rs.foldl (fun st r => applyVessel nat vstart (Vessel.ofReport r) st) st).2.1 r c =
        st.2.1 r c +
          ((rs.filterMap id).map (fun F => F.getD (vstart + 3 * r.val + c.val) 0)).sum) := by
  induction rs generalizing st with
  | nil => simp
  | cons r rs ih =>
    rw [List.foldl_cons]
    cases r with
    | none =>
      have e : applyVessel nat vstart (Vessel.ofReport (none : Option (List R))) st = st := rfl
      rw [e]
      simpa using ih st
    | some F =>
      obtain ⟨h1, h2, h3⟩ := ih (applyVessel nat vstart (Vessel.ofReport (some F)) st)
      have g := applyVessel_forces nat F st.1
      have e1 : (applyVessel nat vstart (Vessel.ofReport (some F)) st).1.length =
          st.1.length := g.1
      refine ⟨by rw [h1, e1], ?_, ?_⟩
      · intro j hj c
        rw [h2 j (by rw [e1]; exact hj) c]
        have e2 : ((applyVessel nat vstart (Vessel.ofReport (some F)) st).1.getD j
            (fun _ => 0)) c =
            (st.1.getD j (fun _ => 0)) c + if j < nat then F.getD (3 * j + c.val) 0 else 0 :=
          g.2 j hj c
        rw [e2]
        simp [add_assoc]
      · intro r c
        rw [h3 r c]
        have e3 : (applyVessel nat vstart (Vessel.ofReport (some F)) st).2.1 r c =
            st.2.1 r c + F.getD (vstart + 3 * r.val + c.val) 0 :=
          applyVessel_virial vstart F st.2.1 r c
        rw [e3]
        simp [add_assoc]

theorem filterMap_id_filter_isSome {α : Type} (rs : List (Option α)) :
    (rs.filter Option.isSome).filterMap id = rs.filterMap id := by
  induction rs with
  | nil => rfl
  | cons r rs ih =>
    cases r with
    | none => simpa using ih
    | some a => simpa using ih

/-- The closed form of `apply()` for vessels that either report nothing or
report a buffer. -/
theorem apply_eq {R : Type} [AddCommMonoid R] (s : MultiColvar)
    (rs : List (Option (List R))) (f : List (Vector R)) (v : Tensor R) :
    apply s (rs.map Vessel.ofReport) f v =
      ((List.range f.length).map (fun j => fun c : Fin 3 =>
        ((rs.filterMap id).map (fun F =>
          if j < getNumberOfAtoms s then F.getD (3 * j + c.val) 0 else 0)).sum),
       fun r c : Fin 3 =>
        ((rs.filterMap id).map (fun F =>
          F.getD (3 * getNumberOfAtoms s + 3 * r.val + c.val) 0)).sum) := by
  unfold apply
  simp only []
  rw [forLoop_zero_eq_foldl (rs.map Vessel.ofReport).length,
    foldl_range_getD (rs.map Vessel.ofReport) (Vessel.ofReport none)
      (fun st x => applyVessel (getNumberOfAtoms s) (3 * getNumberOfAtoms s) x st),
    List.foldl_map]
  have hz := forLoop_set_getD f.length (fun _ (x : Vector R) =>
    ((x.setComponent 0 0).setComponent 1 0).setComponent 2 0) (fun _ => 0) f
  obtain ⟨h1, h2, h3⟩ := foldl_applyVessel (getNumberOfAtoms s) (3 * getNumberOfAtoms s) rs
    (forLoop 0 f.length (fun i (f : List (Vector R)) =>
      f.set i ((((f.getD i (fun _ => 0)).setComponent 0 0).setComponent 1 0).setComponent 2 0))
      f, v.zero, List.replicate (3 * getNumberOfAtoms s + 9) 0)
  apply Prod.ext
  · apply list_ext_getD' (fun _ => 0)
    · simp only [] at h1 ⊢
      rw [h1, hz.1]
      simp
    · intro p hp
      simp only [] at h1 h2 hp ⊢
      rw [h1, hz.1] at hp
      funext c
      rw [h2 p (by rw [hz.1]; exact hp) c, hz.2 p hp, if_pos hp]
      have e : (((f.getD p (fun _ => 0)).setComponent 0 0).setComponent 1 0).setComponent 2 0 c
          = 0 := by
        fin_cases c <;> simp [Vector.setComponent]
      rw [e, zero_add]
      simp [List.getD_eq_getElem?_getD, hp]
  · funext r c
    simp only [] at h3 ⊢
    rw [h3 r c]
    simp [Tensor.zero]

/-! ## Lemmas on the registry invariant -/

theorem readAtomsKeywordLoop_empty_head (rest : List (List AtomNumber)) (i : Nat)
    (natoms : Int) (nl : DynamicList Nat) (s : MultiColvar) :
    readAtomsKeywordLoop ([] :: rest) i natoms nl s = .ok (natoms, s) := by
  simp [readAtomsKeywordLoop]

/-- The loop of `readAtomsKeyword` keeps every stored index below the size of
the registry, when the registry holds `n` atoms for each tuple read so far. -/
theorem readAtomsKeywordLoop_bound (n : Nat) (ts : List (List AtomNumber)) (i : Nat)
    (hi : 1 ≤ i) (s : MultiColvar) (r : Int × MultiColvar)
    (hreg : s.all_atoms.all.length = n * (i - 1))
    (hinv : ∀ c ∈ s.colvar_atoms, ∀ x ∈ c.all, x < s.all_atoms.all.length)
    (h : readAtomsKeywordLoop ts i (n : Int) DynamicList.empty s = .ok r) :
    ∀ c ∈ r.2.colvar_atoms, ∀ x ∈ c.all, x < r.2.all_atoms.all.length := by
  induction ts generalizing i s with
  | nil =>
    simp only [readAtomsKeywordLoop, Except.ok.injEq] at h
    rw [← h]
    exact hinv
  | cons t rest ih =>
    by_cases hne : t = []
    · subst hne
      rw [readAtomsKeywordLoop_empty_head, Except.ok.injEq] at h
      rw [← h]
      exact hinv
    · by_cases ht : t.length = n
      · subst ht
        rw [readAtomsKeywordLoop_cons t rest i s hne] at h
        apply ih (i + 1) (by omega) _ _ _ h
        · simp only [addAllToList_all, List.length_append, hreg]
          have e : i + 1 - 1 = (i - 1) + 1 := by omega
          rw [e, Nat.mul_succ]
        · intro c hc x hx
          simp only [addAllToList_all, List.length_append]
          rcases List.mem_append.1 hc with hc | hc
          · have := hinv c hc x hx
            omega
          · simp only [List.mem_singleton] at hc
            subst hc
            simp only [DynamicList.ofList, List.mem_map, List.mem_range] at hx
            obtain ⟨j, hj, rfl⟩ := hx
            rw [hreg]
            omega
      · rw [readAtomsKeywordLoop_cons_error t rest i n _ s hne ht] at h
        cases h

theorem readAtomsKeyword_bound (inp : Input) (natoms : Int) (s : MultiColvar)
    (r : Int × MultiColvar) (hreg : s.all_atoms.all = [])
    (hinv : ∀ c ∈ s.colvar_atoms, ∀ x ∈ c.all, x < s.all_atoms.all.length)
    (h : readAtomsKeyword inp natoms s = .ok r) :
    ∀ c ∈ r.2.colvar_atoms, ∀ x ∈ c.all, x < r.2.all_atoms.all.length := by
  cases hread : s.readatoms
  · unfold readAtomsKeyword at h
    simp only [hread, Bool.false_eq_true, if_false] at h
    cases hnum : inp.numbered with
    | nil =>
      rw [hnum] at h
      simp only [readAtomsKeywordLoop, Except.ok.injEq] at h
      rw [← h]
      exact hinv
    | cons t0 rest =>
      rw [hnum] at h
      by_cases hne : t0 = []
      · subst hne
        rw [readAtomsKeywordLoop_empty_head, Except.ok.injEq] at h
        rw [← h]
        exact hinv
      · by_cases hneg : natoms < 0
        · rw [readAtomsKeywordLoop_neg t0 rest natoms hneg _ s hne] at h
          exact readAtomsKeywordLoop_bound t0.length (t0 :: rest) 1 (Nat.le_refl 1) s r
            (by simp [hreg]) hinv h
        · have e : natoms = ((natoms.toNat : Nat) : Int) := by omega
          rw [e] at h
          exact readAtomsKeywordLoop_bound natoms.toNat (t0 :: rest) 1 (Nat.le_refl 1) s r
            (by simp [hreg]) hinv h
  · rw [readAtomsKeyword_skip inp natoms s hread, Except.ok.injEq] at h
    rw [← h]
    exact hinv

theorem readGroupsKeyword_bound (inp : Input) (natoms : Int) (s : MultiColvar)
    (r : Int × MultiColvar)
    (hinv : ∀ c ∈ s.colvar_atoms, ∀ x ∈ c.all, x < s.all_atoms.all.length)
    (h : readGroupsKeyword inp natoms s = .ok r) :
    ∀ c ∈ r.2.colvar_atoms, ∀ x ∈ c.all, x < r.2.all_atoms.all.length := by
  cases hread : s.readatoms
  · obtain ⟨h2, hA, hB⟩ := readGroupsKeyword_ok_pre inp natoms s r hread h
    subst h2
    by_cases hG : parseAtomList inp .GROUP = []
    · by_cases h1 : parseAtomList inp .GROUPA = []
      · rw [readGroupsKeyword_noA inp s hread hA hB hG h1, Except.ok.injEq] at h
        rw [← h]
        exact hinv
      · by_cases h2 : parseAtomList inp .GROUPB = []
        · rw [readGroupsKeyword_noB inp s hread hA hB hG h1 h2] at h
          cases h
        · rw [readGroupsKeyword_groupAB inp s hread hA hB hG h1 h2, Except.ok.injEq] at h
          rw [← h]
          intro c hc x hx
          simp only [addAllToList_all, List.length_append]
          rcases List.mem_append.1 hc with hc | hc
          · have := hinv c hc x hx
            omega
          · simp only [List.mem_flatMap, List.mem_map, List.mem_range] at hc
            obtain ⟨a, ha, b, hb, rfl⟩ := hc
            simp only [DynamicList.ofList, List.mem_cons, List.mem_singleton,
              List.not_mem_nil, or_false] at hx
            rcases hx with rfl | rfl <;> omega
    · rw [readGroupsKeyword_group inp s hread hA hB hG, Except.ok.injEq] at h
      rw [← h]
      intro c hc x hx
      simp only [addAllToList_all, List.length_append]
      rcases List.mem_append.1 hc with hc | hc
      · have := hinv c hc x hx
        omega
      · simp only [List.mem_flatMap, List.mem_map, List.mem_range, List.mem_range'_1] at hc
        obtain ⟨a, ha, b, hb, rfl⟩ := hc
        simp only [DynamicList.ofList, List.mem_cons, List.mem_singleton,
          List.not_mem_nil, or_false] at hx
        rcases hx with rfl | rfl <;> omega
  · rw [readGroupsKeyword_skip inp natoms s hread, Except.ok.injEq] at h
    rw [← h]
    exact hinv

theorem readSpeciesKeyword_bound (inp : Input) (natoms : Int) (s : MultiColvar)
    (r : Int × MultiColvar)
    (hinv : ∀ c ∈ s.colvar_atoms, ∀ x ∈ c.all, x < s.all_atoms.all.length)
    (h : readSpeciesKeyword inp natoms s = .ok r) :
    ∀ c ∈ r.2.colvar_atoms, ∀ x ∈ c.all, x < r.2.all_atoms.all.length := by
  cases hread : s.readatoms
  · by_cases hS : parseAtomList inp .SPECIES = []
    · cases hA : inp.keywords_exists .SPECIESA
      · rw [readSpeciesKeyword_none inp natoms s hread hS (Or.inl (by simp [hA])),
          Except.ok.injEq] at h
        rw [← h]
        exact hinv
      · cases hB : inp.keywords_exists .SPECIESB
        · rw [readSpeciesKeyword_none inp natoms s hread hS (Or.inl (by simp [hB])),
            Except.ok.injEq] at h
          rw [← h]
          exact hinv
        · by_cases h1 : parseAtomList inp .SPECIESA = []
          · rw [readSpeciesKeyword_none inp natoms s hread hS (Or.inr h1),
              Except.ok.injEq] at h
            rw [← h]
            exact hinv
          · by_cases h2 : parseAtomList inp .SPECIESB = []
            · rw [readSpeciesKeyword_noB inp natoms s hread hA hB hS h1 h2] at h
              cases h
            · rw [readSpeciesKeyword_speciesAB inp natoms s hread hA hB hS h1 h2,
                Except.ok.injEq] at h
              rw [← h]
              intro c hc x hx
              simp only [addAllToList_all, List.length_append]
              rcases List.mem_append.1 hc with hc | hc
              · have := hinv c hc x hx
                omega
              · simp only [List.mem_map, List.mem_range] at hc
                obtain ⟨a, ha, rfl⟩ := hc
                simp only [DynamicList.ofList, List.mem_cons, List.mem_map,
                  List.mem_range] at hx
                rcases hx with rfl | ⟨b, hb, rfl⟩ <;> omega
    · rw [readSpeciesKeyword_species inp natoms s hread hS, Except.ok.injEq] at h
      rw [← h]
      intro c hc x hx
      simp only [addAllToList_all, List.length_append]
      rcases List.mem_append.1 hc with hc | hc
      · have := hinv c hc x hx
        omega
      · simp only [List.mem_map, List.mem_range] at hc
        obtain ⟨a, ha, rfl⟩ := hc
        split_ifs at hx
        · simp only [DynamicList.ofList, List.mem_cons, List.mem_filter, List.mem_range] at hx
          rcases hx with rfl | ⟨hb, _⟩ <;> omega
        · simp only [DynamicList.ofList, List.mem_singleton] at hx
          omega
  · rw [readSpeciesKeyword_skip inp natoms s hread, Except.ok.injEq] at h
    rw [← h]
    exact hinv

theorem active_activateAll_updateActiveMembers {α : Type} (l : DynamicList α) :
    l.activateAll.updateActiveMembers.active = l.all := by
  simp only [DynamicList.activateAll, DynamicList.updateActiveMembers]
  induction l.all with
  | nil => rfl
  | cons a t ih => simpa using ih

/-- With every flag on, the link index of a stored position is the position
itself. -/
theorem linkIndex_all_on {α : Type} (ii : Nat) (l1 : DynamicList Nat) (l2 : DynamicList α)
    (nn : Nat) (h1 : l1.active[ii]? = some nn) (n : Nat)
    (h2 : l2.onoff = List.replicate n true) (hnn : nn < n) :
    linkIndex ii l1 l2 = (nn : Int) := by
  unfold linkIndex
  rw [h1, h2]
  have e1 : (List.replicate n true).getD nn false = true := by
    simp [List.getD_eq_getElem?_getD, hnn]
  simp only [e1, if_true, List.take_replicate]
  congr 1
  rw [List.filter_eq_self.2 (fun b hb => List.eq_of_mem_replicate hb)]
  simp [Nat.min_eq_left (Nat.le_of_lt hnn)]

/-! ## Lemmas on the grouping modes -/

/-- The loop of `readAtomsKeyword` sets `readatoms` when it succeeds on a first
tuple that is not empty. -/
theorem readAtomsKeywordLoop_readatoms (t : List AtomNumber) (rest : List (List AtomNumber))
    (i : Nat) (natoms : Int) (nl : DynamicList Nat) (s : MultiColvar) (r : Int × MultiColvar)
    (hne : t ≠ []) (h : readAtomsKeywordLoop (t :: rest) i natoms nl s = .ok r) :
    r.2.readatoms = true := by
  rw [readAtomsKeywordLoop] at h
  dsimp only at h
  generalize (if i = 1 ∧ natoms < 0 then (t.length : Int) else natoms) = n' at h
  split_ifs at h with h1 h2
  · simp only [List.isEmpty_eq_true] at h1
    exact absurd h1 hne
  · rcases readAtomsKeywordLoop_progress _ _ _ _ _ _ h with h3 | h3
    · rw [h3]
    · exact h3.1

/-- The reader of `ATOMS` depends on the numbered tuples only. -/
theorem readAtomsKeyword_congr (inp inp2 : Input) (natoms : Int) (s : MultiColvar)
    (hnum : inp2.numbered = inp.numbered) :
    readAtomsKeyword inp2 natoms s = readAtomsKeyword inp natoms s := by
  unfold readAtomsKeyword
  rw [hnum]

/-- The reader of the groups depends on the registered keywords and on the
three group lists only. -/
theorem readGroupsKeyword_congr (inp inp2 : Input) (natoms : Int) (s : MultiColvar)
    (hkw : inp2.keywords_exists = inp.keywords_exists)
    (hG : inp2.atoms .GROUP = inp.atoms .GROUP)
    (hGA : inp2.atoms .GROUPA = inp.atoms .GROUPA)
    (hGB : inp2.atoms .GROUPB = inp.atoms .GROUPB) :
    readGroupsKeyword inp2 natoms s = readGroupsKeyword inp natoms s := by
  unfold readGroupsKeyword parseAtomList
  rw [hkw, hG, hGA, hGB]

/-- With `GROUP` not empty the reader of the groups depends on the registered
keywords and on `GROUP` only. -/
theorem readGroupsKeyword_congr_group (inp inp2 : Input) (natoms : Int) (s : MultiColvar)
    (hkw : inp2.keywords_exists = inp.keywords_exists)
    (hG : inp2.atoms .GROUP = inp.atoms .GROUP)
    (hne : parseAtomList inp .GROUP ≠ []) :
    readGroupsKeyword inp2 natoms s = readGroupsKeyword inp natoms s := by
  have hne' : inp.atoms .GROUP ≠ [] := hne
  unfold readGroupsKeyword parseAtomList
  rw [hkw, hG]
  simp [hne']

/-- With no atoms read before and `GROUP` or `GROUPA` not empty, a successful
`readGroupsKeyword` sets `readatoms`. -/
theorem readGroupsKeyword_readatoms (inp : Input) (natoms : Int) (s : MultiColvar)
    (r : Int × MultiColvar)
    (hne : parseAtomList inp .GROUP ≠ [] ∨ parseAtomList inp .GROUPA ≠ [])
    (h : readGroupsKeyword inp natoms s = .ok r) : r.2.readatoms = true := by
  cases hread : s.readatoms
  · obtain ⟨h2, hA, hB⟩ := readGroupsKeyword_ok_pre inp natoms s r hread h
    subst h2
    by_cases hG : parseAtomList inp .GROUP = []
    · have h1 : parseAtomList inp .GROUPA ≠ [] := by
        rcases hne with hne | hne
        · exact absurd hG hne
        · exact hne
      by_cases h2 : parseAtomList inp .GROUPB = []
      · rw [readGroupsKeyword_noB inp s hread hA hB hG h1 h2] at h
        cases h
      · rw [readGroupsKeyword_groupAB inp s hread hA hB hG h1 h2, Except.ok.injEq] at h
        rw [← h]
    · rw [readGroupsKeyword_group inp s hread hA hB hG, Except.ok.injEq] at h
      rw [← h]
  · rw [readGroupsKeyword_skip inp natoms s hread, Except.ok.injEq] at h
    rw [← h]
    exact hread

/-- Two inputs give the same `readAtoms` when each of the three reader steps
gives the same on both, on the states the steps of the first input reach. -/
theorem readAtoms_congr_of_steps (inp inp2 : Input) (natoms : Int) (s : MultiColvar)
    (h1 : (if inp2.keywords_exists .ATOMS then readAtomsKeyword inp2 natoms s
            else .ok (natoms, s)) =
          (if inp.keywords_exists .ATOMS then readAtomsKeyword inp natoms s
            else .ok (natoms, s)))
    (h2 : ∀ r1, (if inp.keywords_exists .ATOMS then readAtomsKeyword inp natoms s
            else .ok (natoms, s)) = .ok r1 →
          (if inp2.keywords_exists .GROUP then readGroupsKeyword inp2 r1.1 r1.2 else .ok r1) =
          (if inp.keywords_exists .GROUP then readGroupsKeyword inp r1.1 r1.2 else .ok r1))
    (h3 : ∀ r1 r2, (if inp.keywords_exists .ATOMS then readAtomsKeyword inp natoms s
            else .ok (natoms, s)) = .ok r1 →
          (if inp.keywords_exists .GROUP then readGroupsKeyword inp r1.1 r1.2 else .ok r1) =
            .ok r2 →
          (if inp2.keywords_exists .SPECIES then readSpeciesKeyword inp2 r2.1 r2.2
            else .ok r2) =
          (if inp.keywords_exists .SPECIES then readSpeciesKeyword inp r2.1 r2.2
            else .ok r2)) :
    readAtoms inp2 natoms s = readAtoms inp natoms s := by
  unfold readAtoms
  rw [h1]
  cases e1 : (if inp.keywords_exists .ATOMS then readAtomsKeyword inp natoms s
      else .ok (natoms, s)) with
  | error m => rfl
  | ok r1 =>
    simp only [Except.bind]
    rw [h2 r1 e1]
    cases e2 : (if inp.keywords_exists .GROUP then readGroupsKeyword inp r1.1 r1.2
        else .ok r1) with
    | error m => rfl
    | ok r2 =>
      simp only []
      rw [h3 r1 r2 e1 e2]

/-! ## Lemmas on the central position -/

/-- A loop over a list of three entries whose body acts on each entry on its
own acts on each entry as the loop of its own action. -/
theorem foldl_three {α : Type} (G : Nat → List α → List α) (g0 g1 g2 : Nat → α → α)
    (hG : ∀ i a b c, G i [a, b, c] = [g0 i a, g1 i b, g2 i c]) (L : List Nat) (a b c : α) :
    L.foldl (fun cp i => G i cp) [a, b, c] =
      [L.foldl (fun v i => g0 i v) a, L.foldl (fun v i => g1 i v) b,
        L.foldl (fun v i => g2 i v) c] := by
  induction L generalizing a b c with
  | nil => rfl
  | cons i L ih =>
    simp only [List.foldl_cons]
    rw [hG, ih]

/-- The derivative loop of the central-atom step on one of the three values:
the value is kept, the number of derivatives is kept, and slot `p` receives the
entries `x i j` of the iterations with `3 * i + j = p`. -/
theorem central_loop_value {R : Type} [Semiring R] (x : Nat → Nat → R) (k : Nat)
    (v : Value R) :
    ((List.range k).foldl (fun (v : Value R) i =>
        ((v.addDerivative (3 * i + 0) (x i 0)).addDerivative (3 * i + 1) (x i 1)).addDerivative
          (3 * i + 2) (x i 2)) v).value = v.value ∧
    ((List.range k).foldl (fun (v : Value R) i =>
        ((v.addDerivative (3 * i + 0) (x i 0)).addDerivative (3 * i + 1) (x i 1)).addDerivative
          (3 * i + 2) (x i 2)) v).derivatives.length = v.derivatives.length ∧
    ∀ p, p < v.derivatives.length →
      ((List.range k).foldl (fun (v : Value R) i =>
        ((v.addDerivative (3 * i + 0) (x i 0)).addDerivative (3 * i + 1) (x i 1)).addDerivative
          (3 * i + 2) (x i 2)) v).derivatives.getD p 0 =
      v.derivatives.getD p 0 + ∑ i ∈ Finset.range k, ∑ c ∈ Finset.range 3,
        if 3 * i + c = p then x i c else 0 := by
  rw [foldl_addDerivative (fun i => 3 * i) x (List.range k) v]
  exact ⟨rfl, (scatter_loop_getD (fun i => 3 * i) x k v.derivatives).1,
    (scatter_loop_getD (fun i => 3 * i) x k v.derivatives).2⟩


/-- Slot `3 * i + j` is written by iteration `i`, component `j` only. -/
theorem sum_slot_single {R : Type} [AddCommMonoid R] (x : Nat → Nat → R) (k i j : Nat)
    (hi : i < k) (hj : j < 3) :
    (∑ a ∈ Finset.range k, ∑ c ∈ Finset.range 3,
      if 3 * a + c = 3 * i + j then x a c else 0) = x i j := by
  rw [Finset.sum_eq_single i]
  · rw [Finset.sum_eq_single j]
    · simp
    · intro c _ hc
      rw [if_neg]
      omega
    · intro h
      exact absurd (Finset.mem_range.2 hj) h
  · intro a _ ha
    apply Finset.sum_eq_zero
    intro c hc
    have hc3 := Finset.mem_range.1 hc
    rw [if_neg]
    omega
  · intro h
    exact absurd (Finset.mem_range.2 hi) h

/-- The slots from `3 * k` on are written by no iteration. -/
theorem sum_slot_none {R : Type} [AddCommMonoid R] (x : Nat → Nat → R) (k p : Nat)
    (hp : 3 * k ≤ p) :
    (∑ a ∈ Finset.range k, ∑ c ∈ Finset.range 3,
      if 3 * a + c = p then x a c else 0) = 0 := by
  apply Finset.sum_eq_zero
  intro a ha
  apply Finset.sum_eq_zero
  intro c hc
  have ha3 := Finset.mem_range.1 ha
  have hc3 := Finset.mem_range.1 hc
  rw [if_neg]
  omega

/-- The three values of `catom_pos` after the loops of the central-atom step,
started on three values `a`, `b`, `c`: each keeps the scalar set from `fpos`,
has `nder` derivatives, and slot `p` holds the entries of `dbox` written to it. -/
theorem catom_loops {R : Type} [Semiring R] (a b c : Value R) (nder k : Nat) (fpos : Vector R)
    (dbox : Nat → Tensor R) (cp : List (Value R))
    (hcp : cp = forLoop 0 k (fun i (cp : List (Value R)) =>
        forLoop 0 3 (fun j (cp : List (Value R)) =>
          let cp := cp.set 0 ((cp.getD 0 ⟨0, []⟩).addDerivative (3 * i + j)
            (dbox i 0 (Fin.ofNat j)))
          let cp := cp.set 1 ((cp.getD 1 ⟨0, []⟩).addDerivative (3 * i + j)
            (dbox i 1 (Fin.ofNat j)))
          cp.set 2 ((cp.getD 2 ⟨0, []⟩).addDerivative (3 * i + j) (dbox i 2 (Fin.ofNat j)))) cp)
        (let c0 := forLoop 0 3 (fun i (cp : List (Value R)) =>
            let v := cp.getD i ⟨0, []⟩
            let v := if v.getNumberOfDerivatives ≠ nder then v.resizeDerivatives nder else v
            cp.set i v.clearDerivatives) [a, b, c]
         let c1 := c0.set 0 ((c0.getD 0 ⟨0, []⟩).set (fpos 0))
         let c2 := c1.set 1 ((c1.getD 1 ⟨0, []⟩).set (fpos 1))
         c2.set 2 ((c2.getD 2 ⟨0, []⟩).set (fpos 2)))) :
    cp.length = 3 ∧
    ∀ r : Fin 3,
      (cp.getD r ⟨0, []⟩).value = fpos r ∧
      (cp.getD r ⟨0, []⟩).derivatives.length = nder ∧
      ∀ p, p < nder →
        (cp.getD r ⟨0, []⟩).derivatives.getD p 0 =
          ∑ i ∈ Finset.range k, ∑ j ∈ Finset.range 3,
            if 3 * i + j = p then dbox i r (Fin.ofNat j) else 0 := by
  have clr : ∀ (v : Value R) (x : R),
      (((if v.getNumberOfDerivatives ≠ nder then v.resizeDerivatives nder
          else v).clearDerivatives).set x).value = x ∧
      (((if v.getNumberOfDerivatives ≠ nder then v.resizeDerivatives nder
          else v).clearDerivatives).set x).derivatives.length = nder ∧
      ∀ p, (((if v.getNumberOfDerivatives ≠ nder then v.resizeDerivatives nder
          else v).clearDerivatives).set x).derivatives.getD p 0 = 0 := by
    intro v x
    refine ⟨rfl, ?_, ?_⟩
    · simp only [Value.set, Value.clearDerivatives, List.length_map]
      split_ifs with hc
      · exact length_resizeDerivatives v nder
      · exact not_not.1 hc
    · intro p
      simp only [Value.set, Value.clearDerivatives]
      rw [List.getD_eq_getElem?_getD, List.getElem?_map]
      cases (if v.getNumberOfDerivatives ≠ nder then v.resizeDerivatives nder
          else v).derivatives[p]? <;> rfl
  have one : ∀ (v : Value R) (x : R) (r : Fin 3),
      ((List.range k).foldl (fun (v : Value R) i =>
        ((v.addDerivative (3 * i + 0) (dbox i r (Fin.ofNat 0))).addDerivative (3 * i + 1)
          (dbox i r (Fin.ofNat 1))).addDerivative (3 * i + 2) (dbox i r (Fin.ofNat 2)))
        (((if v.getNumberOfDerivatives ≠ nder then v.resizeDerivatives nder
          else v).clearDerivatives).set x)).value = x ∧
      ((List.range k).foldl (fun (v : Value R) i =>
        ((v.addDerivative (3 * i + 0) (dbox i r (Fin.ofNat 0))).addDerivative (3 * i + 1)
          (dbox i r (Fin.ofNat 1))).addDerivative (3 * i + 2) (dbox i r (Fin.ofNat 2)))
        (((if v.getNumberOfDerivatives ≠ nder then v.resizeDerivatives nder
          else v).clearDerivatives).set x)).derivatives.length = nder ∧
      ∀ p, p < nder → ((List.range k).foldl (fun (v : Value R) i =>
        ((v.addDerivative (3 * i + 0) (dbox i r (Fin.ofNat 0))).addDerivative (3 * i + 1)
          (dbox i r (Fin.ofNat 1))).addDerivative (3 * i + 2) (dbox i r (Fin.ofNat 2)))
        (((if v.getNumberOfDerivatives ≠ nder then v.resizeDerivatives nder
          else v).clearDerivatives).set x)).derivatives.getD p 0 =
          ∑ i ∈ Finset.range k, ∑ j ∈ Finset.range 3,
            if 3 * i + j = p then dbox i r (Fin.ofNat j) else 0 := by
    intro v x r
    obtain ⟨c1, c2, c3⟩ := clr v x
    obtain ⟨l1, l2, l3⟩ := central_loop_value (fun i j => dbox i r (Fin.ofNat j)) k
      (((if v.getNumberOfDerivatives ≠ nder then v.resizeDerivatives nder
          else v).clearDerivatives).set x)
    refine ⟨l1.trans c1, l2.trans c2, ?_⟩
    intro p hp
    rw [l3 p (by rw [c2]; exact hp), c3 p, zero_add]
  have key : cp = [
      (List.range k).foldl (fun (v : Value R) i =>
        ((v.addDerivative (3 * i + 0) (dbox i 0 (Fin.ofNat 0))).addDerivative (3 * i + 1)
          (dbox i 0 (Fin.ofNat 1))).addDerivative (3 * i + 2) (dbox i 0 (Fin.ofNat 2)))
        (((if a.getNumberOfDerivatives ≠ nder then a.resizeDerivatives nder
          else a).clearDerivatives).set (fpos 0)),
      (List.range k).foldl (fun (v : Value R) i =>
        ((v.addDerivative (3 * i + 0) (dbox i 1 (Fin.ofNat 0))).addDerivative (3 * i + 1)
          (dbox i 1 (Fin.ofNat 1))).addDerivative (3 * i + 2) (dbox i 1 (Fin.ofNat 2)))
        (((if b.getNumberOfDerivatives ≠ nder then b.resizeDerivatives nder
          else b).clearDerivatives).set (fpos 1)),
      (List.range k).foldl (fun (v : Value R) i =>
        ((v.addDerivative (3 * i + 0) (dbox i 2 (Fin.ofNat 0))).addDerivative (3 * i + 1)
          (dbox i 2 (Fin.ofNat 1))).addDerivative (3 * i + 2) (dbox i 2 (Fin.ofNat 2)))
        (((if c.getNumberOfDerivatives ≠ nder then c.resizeDerivatives nder
          else c).clearDerivatives).set (fpos 2))] := by
    rw [hcp, forLoop_zero_eq_foldl]
    exact foldl_three _ _ _ _ (fun _ _ _ _ => rfl) (List.range k) _ _ _
  rw [key]
  refine ⟨rfl, ?_⟩
  intro r
  fin_cases r
  · exact one a (fpos 0) 0
  · exact one b (fpos 1) 1
  · exact one c (fpos 2) 2

/-- What the central-atom step leaves in `catom_pos`, when the three values
exist and `natoms` is the length of `pos`. -/
theorem centralAtomStep_catom {R : Type} [Semiring R] (cvf : Colvar R) (host : Host R)
    (e e2 : Evaluator R) (hcat : e.catom_pos.length = 3)
    (h : centralAtomStep cvf host e.pos.length e = .ok e2) :
    ∃ (central_pos : Vector R) (D : List (Tensor R)),
      cvf.getCentralAtom e.pos
        (if e.central_derivs.length ≠ e.pos.length then
          vectorResize e.central_derivs e.pos.length (fun _ _ => 0)
         else e.central_derivs) = .ok (central_pos, D) ∧
      e2.central_derivs = D ∧ e2.catom_pos.length = 3 ∧
      ∀ c : Fin 3,
        (e2.catom_pos.getD c ⟨0, []⟩).value = host.realToScaled central_pos c ∧
        (e2.catom_pos.getD c ⟨0, []⟩).derivatives.length = 3 * e.pos.length + 9 ∧
        ∀ p, p < 3 * e.pos.length + 9 →
          (e2.catom_pos.getD c ⟨0, []⟩).derivatives.getD p 0 =
            ∑ i ∈ Finset.range e.pos.length, ∑ j ∈ Finset.range 3,
              if 3 * i + j = p then
                matmul host.getInvBox.transpose (D.getD i (fun _ _ => 0)) c (Fin.ofNat j)
              else 0 := by
  unfold centralAtomStep at h
  generalize hE : (if e.central_derivs.length ≠ e.pos.length then
      { e with central_derivs := vectorResize e.central_derivs e.pos.length (fun _ _ => 0) }
    else e) = e1 at h
  have hp : e1.pos = e.pos ∧ e1.catom_pos = e.catom_pos ∧
      e1.central_derivs = (if e.central_derivs.length ≠ e.pos.length then
          vectorResize e.central_derivs e.pos.length (fun _ _ => 0)
         else e.central_derivs) := by
    rw [← hE]
    split_ifs <;> exact ⟨rfl, rfl, rfl⟩
  obtain ⟨hp1, hp2, hp3⟩ := hp
  rw [← hp3, ← hp1]
  cases hg : cvf.getCentralAtom e1.pos e1.central_derivs with
  | error m =>
    simp only [hg] at h
    cases h
  | ok r =>
    obtain ⟨central_pos, D⟩ := r
    simp only [hg, Except.ok.injEq] at h
    refine ⟨central_pos, D, rfl, by rw [← h], ?_⟩
    obtain ⟨a, b, c, habc⟩ : ∃ a b c, e1.catom_pos = [a, b, c] := by
      rw [hp2]
      match hl : e.catom_pos, hcat with
      | [a, b, c], _ => exact ⟨a, b, c, rfl⟩
    rw [habc, ← hp1] at h
    subst h
    exact catom_loops a b c (3 * e1.pos.length + 9) e1.pos.length
      (host.realToScaled central_pos)
      (fun i => matmul host.getInvBox.transpose (D.getD i (fun _ _ => 0))) _ rfl

/-- An evaluation that returns false with the central position required went
through the central-atom step, on evaluation members whose `pos` has one entry
per active atom and whose `catom_pos` and `central_derivs` are those of the
call. -/
theorem calculateThisFunction_central_step {R : Type} [Zero R] [Add R] [Mul R]
    (cvf : Colvar R) (host : Host R) (s : MultiColvar) (e e2 : Evaluator R) (j : Nat)
    (hneed : e.needsCentralAtomPosition = true)
    (h : calculateThisFunction cvf host s e j = .ok (false, e2)) :
    ∃ e3 : Evaluator R,
      e3.pos.length = (s.colvar_atoms.getD j DynamicList.empty).getNumberActive ∧
      e3.catom_pos = e.catom_pos ∧ e3.central_derivs = e.central_derivs ∧
      centralAtomStep cvf host (s.colvar_atoms.getD j DynamicList.empty).getNumberActive e3 =
        .ok e2 := by
  unfold calculateThisFunction at h
  by_cases hk : (s.colvar_atoms.getD j DynamicList.empty).getNumberActive = 0
  · simp only [hk, if_true, Except.ok.injEq, Prod.mk.injEq] at h
    exact absurd h.1 (by decide)
  · simp only [hk, if_false] at h
    generalize hE : (if e.pos.length ≠ (s.colvar_atoms.getD j DynamicList.empty).getNumberActive
      then
        { e with
          pos := vectorResize e.pos
            (s.colvar_atoms.getD j DynamicList.empty).getNumberActive (fun _ => 0)
          thisval := e.thisval.resizeDerivatives
            (3 * (vectorResize e.pos
              (s.colvar_atoms.getD j DynamicList.empty).getNumberActive (fun _ => 0)).length + 9) }
      else e) = e1 at h
    have h1 : e1.pos.length = (s.colvar_atoms.getD j DynamicList.empty).getNumberActive ∧
        e1.catom_pos = e.catom_pos ∧ e1.central_derivs = e.central_derivs ∧
        e1.needsCentralAtomPosition = e.needsCentralAtomPosition := by
      rw [← hE]
      split_ifs with hc
      · exact ⟨length_vectorResize _ _ _, rfl, rfl, rfl⟩
      · exact ⟨not_not.1 hc, rfl, rfl, rfl⟩
    split_ifs at h with hsmall hcen
    · simp only [Except.ok.injEq, Prod.mk.injEq] at h
      exact absurd h.1 (by decide)
    · cases hc : centralAtomStep cvf host
          (s.colvar_atoms.getD j DynamicList.empty).getNumberActive _ with
      | error m =>
        rw [hc] at h
        cases h
      | ok e4 =>
        rw [hc] at h
        simp only [Except.bind, Except.ok.injEq, Prod.mk.injEq, true_and] at h
        rw [h] at hc
        refine ⟨_, ?_, ?_, ?_, hc⟩
        · simp only [length_forLoop_set]
          exact h1.1
        · exact h1.2.1
        · exact h1.2.2.1
    · exact absurd (h1.2.2.2.trans hneed) hcen

/-! ## Lemmas on the fall-through to the species reader -/

/-- When the `ATOMS` step and the `GROUP` step both return the object as they
found it, `readAtoms` is the `SPECIES` step followed by the check of
`readatoms` and the activation of the lists. -/
theorem readAtoms_species_only (inp : Input) (natoms : Int) (s : MultiColvar)
    (h1 : (if inp.keywords_exists .ATOMS then readAtomsKeyword inp natoms s
            else .ok (natoms, s)) = .ok (natoms, s))
    (h2 : (if inp.keywords_exists .GROUP then readGroupsKeyword inp natoms s
            else .ok (natoms, s)) = .ok (natoms, s)) :
    readAtoms inp natoms s =
      (if inp.keywords_exists .SPECIES then readSpeciesKeyword inp natoms s
        else .ok (natoms, s)).bind fun r3 =>
        if r3.2.readatoms then
          .ok (r3.1, { r3.2 with
            colvar_atoms := r3.2.colvar_atoms.map (fun l => l.activateAll.updateActiveMembers)
            all_atoms := r3.2.all_atoms.activateAll.updateActiveMembers
            requested := r3.2.all_atoms.activateAll.updateActiveMembers.retrieveActiveList })
        else .error "No atoms have been read in" := by
  cases h3 : (if inp.keywords_exists .SPECIES then readSpeciesKeyword inp natoms s
      else .ok (natoms, s)) with
  | error m =>
    unfold readAtoms
    rw [h1]
    simp only [Except.bind]
    rw [h2]
    simp only []
    rw [h3]
  | ok r3 =>
    rw [readAtoms_eq inp natoms s (natoms, s) (natoms, s) r3 h1 h2 h3]
    rfl

/-- With no atoms read before, `readAtoms` that falls through to the `SPECIES`
step fails with the message of the `readatoms` check exactly when the species
reader reads no atoms: `SPECIES` is not registered, or it is empty and
`SPECIESA` is empty or not registered together with `SPECIESB`. -/
theorem readAtoms_species_only_fails_iff (inp : Input) (natoms : Int) (s : MultiColvar)
    (hread : s.readatoms = false)
    (h1 : (if inp.keywords_exists .ATOMS then readAtomsKeyword inp natoms s
            else .ok (natoms, s)) = .ok (natoms, s))
    (h2 : (if inp.keywords_exists .GROUP then readGroupsKeyword inp natoms s
            else .ok (natoms, s)) = .ok (natoms, s)) :
    readAtoms inp natoms s = .error "No atoms have been read in" ↔
      (inp.keywords_exists .SPECIES = false ∨
        (parseAtomList inp .SPECIES = [] ∧
          ((inp.keywords_exists .SPECIESA && inp.keywords_exists .SPECIESB) = false ∨
            parseAtomList inp .SPECIESA = []))) := by
  rw [readAtoms_species_only inp natoms s h1 h2]
  cases hsp : inp.keywords_exists .SPECIES
  · simp [Except.bind, hread]
  · simp only [if_true, Bool.true_eq_false, false_or]
    by_cases hS : parseAtomList inp .SPECIES = []
    · by_cases hAB : (inp.keywords_exists .SPECIESA && inp.keywords_exists .SPECIESB) = false ∨
          parseAtomList inp .SPECIESA = []
      · rw [readSpeciesKeyword_none inp natoms s hread hS hAB]
        simp only [Except.bind, hread, Bool.false_eq_true, if_false, true_iff]
        exact ⟨hS, hAB⟩
      · have hAB2 := not_or.1 hAB
        have hab : (inp.keywords_exists .SPECIESA && inp.keywords_exists .SPECIESB) = true := by
          simpa using hAB2.1
        have hA : inp.keywords_exists .SPECIESA = true := (Bool.and_eq_true _ _ ▸ hab).1
        have hB : inp.keywords_exists .SPECIESB = true := (Bool.and_eq_true _ _ ▸ hab).2
        by_cases hSB : parseAtomList inp .SPECIESB = []
        · rw [readSpeciesKeyword_noB inp natoms s hread hA hB hS hAB2.2 hSB]
          simp only [Except.bind]
          constructor
          · intro h
            exact absurd (Except.error.inj h) (by decide)
          · intro h
            exact absurd h.2 hAB
        · rw [readSpeciesKeyword_speciesAB inp natoms s hread hA hB hS hAB2.2 hSB]
          simp only [Except.bind, if_true]
          constructor
          · intro h
            cases h
          · intro h
            exact absurd h.2 hAB
    · rw [readSpeciesKeyword_species inp natoms s hread hS]
      simp only [Except.bind, if_true]
      constructor
      · intro h
        cases h
      · intro h
        exact absurd h.1 hS

/-! ## Theorems -/

/-- C1: single-group pair mode, count.  With `natoms == 2`, `GROUPA` and
`GROUPB` registered and no atoms read before, `readGroupsKeyword` on a `GROUP`
list of `n >= 1` atoms succeeds and appends exactly `n*(n-1)/2` instances to
`colvar_atoms`. -/
theorem readGroupsKeyword_group_count (inp : Input) (s : MultiColvar)
    (hread : s.readatoms = false)
    (hA : inp.keywords_exists .GROUPA = true) (hB : inp.keywords_exists .GROUPB = true)
    (hn : 1 ≤ (parseAtomList inp .GROUP).length) :
    ∃ s' new, readGroupsKeyword inp 2 s = .ok (2, s') ∧
      s'.colvar_atoms = s.colvar_atoms ++ new ∧
      new.length =
        (parseAtomList inp .GROUP).length * ((parseAtomList inp .GROUP).length - 1) / 2 := by
  have hne : parseAtomList inp .GROUP ≠ [] := by
    intro h; rw [h] at hn; simp at hn
  refine ⟨_, _, readGroupsKeyword_group inp s hread hA hB hne, rfl, ?_⟩
  rw [← length_pairs_two_mul]
  simp

/-- Witness of C1: a group of three atoms on a fresh object gives three
instances. -/
theorem readGroupsKeyword_group_count_witness :
    (MultiColvar.init false).readatoms = false ∧
    1 ≤ (parseAtomList (mkInput [] [10, 20, 30] [] [] [] [] []) .GROUP).length ∧
    ∃ s' new, readGroupsKeyword (mkInput [] [10, 20, 30] [] [] [] [] []) 2
        (MultiColvar.init false) = .ok (2, s') ∧
      s'.colvar_atoms = (MultiColvar.init false).colvar_atoms ++ new ∧
      new.length = 3 * (3 - 1) / 2 :=
  ⟨rfl, by decide,
   readGroupsKeyword_group_count (mkInput [] [10, 20, 30] [] [] [] [] [])
     (MultiColvar.init false) rfl rfl rfl (by decide)⟩

/-- C2: single-group pair mode, order and content.  For a non-empty `GROUP`
list `t` of `n` atoms (`natoms == 2`), `readGroupsKeyword` appends `t` to the
registry `all_atoms` in order and appends the instances enumerated for
`i = 1..n-1`, for `j = 0..i-1`, the instance of `(i,j)` holding the two
registry positions `[i, j]`.  So every new instance holds `[i, j]` with
`j < i < n`, which on a registry that was empty resolve to `t[i]`, `t[j]`;
no instance is repeated, and every pair of positions `j < i < n` occurs as
`[i, j]` and never as `[j, i]`, so each unordered pair occurs exactly once; and for `n = 3` the sequence is `(1,0),(2,0),(2,1)`. -/
theorem readGroupsKeyword_group_order (inp : Input) (s : MultiColvar)
    (hread : s.readatoms = false)
    (hA : inp.keywords_exists .GROUPA = true) (hB : inp.keywords_exists .GROUPB = true)
    (hne : parseAtomList inp .GROUP ≠ []) :
    ∃ s' new, readGroupsKeyword inp 2 s = .ok (2, s') ∧
      s'.all_atoms.all = s.all_atoms.all ++ parseAtomList inp .GROUP ∧
      s'.colvar_atoms = s.colvar_atoms ++ new ∧
      new.map (fun c => c.all) =
        (List.range' 1 ((parseAtomList inp .GROUP).length - 1)).flatMap (fun i =>
          (List.range i).map (fun j => [i, j])) ∧
      (∀ c ∈ new, ∃ i j, j < i ∧ i < (parseAtomList inp .GROUP).length ∧ c.all = [i, j] ∧
        (s.all_atoms.all = [] →
          c.all.map (fun k => s'.all_atoms.all[k]?) =
            [(parseAtomList inp .GROUP)[i]?, (parseAtomList inp .GROUP)[j]?])) ∧
      (new.map (fun c => c.all)).Nodup ∧
      (∀ i j, j < i → i < (parseAtomList inp .GROUP).length →
        [i, j] ∈ new.map (fun c => c.all) ∧ [j, i] ∉ new.map (fun c => c.all)) ∧
      ((parseAtomList inp .GROUP).length = 3 →
        new.map (fun c => c.all) = [[1, 0], [2, 0], [2, 1]]) := by
  refine ⟨_, _, readGroupsKeyword_group inp s hread hA hB hne, ?_, rfl, map_all_pairs _,
    ?_, ?_, ?_, ?_⟩
  · simp [addAllToList_all]
  · intro c hc
    have hc' : c.all ∈ (List.range' 1 ((parseAtomList inp .GROUP).length - 1)).flatMap
        (fun i => (List.range i).map (fun j => [i, j])) := by
      rw [← map_all_pairs]
      exact List.mem_map_of_mem _ hc
    obtain ⟨i, j, hj, hi, hij⟩ := (mem_pairs _ _).1 hc'
    refine ⟨i, j, hj, hi, hij, ?_⟩
    intro hreg
    simp [hij, addAllToList_all, hreg]
  · rw [map_all_pairs]
    exact nodup_pairs _
  · intro i j hj hi
    rw [map_all_pairs]
    constructor
    · exact (mem_pairs _ _).2 ⟨i, j, hj, hi, rfl⟩
    · intro h
      obtain ⟨a, b, hb, _, hab⟩ := (mem_pairs _ _).1 h
      simp at hab
      omega
  · intro h3
    rw [map_all_pairs, h3]
    decide

/-- Witness of C2: the group `10, 20, 30` on a fresh object. -/
theorem readGroupsKeyword_group_order_witness :
    (MultiColvar.init false).readatoms = false ∧
    parseAtomList (mkInput [] [10, 20, 30] [] [] [] [] []) .GROUP ≠ [] ∧
    ∃ s' new, readGroupsKeyword (mkInput [] [10, 20, 30] [] [] [] [] []) 2
        (MultiColvar.init false) = .ok (2, s') ∧
      s'.all_atoms.all = [10, 20, 30] ∧
      s'.colvar_atoms = new ∧
      new.map (fun c => c.all) = [[1, 0], [2, 0], [2, 1]] := by
  refine ⟨rfl, by decide, ?_⟩
  obtain ⟨s', new, h1, h2, h3, _, _, _, _, h7⟩ :=
    readGroupsKeyword_group_order (mkInput [] [10, 20, 30] [] [] [] [] [])
      (MultiColvar.init false) rfl rfl rfl (by decide)
  exact ⟨s', new, h1, h2, by simpa [MultiColvar.init] using h3, h7 rfl⟩

/-- C3: two-group pair mode.  When `GROUP` yields no atoms and `GROUPA = A`,
`GROUPB = B` are both non-empty (`natoms == 2`), `readGroupsKeyword` appends
`A` followed by `B` to the registry and appends exactly `|A|*|B|` instances in
row-major order: the instance at position `i*|B| + j` holds the registry
positions `[i, |A| + j]`, which on a registry that was empty resolve to
`(A[i], B[j])`.  For `A = {a0,a1}`, `B = {b0,b1,b2}` the six instances resolve
to `(a0,b0),(a0,b1),(a0,b2),(a1,b0),(a1,b1),(a1,b2)`. -/
theorem readGroupsKeyword_two_groups (inp : Input) (s : MultiColvar)
    (hread : s.readatoms = false)
    (hA : inp.keywords_exists .GROUPA = true) (hB : inp.keywords_exists .GROUPB = true)
    (hG : parseAtomList inp .GROUP = [])
    (hne1 : parseAtomList inp .GROUPA ≠ []) (hne2 : parseAtomList inp .GROUPB ≠ []) :
    ∃ s' new, readGroupsKeyword inp 2 s = .ok (2, s') ∧
      s'.all_atoms.all =
        s.all_atoms.all ++ (parseAtomList inp .GROUPA ++ parseAtomList inp .GROUPB) ∧
      s'.colvar_atoms = s.colvar_atoms ++ new ∧
      new.length = (parseAtomList inp .GROUPA).length * (parseAtomList inp .GROUPB).length ∧
      (∀ i j, i < (parseAtomList inp .GROUPA).length →
        j < (parseAtomList inp .GROUPB).length →
        (new.map (fun c => c.all))[i * (parseAtomList inp .GROUPB).length + j]? =
          some [i, (parseAtomList inp .GROUPA).length + j] ∧
        (s.all_atoms.all = [] →
          [i, (parseAtomList inp .GROUPA).length + j].map (fun k => s'.all_atoms.all[k]?) =
            [(parseAtomList inp .GROUPA)[i]?, (parseAtomList inp .GROUPB)[j]?])) ∧
      (∀ a0 a1 b0 b1 b2, parseAtomList inp .GROUPA = [a0, a1] →
        parseAtomList inp .GROUPB = [b0, b1, b2] → s.all_atoms.all = [] →
        new.map (fun c => c.all.map (fun k => s'.all_atoms.all[k]?)) =
          [[some a0, some b0], [some a0, some b1], [some a0, some b2],
           [some a1, some b0], [some a1, some b1], [some a1, some b2]]) := by
  refine ⟨_, _, readGroupsKeyword_groupAB inp s hread hA hB hG hne1 hne2, ?_, rfl, ?_, ?_, ?_⟩
  · simp [addAllToList_all]
  · exact length_flatMap_range_map _ _ _
  · intro i j hi hj
    constructor
    · rw [List.map_flatMap]
      simp only [List.map_map, Function.comp_def, DynamicList.ofList]
      exact getElem?_flatMap_range_map
        (fun i j => [i, (parseAtomList inp .GROUPA).length + j]) _ _ i j hi hj
    · intro hreg
      simp only [addAllToList_all, hreg, List.nil_append, List.map_cons, List.map_nil]
      rw [List.getElem?_append_left hi, List.getElem?_append_right (by omega)]
      simp
  · intro a0 a1 b0 b1 b2 h1 h2 hreg
    simp [addAllToList_all, hreg, h1, h2, DynamicList.ofList, List.range_succ,
      List.flatMap_cons]

/-- Witness of C3: `GROUPA = 10, 20` and `GROUPB = 1, 2, 3` on a fresh
object. -/
theorem readGroupsKeyword_two_groups_witness :
    (MultiColvar.init false).readatoms = false ∧
    parseAtomList (mkInput [] [] [10, 20] [1, 2, 3] [] [] []) .GROUP = [] ∧
    ∃ s' new, readGroupsKeyword (mkInput [] [] [10, 20] [1, 2, 3] [] [] []) 2
        (MultiColvar.init false) = .ok (2, s') ∧
      s'.all_atoms.all = [10, 20, 1, 2, 3] ∧
      s'.colvar_atoms = new ∧
      new.length = 6 ∧
      new.map (fun c => c.all.map (fun k => s'.all_atoms.all[k]?)) =
          [[some 10, some 1], [some 10, some 2], [some 10, some 3],
           [some 20, some 1], [some 20, some 2], [some 20, some 3]] := by
  refine ⟨rfl, rfl, ?_⟩
  obtain ⟨s', new, h1, h2, h3, h4, _, h6⟩ :=
    readGroupsKeyword_two_groups (mkInput [] [] [10, 20] [1, 2, 3] [] [] [])
      (MultiColvar.init false) rfl rfl rfl rfl (by decide) (by decide)
  exact ⟨s', new, h1, h2, by simpa [MultiColvar.init] using h3, h4,
    h6 10 20 1 2 3 rfl rfl rfl⟩

/-- C4 (as amended): single-species mode.  For a non-empty `SPECIES` list of
`n` atoms, `readSpeciesKeyword` sets `natoms` to `n`, appends the list to the
registry and appends exactly `n` instances.  When `SPECIESA` and `SPECIESB`
are both registered, instance `i` holds the position `i` of the central atom
followed by every other position `j != i` in ascending order, `n` positions in
all; when they are not both registered, instance `i` holds position `i`
alone. -/
theorem readSpeciesKeyword_single_species (inp : Input) (natoms : Int) (s : MultiColvar)
    (hread : s.readatoms = false) (hne : parseAtomList inp .SPECIES ≠ []) :
    ∃ s' new, readSpeciesKeyword inp natoms s =
        .ok (((parseAtomList inp .SPECIES).length : Int), s') ∧
      s'.all_atoms.all = s.all_atoms.all ++ parseAtomList inp .SPECIES ∧
      s'.colvar_atoms = s.colvar_atoms ++ new ∧
      new.length = (parseAtomList inp .SPECIES).length ∧
      (inp.keywords_exists .SPECIESA = true ∧ inp.keywords_exists .SPECIESB = true →
        ∀ i, i < (parseAtomList inp .SPECIES).length →
          (new.map (fun c => c.all))[i]? =
            some (i :: (List.range (parseAtomList inp .SPECIES).length).filter
              (fun j => decide (i ≠ j))) ∧
          ((List.range (parseAtomList inp .SPECIES).length).filter
              (fun j => decide (i ≠ j))).length = (parseAtomList inp .SPECIES).length - 1) ∧
      (¬ (inp.keywords_exists .SPECIESA = true ∧ inp.keywords_exists .SPECIESB = true) →
        ∀ i, i < (parseAtomList inp .SPECIES).length →
          (new.map (fun c => c.all))[i]? = some [i]) := by
  refine ⟨_, _, readSpeciesKeyword_species inp natoms s hread hne, ?_, rfl, ?_, ?_, ?_⟩
  · simp [addAllToList_all]
  · simp
  · rintro ⟨hA, hB⟩ i hi
    constructor
    · simp [hA, hB, hi, DynamicList.ofList]
    · rw [length_filter_ne_range, if_pos hi]
  · intro hAB i hi
    have h : (inp.keywords_exists .SPECIESA && inp.keywords_exists .SPECIESB) = false := by
      cases hA : inp.keywords_exists .SPECIESA <;> cases hB : inp.keywords_exists .SPECIESB <;>
        simp_all
    simp [h, hi, DynamicList.ofList]

/-- Witness of C4 (as amended): `SPECIES = 4, 5, 6` on a fresh object of a
colvar that registers every keyword. -/
theorem readSpeciesKeyword_single_species_witness :
    (MultiColvar.init false).readatoms = false ∧
    parseAtomList (mkInput [] [] [] [] [4, 5, 6] [] []) .SPECIES ≠ [] ∧
    ∃ s' new, readSpeciesKeyword (mkInput [] [] [] [] [4, 5, 6] [] []) 2
        (MultiColvar.init false) = .ok (3, s') ∧
      s'.all_atoms.all = [4, 5, 6] ∧
      s'.colvar_atoms = new ∧
      (new.map (fun c => c.all))[1]? = some [1, 0, 2] := by
  refine ⟨rfl, by decide, ?_⟩
  obtain ⟨s', new, h1, h2, h3, _, h5, _⟩ :=
    readSpeciesKeyword_single_species (mkInput [] [] [] [] [4, 5, 6] [] []) 2
      (MultiColvar.init false) rfl (by decide)
  exact ⟨s', new, h1, h2, by simpa [MultiColvar.init] using h3,
    (h5 ⟨rfl, rfl⟩ 1 (by decide)).1⟩

/-- Counterexample to C4 as stated: for a colvar that registers `SPECIES`
without `SPECIESA` and `SPECIESB`, the list `SPECIES = 7, 8` gives the two
instances `[0]` and `[1]`, not `[0, 1]` and `[1, 0]`: no instance holds a
neighbour atom. -/
theorem readSpeciesKeyword_single_species_counterexample :
    colvarsOf (readSpeciesKeyword (speciesOnlyInput [7, 8]) (-1) (MultiColvar.init false)) =
        some [[0], [1]] ∧
    colvarsOf (readSpeciesKeyword (speciesOnlyInput [7, 8]) (-1) (MultiColvar.init false)) ≠
        some [[0, 1], [1, 0]] := by
  decide

/-- C5: two-species mode.  When `SPECIES` yields no atoms, `SPECIESA` and
`SPECIESB` are registered and `SPECIESA = A`, `SPECIESB = B` are both
non-empty, `readSpeciesKeyword` appends `A` followed by `B` to the registry,
appends exactly `|A|` instances, instance `i` holding the registry positions
`[i, |A|, |A|+1, ..., |A|+|B|-1]` (on a registry that was empty: the central
atom `A[i]` followed by all atoms of `B` in order), and sets `natoms` to
`1 + |B|`, the length of every new instance. -/
theorem readSpeciesKeyword_two_species (inp : Input) (natoms : Int) (s : MultiColvar)
    (hread : s.readatoms = false)
    (hA : inp.keywords_exists .SPECIESA = true) (hB : inp.keywords_exists .SPECIESB = true)
    (hS : parseAtomList inp .SPECIES = [])
    (hne1 : parseAtomList inp .SPECIESA ≠ []) (hne2 : parseAtomList inp .SPECIESB ≠ []) :
    ∃ s' new, readSpeciesKeyword inp natoms s =
        .ok (1 + ((parseAtomList inp .SPECIESB).length : Int), s') ∧
      s'.all_atoms.all =
        s.all_atoms.all ++ (parseAtomList inp .SPECIESA ++ parseAtomList inp .SPECIESB) ∧
      s'.colvar_atoms = s.colvar_atoms ++ new ∧
      new.length = (parseAtomList inp .SPECIESA).length ∧
      (∀ i, i < (parseAtomList inp .SPECIESA).length →
        (new.map (fun c => c.all))[i]? =
          some (i :: (List.range (parseAtomList inp .SPECIESB).length).map
            (fun j => (parseAtomList inp .SPECIESA).length + j)) ∧
        (s.all_atoms.all = [] →
          (i :: (List.range (parseAtomList inp .SPECIESB).length).map
              (fun j => (parseAtomList inp .SPECIESA).length + j)).map
            (fun k => s'.all_atoms.all[k]?) =
          (parseAtomList inp .SPECIESA)[i]? :: (parseAtomList inp .SPECIESB).map some)) ∧
      (∀ c ∈ new, ((c.all.length : Nat) : Int) =
        1 + ((parseAtomList inp .SPECIESB).length : Int)) := by
  refine ⟨_, _, readSpeciesKeyword_speciesAB inp natoms s hread hA hB hS hne1 hne2, ?_, rfl,
    ?_, ?_, ?_⟩
  · simp [addAllToList_all]
  · simp
  · intro i hi
    constructor
    · simp [hi, DynamicList.ofList]
    · intro hreg
      simp only [addAllToList_all, hreg, List.nil_append, List.map_cons, List.map_map,
        Function.comp_def]
      rw [List.getElem?_append_left hi]
      congr 1
      apply List.ext_getElem
      · simp
      · intro k h1 h2
        simp at h1
        simp [List.getElem?_append_right, List.getElem?_eq_getElem h1]
  · intro c hc
    simp only [List.mem_map, List.mem_range] at hc
    obtain ⟨i, _, rfl⟩ := hc
    simp [DynamicList.ofList]
    omega

/-- Witness of C5: `SPECIESA = 7, 8` and `SPECIESB = 1, 2, 3` on a fresh
object. -/
theorem readSpeciesKeyword_two_species_witness :
    (MultiColvar.init false).readatoms = false ∧
    parseAtomList (mkInput [] [] [] [] [] [7, 8] [1, 2, 3]) .SPECIES = [] ∧
    ∃ s' new, readSpeciesKeyword (mkInput [] [] [] [] [] [7, 8] [1, 2, 3]) (-1)
        (MultiColvar.init false) = .ok (4, s') ∧
      s'.all_atoms.all = [7, 8, 1, 2, 3] ∧
      s'.colvar_atoms = new ∧
      new.length = 2 ∧
      (new.map (fun c => c.all))[1]? = some [1, 2, 3, 4] := by
  refine ⟨rfl, rfl, ?_⟩
  obtain ⟨s', new, h1, h2, h3, h4, h5, _⟩ :=
    readSpeciesKeyword_two_species (mkInput [] [] [] [] [] [7, 8] [1, 2, 3]) (-1)
      (MultiColvar.init false) rfl rfl rfl rfl (by decide) (by decide)
  exact ⟨s', new, h1, h2, by simpa [MultiColvar.init] using h3, h4,
    (h5 1 (by decide)).1⟩

/-- C6: explicit-tuple mode, length check.  For non-empty tuples `ATOMS1 = t0`,
`ATOMS2`, ... (`rest`) read by `readAtomsKeyword` with `natoms < 0` on entry:
if every tuple has the length of `t0` the call succeeds with `natoms` equal to
that length; it succeeds only in that case; if tuple `k + 2` is the first one
whose length differs, the call fails with the error `ATOMS<k+2> keyword has the
wrong number of atoms`, and such a tuple exists whenever the lengths are not
all equal; for `ATOMS1=(5,9)`, `ATOMS2=(5,9,11)` the error cites 2. -/
theorem readAtomsKeyword_length_check (inp : Input) (natoms : Int) (s : MultiColvar)
    (hread : s.readatoms = false) (hneg : natoms < 0)
    (t0 : List AtomNumber) (rest : List (List AtomNumber))
    (hnum : inp.numbered = t0 :: rest) (hne : ∀ t ∈ t0 :: rest, t ≠ []) :
    ((∀ t ∈ rest, t.length = t0.length) →
      ∃ s', readAtomsKeyword inp natoms s = .ok ((t0.length : Int), s')) ∧
    ((∃ r, readAtomsKeyword inp natoms s = .ok r) ↔ ∀ t ∈ rest, t.length = t0.length) ∧
    (∀ k, k < rest.length → (∀ m, m < k → (rest.getD m []).length = t0.length) →
      (rest.getD k []).length ≠ t0.length →
      readAtomsKeyword inp natoms s =
        .error ("ATOMS" ++ toString (k + 2) ++ " keyword has the wrong number of atoms")) ∧
    (¬ (∀ t ∈ rest, t.length = t0.length) →
      ∃ k, k < rest.length ∧ (∀ m, m < k → (rest.getD m []).length = t0.length) ∧
        (rest.getD k []).length ≠ t0.length ∧
        readAtomsKeyword inp natoms s =
          .error ("ATOMS" ++ toString (k + 2) ++ " keyword has the wrong number of atoms")) ∧
    (t0 = [5, 9] → rest = [[5, 9, 11]] →
      readAtomsKeyword inp natoms s =
        .error "ATOMS2 keyword has the wrong number of atoms") := by
  have hne0 : t0 ≠ [] := hne t0 (by simp)
  have hloop := readAtomsKeyword_eq_loop inp natoms s hread t0 rest hnum hne0 (Or.inl hneg)
  have hall : (∀ t ∈ rest, t.length = t0.length) → ∀ t ∈ t0 :: rest, t.length = t0.length := by
    intro h t ht
    rcases List.mem_cons.1 ht with rfl | ht
    · rfl
    · exact h t ht
  have hfirst : ∀ k, k < rest.length → (∀ m, m < k → (rest.getD m []).length = t0.length) →
      (rest.getD k []).length ≠ t0.length →
      readAtomsKeyword inp natoms s =
        .error ("ATOMS" ++ toString (k + 2) ++ " keyword has the wrong number of atoms") := by
    intro k hk hpre hbad
    rw [hloop]
    have e : k + 2 = 1 + (k + 1) := by omega
    rw [e]
    apply readAtomsKeywordLoop_error t0.length (t0 :: rest) hne (k + 1) (by simpa using hk)
    · intro m hm
      cases m with
      | zero => simp
      | succ m => simpa using hpre m (by omega)
    · simpa using hbad
  refine ⟨?_, ?_, hfirst, ?_, ?_⟩
  · intro h
    obtain ⟨s', h1, _⟩ := readAtomsKeywordLoop_ok t0.length (t0 :: rest) hne (hall h) 1
      (Nat.le_refl 1) s
    exact ⟨s', by rw [hloop]; exact h1⟩
  · constructor
    · rintro ⟨r, hr⟩ t ht
      rw [hloop] at hr
      exact readAtomsKeywordLoop_ok_only t0.length (t0 :: rest) hne 1 s r hr t (by simp [ht])
    · intro h
      obtain ⟨s', h1, _⟩ := readAtomsKeywordLoop_ok t0.length (t0 :: rest) hne (hall h) 1
        (Nat.le_refl 1) s
      exact ⟨_, by rw [hloop]; exact h1⟩
  · intro hnot
    have hex : ∃ k, k < rest.length ∧ (rest.getD k []).length ≠ t0.length := by
      by_contra hcon
      apply hnot
      intro t ht
      obtain ⟨k, hk, rfl⟩ := List.getElem_of_mem ht
      by_contra hbad
      exact hcon ⟨k, hk, by simpa [List.getD_eq_getElem?_getD, List.getElem?_eq_getElem hk]
        using hbad⟩
    refine ⟨Nat.find hex, (Nat.find_spec hex).1, ?_, (Nat.find_spec hex).2, ?_⟩
    · intro m hm
      by_contra hbad
      exact Nat.find_min hex hm ⟨by have := (Nat.find_spec hex).1; omega, hbad⟩
    · apply hfirst _ (Nat.find_spec hex).1 _ (Nat.find_spec hex).2
      intro m hm
      by_contra hbad
      exact Nat.find_min hex hm ⟨by have := (Nat.find_spec hex).1; omega, hbad⟩
  · intro h0 hr
    have h := hfirst 0 (by simp [hr]) (by intro m hm; omega) (by simp [hr, h0])
    rw [h]
    rfl

/-- Witness of C6: `ATOMS1=(5,9)`, `ATOMS2=(5,9,11)` on a fresh object with
`natoms = -1`. -/
theorem readAtomsKeyword_length_check_witness :
    (MultiColvar.init false).readatoms = false ∧ ((-1 : Int) < 0) ∧
    (mkInput [[5, 9], [5, 9, 11]] [] [] [] [] [] []).numbered = [5, 9] :: [[5, 9, 11]] ∧
    (∀ t ∈ [5, 9] :: [[5, 9, 11]], t ≠ ([] : List AtomNumber)) ∧
    readAtomsKeyword (mkInput [[5, 9], [5, 9, 11]] [] [] [] [] [] []) (-1)
        (MultiColvar.init false) =
      .error "ATOMS2 keyword has the wrong number of atoms" :=
  ⟨rfl, by decide, rfl, by decide,
   (readAtomsKeyword_length_check (mkInput [[5, 9], [5, 9, 11]] [] [] [] [] [] []) (-1)
      (MultiColvar.init false) rfl (by decide) [5, 9] [[5, 9, 11]] rfl
      (by decide)).2.2.2.2 rfl rfl⟩

/-- C7: explicit-tuple mode, representation.  For `m >= 1` non-empty tuples
`t0, rest`, all of length `natoms` (given on entry, or negative on entry and
then fixed by the first tuple), `readAtomsKeyword` succeeds, appends to the
registry the concatenation of the tuples and appends exactly `m` instances in
tuple order; instance `i` (1-based) holds the registry positions
`natoms*(i-1)+j` for `j = 0..natoms-1`, and on a registry that was empty the
lookup of `natoms*(i-1)+j` returns the `j`-th atom of tuple `i`. -/
theorem readAtomsKeyword_representation (inp : Input) (natoms : Int) (s : MultiColvar)
    (hread : s.readatoms = false)
    (t0 : List AtomNumber) (rest : List (List AtomNumber))
    (hnum : inp.numbered = t0 :: rest) (hne0 : t0 ≠ [])
    (hlen : ∀ t ∈ rest, t.length = t0.length)
    (hnat : natoms < 0 ∨ natoms = (t0.length : Int)) :
    ∃ s' new, readAtomsKeyword inp natoms s = .ok ((t0.length : Int), s') ∧
      s'.all_atoms.all = s.all_atoms.all ++ (t0 :: rest).flatten ∧
      s'.colvar_atoms = s.colvar_atoms ++ new ∧
      new.length = rest.length + 1 ∧
      (∀ i, 1 ≤ i → i ≤ rest.length + 1 →
        (new.map (fun c => c.all))[i - 1]? =
          some ((List.range t0.length).map (fun j => t0.length * (i - 1) + j)) ∧
        (s.all_atoms.all = [] → ∀ j, j < t0.length →
          s'.all_atoms.all[t0.length * (i - 1) + j]? = ((t0 :: rest).getD (i - 1) [])[j]?)) := by
  have hloop := readAtomsKeyword_eq_loop inp natoms s hread t0 rest hnum hne0 hnat
  have hall : ∀ t ∈ t0 :: rest, t.length = t0.length := by
    intro t ht
    rcases List.mem_cons.1 ht with rfl | ht
    · rfl
    · exact hlen t ht
  have hne : ∀ t ∈ t0 :: rest, t ≠ [] := by
    intro t ht h
    have h1 := hall t ht
    rw [h] at h1
    exact hne0 (List.length_eq_zero.1 h1.symm)
  obtain ⟨s', h1, h2, h3, _⟩ := readAtomsKeywordLoop_ok t0.length (t0 :: rest) hne hall 1
    (Nat.le_refl 1) s
  refine ⟨s', _, by rw [hloop]; exact h1, h2, h3, by simp, ?_⟩
  intro i hi1 hi2
  constructor
  · have hi : i - 1 < rest.length + 1 := by omega
    simp [hi, DynamicList.ofList]
  · intro hreg j hj
    rw [h2, hreg, List.nil_append]
    exact getElem?_flatten_uniform t0.length (t0 :: rest) hall (i - 1) j
      (by simp; omega) hj

/-- Witness of C7: `ATOMS1=(5,9)`, `ATOMS2=(6,19)` on a fresh object with
`natoms = -1`. -/
theorem readAtomsKeyword_representation_witness :
    (MultiColvar.init false).readatoms = false ∧
    (mkInput [[5, 9], [6, 19]] [] [] [] [] [] []).numbered = [5, 9] :: [[6, 19]] ∧
    ∃ s' new, readAtomsKeyword (mkInput [[5, 9], [6, 19]] [] [] [] [] [] []) (-1)
        (MultiColvar.init false) = .ok (2, s') ∧
      s'.all_atoms.all = [5, 9, 6, 19] ∧
      s'.colvar_atoms = new ∧
      new.length = 2 ∧
      (new.map (fun c => c.all))[1]? = some [2, 3] := by
  refine ⟨rfl, rfl, ?_⟩
  obtain ⟨s', new, h1, h2, h3, h4, h5⟩ :=
    readAtomsKeyword_representation (mkInput [[5, 9], [6, 19]] [] [] [] [] [] []) (-1)
      (MultiColvar.init false) rfl [5, 9] [[6, 19]] rfl (by decide) (by decide)
      (Or.inl (by decide))
  exact ⟨s', new, h1, h2, by simpa [MultiColvar.init] using h3, h4,
    (h5 2 (by decide) (by decide)).1⟩

/-- C8 (as amended): `readAtoms` fails with `No atoms have been read in`
whenever its three readers finish without error and leave `readatoms` false,
that is when no reader read any atom.  Whenever `readAtoms` on a new object
returns successfully, `readatoms` is true, the registry holds at least one
atom, and at least one instance exists unless the `GROUP` keyword listed
exactly one atom. -/
theorem readAtoms_no_atoms (inp : Input) (natoms : Int) :
    (∀ s r1 r2 r3,
      (if inp.keywords_exists .ATOMS then readAtomsKeyword inp natoms s
        else .ok (natoms, s)) = .ok r1 →
      (if inp.keywords_exists .GROUP then readGroupsKeyword inp r1.1 r1.2
        else .ok r1) = .ok r2 →
      (if inp.keywords_exists .SPECIES then readSpeciesKeyword inp r2.1 r2.2
        else .ok r2) = .ok r3 →
      r3.2.readatoms = false →
      readAtoms inp natoms s = .error "No atoms have been read in") ∧
    (∀ v r, readAtoms inp natoms (MultiColvar.init v) = .ok r →
      r.2.readatoms = true ∧ r.2.all_atoms.all ≠ [] ∧
      (r.2.colvar_atoms ≠ [] ∨
        (inp.keywords_exists .GROUP = true ∧ (parseAtomList inp .GROUP).length = 1))) := by
  constructor
  · intro s r1 r2 r3 h1 h2 h3 hr
    rw [readAtoms_eq inp natoms s r1 r2 r3 h1 h2 h3]
    simp [hr]
  · intro v r h
    obtain ⟨r1, r2, r3, h1, h2, h3, hr, rfl⟩ := readAtoms_ok_inv inp natoms _ r h
    have p1 : r1.2 = MultiColvar.init v ∨
        (r1.2.readatoms = true ∧ r1.2.all_atoms.all ≠ [] ∧ r1.2.colvar_atoms ≠ []) := by
      split_ifs at h1 with hk
      · exact readAtomsKeyword_progress inp natoms _ r1 h1
      · simp only [Except.ok.injEq] at h1
        exact Or.inl (by rw [← h1])
    have p2 : r2.2 = r1.2 ∨ (r2.2.readatoms = true ∧ r2.2.all_atoms.all ≠ [] ∧
        (r2.2.colvar_atoms ≠ [] ∨
          (inp.keywords_exists .GROUP = true ∧ (parseAtomList inp .GROUP).length = 1))) := by
      split_ifs at h2 with hk
      · rcases readGroupsKeyword_progress inp r1.1 r1.2 r2 h2 with h | ⟨ha, hb, hc⟩
        · exact Or.inl h
        · exact Or.inr ⟨ha, hb, hc.imp id (fun h => ⟨hk, h⟩)⟩
      · simp only [Except.ok.injEq] at h2
        exact Or.inl (by rw [← h2])
    have p3 : r3.2 = r2.2 ∨
        (r3.2.readatoms = true ∧ r3.2.all_atoms.all ≠ [] ∧ r3.2.colvar_atoms ≠ []) := by
      split_ifs at h3 with hk
      · exact readSpeciesKeyword_progress inp r2.1 r2.2 r3 h3
      · simp only [Except.ok.injEq] at h3
        exact Or.inl (by rw [← h3])
    have key : r3.2.all_atoms.all ≠ [] ∧ (r3.2.colvar_atoms ≠ [] ∨
        (inp.keywords_exists .GROUP = true ∧ (parseAtomList inp .GROUP).length = 1)) := by
      rcases p3 with e3 | ⟨_, hb, hc⟩
      · rcases p2 with e2 | ⟨_, hb, hc⟩
        · rcases p1 with e1 | ⟨_, hb, hc⟩
          · rw [e3, e2, e1] at hr
            simp [MultiColvar.init] at hr
          · rw [e3, e2]
            exact ⟨hb, Or.inl hc⟩
        · rw [e3]
          exact ⟨hb, hc⟩
      · exact ⟨hb, Or.inl hc⟩
    refine ⟨hr, ?_, ?_⟩
    · exact key.1
    · rcases key.2 with h | h
      · left
        simpa using h
      · exact Or.inr h

/-- Witness of C8 (as amended): with `GROUPB = 7` alone no reader reads an
atom and `readAtoms` fails; `SPECIES = 4, 5` on a new object gives two
instances. -/
theorem readAtoms_no_atoms_witness :
    readAtoms (mkInput [] [] [] [7] [] [] []) 2 (MultiColvar.init false) =
      .error "No atoms have been read in" ∧
    ∃ r, readAtoms (mkInput [] [] [] [] [4, 5] [] []) 2 (MultiColvar.init false) = .ok r ∧
      r.2.readatoms = true ∧ r.2.all_atoms.all ≠ [] ∧
      (r.2.colvar_atoms ≠ [] ∨
        ((mkInput [] [] [] [] [4, 5] [] []).keywords_exists .GROUP = true ∧
          (parseAtomList (mkInput [] [] [] [] [4, 5] [] []) .GROUP).length = 1)) :=
  ⟨(readAtoms_no_atoms (mkInput [] [] [] [7] [] [] []) 2).1 (MultiColvar.init false)
      (2, MultiColvar.init false) (2, MultiColvar.init false) (2, MultiColvar.init false)
      rfl rfl rfl rfl,
   (2, { readatoms := true, verbose_output := false,
         colvar_atoms := [{ all := [0, 1], onoff := [true, true], active := [0, 1] },
                          { all := [1, 0], onoff := [true, true], active := [1, 0] }],
         all_atoms := { all := [4, 5], onoff := [true, true], active := [4, 5] },
         requested := [4, 5] }),
   rfl,
   (readAtoms_no_atoms (mkInput [] [] [] [] [4, 5] [] []) 2).2 false
     (2, { readatoms := true, verbose_output := false,
           colvar_atoms := [{ all := [0, 1], onoff := [true, true], active := [0, 1] },
                            { all := [1, 0], onoff := [true, true], active := [1, 0] }],
           all_atoms := { all := [4, 5], onoff := [true, true], active := [4, 5] },
           requested := [4, 5] }) rfl⟩

/-- Counterexample to C8 as stated: with `natoms = 2` and `GROUP = 4` alone,
`readAtoms` on a new object returns successfully although no instance
exists. -/
theorem readAtoms_no_atoms_counterexample :
    readAtoms (mkInput [] [4] [] [] [] [] []) 2 (MultiColvar.init false) =
      .ok (2, { readatoms := true, verbose_output := false, colvar_atoms := [],
                all_atoms := { all := [4], onoff := [true], active := [4] },
                requested := [4] }) :=
  rfl

/-- C9 (as amended): two-group mode, missing group.  With `natoms == 2`,
`GROUPA` and `GROUPB` registered, no atoms read before and `GROUP` yielding no
atoms: when `GROUPA` is non-empty and `GROUPB` is empty, `readGroupsKeyword`,
and `readAtoms` when `ATOMS` gives no tuple, fail with the error `GROUPB
keyword defines no atoms or is missing. Use either GROUPA and GROUPB or just
GROUP`; when `GROUPA` is empty, `readGroupsKeyword` raises no error and changes
nothing, whatever `GROUPB` holds, and `readAtoms`, when `ATOMS` gives no tuple,
is then the `SPECIES` step followed by the check of `readatoms`: it fails with
`No atoms have been read in` exactly when the species reader reads no atoms
(`SPECIES` not registered, or `SPECIES` empty with `SPECIESA` empty or not
registered together with `SPECIESB`), in particular when `SPECIES` is not
registered. -/
theorem readGroupsKeyword_missing_group (inp : Input) (s : MultiColvar)
    (hread : s.readatoms = false)
    (hA : inp.keywords_exists .GROUPA = true) (hB : inp.keywords_exists .GROUPB = true)
    (hG : parseAtomList inp .GROUP = []) :
    (parseAtomList inp .GROUPA ≠ [] → parseAtomList inp .GROUPB = [] →
      readGroupsKeyword inp 2 s = .error
        "GROUPB keyword defines no atoms or is missing. Use either GROUPA and GROUPB or just GROUP" ∧
      (inp.keywords_exists .GROUP = true →
        (inp.keywords_exists .ATOMS = false ∨ inp.numbered = []) →
        readAtoms inp 2 s = .error
          "GROUPB keyword defines no atoms or is missing. Use either GROUPA and GROUPB or just GROUP")) ∧
    (parseAtomList inp .GROUPA = [] →
      readGroupsKeyword inp 2 s = .ok (2, s) ∧
      ((inp.keywords_exists .ATOMS = false ∨ inp.numbered = []) →
        (inp.keywords_exists .SPECIES = false →
          readAtoms inp 2 s = .error "No atoms have been read in") ∧
        readAtoms inp 2 s =
          ((if inp.keywords_exists .SPECIES then readSpeciesKeyword inp 2 s
            else .ok (2, s)).bind fun r3 =>
            if r3.2.readatoms then
              .ok (r3.1, { r3.2 with
                colvar_atoms := r3.2.colvar_atoms.map
                  (fun l => l.activateAll.updateActiveMembers)
                all_atoms := r3.2.all_atoms.activateAll.updateActiveMembers
                requested :=
                  r3.2.all_atoms.activateAll.updateActiveMembers.retrieveActiveList })
            else .error "No atoms have been read in") ∧
        (readAtoms inp 2 s = .error "No atoms have been read in" ↔
          (inp.keywords_exists .SPECIES = false ∨
            (parseAtomList inp .SPECIES = [] ∧
              ((inp.keywords_exists .SPECIESA && inp.keywords_exists .SPECIESB) = false ∨
                parseAtomList inp .SPECIESA = [])))))) := by
  constructor
  · intro h1 h2
    have hg := readGroupsKeyword_noB inp s hread hA hB hG h1 h2
    refine ⟨hg, ?_⟩
    intro hk hat
    unfold readAtoms
    rw [readAtoms_step_atoms_none inp 2 s hat]
    simp [Except.bind, hk, hg]
  · intro h1
    have hg := readGroupsKeyword_noA inp s hread hA hB hG h1
    refine ⟨hg, ?_⟩
    intro hat
    have e1 := readAtoms_step_atoms_none inp 2 s hat
    have e2 : (if inp.keywords_exists .GROUP then readGroupsKeyword inp 2 s
        else .ok (2, s)) = .ok (2, s) := by
      simp only [hg, ite_self]
    have hiff := readAtoms_species_only_fails_iff inp 2 s hread e1 e2
    exact ⟨fun hsp => hiff.2 (Or.inl hsp), readAtoms_species_only inp 2 s e1 e2, hiff⟩

/-- Witness of C9 (as amended): `GROUPA = 8` with no `GROUPB` fails naming
`GROUPB`; `GROUPB = 1, 2` with no `GROUPA` and no species fails at the check
of `readatoms`. -/
theorem readGroupsKeyword_missing_group_witness :
    (MultiColvar.init false).readatoms = false ∧
    parseAtomList (mkInput [] [] [8] [] [] [] []) .GROUP = [] ∧
    readGroupsKeyword (mkInput [] [] [8] [] [] [] []) 2 (MultiColvar.init false) = .error
      "GROUPB keyword defines no atoms or is missing. Use either GROUPA and GROUPB or just GROUP" ∧
    parseAtomList (mkInput [] [] [] [1, 2] [] [] []) .GROUPA = [] ∧
    readAtoms (mkInput [] [] [] [1, 2] [] [] []) 2 (MultiColvar.init false) =
      .error "No atoms have been read in" :=
  ⟨rfl, rfl,
   ((readGroupsKeyword_missing_group (mkInput [] [] [8] [] [] [] []) (MultiColvar.init false)
      rfl rfl rfl rfl).1 (by decide) rfl).1,
   rfl,
   ((((readGroupsKeyword_missing_group (mkInput [] [] [] [1, 2] [] [] [])
      (MultiColvar.init false) rfl rfl rfl rfl).2 rfl).2 (Or.inr rfl)).2.2).2
        (Or.inr ⟨rfl, Or.inr rfl⟩)⟩

/-- Counterexample to C9 as stated: with `GROUP` and `GROUPA` empty and
`GROUPB = 1, 2`, `readGroupsKeyword` raises no error; `readAtoms` then fails
with a message that names no group keyword, and succeeds when `SPECIES = 4, 5`
is given as well. -/
theorem readGroupsKeyword_missing_group_counterexample :
    readGroupsKeyword (mkInput [] [] [] [1, 2] [] [] []) 2 (MultiColvar.init false) =
      .ok (2, MultiColvar.init false) ∧
    readAtoms (mkInput [] [] [] [1, 2] [] [] []) 2 (MultiColvar.init false) =
      .error "No atoms have been read in" ∧
    readAtoms (mkInput [] [] [] [1, 2] [4, 5] [] []) 2 (MultiColvar.init false) =
      .ok (2, { readatoms := true, verbose_output := false,
                colvar_atoms := [{ all := [0, 1], onoff := [true, true], active := [0, 1] },
                                 { all := [1, 0], onoff := [true, true], active := [1, 0] }],
                all_atoms := { all := [4, 5], onoff := [true, true], active := [4, 5] },
                requested := [4, 5] }) :=
  ⟨rfl, rfl, rfl⟩

/-- C10 (as amended): once atoms have been read (`readatoms` is true), a
further call of `readAtoms` is not rejected: it returns successfully, whatever
the input, with `natoms`, the index sets of the instances and the registry
unchanged; and when the object is as a successful `readAtoms` left it, the
further call leaves the whole object as it was. -/
theorem readAtoms_twice (inp : Input) (natoms : Int) (s : MultiColvar)
    (hread : s.readatoms = true) :
    ∃ s', readAtoms inp natoms s = .ok (natoms, s') ∧
      s'.readatoms = true ∧
      s'.colvar_atoms.map (fun c => c.all) = s.colvar_atoms.map (fun c => c.all) ∧
      s'.all_atoms.all = s.all_atoms.all ∧
      (∀ inp0 n0 s0, readAtoms inp0 n0 s0 = .ok (natoms, s) → s' = s) := by
  refine ⟨_, readAtoms_of_readatoms inp natoms s hread, hread, ?_, rfl, ?_⟩
  · simp [DynamicList.activateAll, DynamicList.updateActiveMembers]
  · intro inp0 n0 s0 h0
    obtain ⟨r1, r2, r3, _, _, _, _, h⟩ := readAtoms_ok_inv inp0 n0 s0 _ h0
    simp only [Prod.mk.injEq] at h
    rw [h.2]
    simp [activate_update_idem, DynamicList.retrieveActiveList, Function.comp_def]

/-- Witness of C10 (as amended): a second `readAtoms` on the object that
`GROUP = 10, 20, 30` built. -/
theorem readAtoms_twice_witness :
    ∃ s', readAtoms (mkInput [] [] [] [] [] [] []) 2
        { readatoms := true, verbose_output := false,
          colvar_atoms := [{ all := [1, 0], onoff := [true, true], active := [1, 0] },
                           { all := [2, 0], onoff := [true, true], active := [2, 0] },
                           { all := [2, 1], onoff := [true, true], active := [2, 1] }],
          all_atoms := { all := [10, 20, 30], onoff := [true, true, true],
                         active := [10, 20, 30] },
          requested := [10, 20, 30] } = .ok (2, s') ∧
      s'.readatoms = true ∧
      s'.colvar_atoms.map (fun c => c.all) = [[1, 0], [2, 0], [2, 1]] ∧
      s'.all_atoms.all = [10, 20, 30] := by
  obtain ⟨s', h1, h2, h3, h4, _⟩ := readAtoms_twice (mkInput [] [] [] [] [] [] []) 2
    { readatoms := true, verbose_output := false,
      colvar_atoms := [{ all := [1, 0], onoff := [true, true], active := [1, 0] },
                       { all := [2, 0], onoff := [true, true], active := [2, 0] },
                       { all := [2, 1], onoff := [true, true], active := [2, 1] }],
      all_atoms := { all := [10, 20, 30], onoff := [true, true, true],
                     active := [10, 20, 30] },
      requested := [10, 20, 30] } rfl
  exact ⟨s', h1, h2, h3, h4⟩

/-- Counterexample to C10 as stated: `readAtoms` with `GROUP = 10, 20, 30`
builds three instances, and a second call on the object it leaves returns
successfully instead of failing. -/
theorem readAtoms_twice_counterexample :
    readAtoms (mkInput [] [10, 20, 30] [] [] [] [] []) 2 (MultiColvar.init false) =
      .ok (2, { readatoms := true, verbose_output := false,
                colvar_atoms := [{ all := [1, 0], onoff := [true, true], active := [1, 0] },
                                 { all := [2, 0], onoff := [true, true], active := [2, 0] },
                                 { all := [2, 1], onoff := [true, true], active := [2, 1] }],
                all_atoms := { all := [10, 20, 30], onoff := [true, true, true],
                               active := [10, 20, 30] },
                requested := [10, 20, 30] }) ∧
    readAtoms (mkInput [] [10, 20, 30] [] [] [] [] []) 2
        { readatoms := true, verbose_output := false,
          colvar_atoms := [{ all := [1, 0], onoff := [true, true], active := [1, 0] },
                           { all := [2, 0], onoff := [true, true], active := [2, 0] },
                           { all := [2, 1], onoff := [true, true], active := [2, 1] }],
          all_atoms := { all := [10, 20, 30], onoff := [true, true, true],
                         active := [10, 20, 30] },
          requested := [10, 20, 30] } =
      .ok (2, { readatoms := true, verbose_output := false,
                colvar_atoms := [{ all := [1, 0], onoff := [true, true], active := [1, 0] },
                                 { all := [2, 0], onoff := [true, true], active := [2, 0] },
                                 { all := [2, 1], onoff := [true, true], active := [2, 1] }],
                all_atoms := { all := [10, 20, 30], onoff := [true, true, true],
                               active := [10, 20, 30] },
                requested := [10, 20, 30] }) :=
  ⟨rfl, rfl⟩

/-- C11: scatter to an aggregate `Value`.  For `mergeDerivatives` with a
`Value` as destination, `k` the number of active atoms of instance `jcv`,
`value_in` holding `3k+9` derivatives, `N = getNumberOfAtoms()` and every local
atom `i < k` resolving to a link index `g_i >= 0`: the call succeeds, keeps the
value and the number of slots of the destination, and every slot `p` of the
destination holds afterwards what it held before plus `df*value_in[3i+c]` for
every `i < k`, `c < 3` with `3*g_i+c = p`, plus `df*value_in[3k+m]` for every
`m < 9` with `3N+m = p`; a slot that is none of these is unchanged.  With
weight 1, `k = 1`, `g_0 = 1`, `N = 2`, derivative `(1,0,0)` and zero virial
block, a zero destination becomes `[0,0,0, 1,0,0]` followed by nine zeros. -/
theorem mergeDerivatives_Value_scatter {R : Type} [Semiring R] (s : MultiColvar)
    (jcv : Nat) (value_in : Value R) (df : R) (valout : Value R)
    (hlen : value_in.getNumberOfDerivatives =
      3 * (s.colvar_atoms.getD jcv DynamicList.empty).getNumberActive + 9)
    (hlink : ∀ i, i < (s.colvar_atoms.getD jcv DynamicList.empty).getNumberActive →
      0 ≤ linkIndex i (s.colvar_atoms.getD jcv DynamicList.empty) s.all_atoms) :
    (∃ v', mergeDerivatives_Value s jcv value_in df valout = .ok v' ∧
      v'.value = valout.value ∧
      v'.derivatives.length = valout.derivatives.length ∧
      (∀ p, p < valout.derivatives.length →
        v'.getDerivative p = valout.getDerivative p +
          ((∑ i ∈ Finset.range (s.colvar_atoms.getD jcv DynamicList.empty).getNumberActive,
            ∑ c ∈ Finset.range 3,
              if 3 * (linkIndex i (s.colvar_atoms.getD jcv DynamicList.empty)
                  s.all_atoms).toNat + c = p
              then df * value_in.getDerivative (3 * i + c) else 0) +
          ∑ m ∈ Finset.range 9,
            if 3 * getNumberOfAtoms s + m = p
            then df * value_in.getDerivative
              (3 * (s.colvar_atoms.getD jcv DynamicList.empty).getNumberActive + m)
            else 0)) ∧
      (∀ p, p < valout.derivatives.length →
        (∀ i c, i < (s.colvar_atoms.getD jcv DynamicList.empty).getNumberActive → c < 3 →
          3 * (linkIndex i (s.colvar_atoms.getD jcv DynamicList.empty) s.all_atoms).toNat + c
            ≠ p) →
        (∀ m, m < 9 → 3 * getNumberOfAtoms s + m ≠ p) →
        v'.getDerivative p = valout.getDerivative p)) ∧
    mergeDerivatives_Value (R := ℤ) scenarioD 0 ⟨0, [1, 0, 0, 0, 0, 0, 0, 0, 0, 0, 0, 0]⟩ 1
      ⟨0, List.replicate 15 0⟩ = .ok ⟨0, [0, 0, 0, 1, 0, 0, 0, 0, 0, 0, 0, 0, 0, 0, 0]⟩ := by
  refine ⟨?_, rfl⟩
  obtain ⟨v', h1, h2, h3, h4⟩ := mergeDerivatives_Value_spec s jcv value_in df valout hlen hlink
  refine ⟨v', h1, h2, h3, ?_, ?_⟩
  · intro p hp
    exact h4 p hp
  · intro p hp hat hvir
    have h := h4 p hp
    unfold scatteredAmount at h
    rw [Finset.sum_eq_zero, Finset.sum_eq_zero, add_zero, add_zero] at h
    · exact h
    · intro m hm
      rw [if_neg (hvir m (Finset.mem_range.1 hm))]
    · intro i hi
      apply Finset.sum_eq_zero
      intro c hc
      rw [if_neg (hat i c (Finset.mem_range.1 hi) (Finset.mem_range.1 hc))]

/-- Witness of C11: example scenario D, over the integers. -/
theorem mergeDerivatives_Value_scatter_witness :
    (⟨0, [1, 0, 0, 0, 0, 0, 0, 0, 0, 0, 0, 0]⟩ : Value ℤ).getNumberOfDerivatives =
      3 * (scenarioD.colvar_atoms.getD 0 DynamicList.empty).getNumberActive + 9 ∧
    linkIndex 0 (scenarioD.colvar_atoms.getD 0 DynamicList.empty) scenarioD.all_atoms = 1 ∧
    getNumberOfAtoms scenarioD = 2 ∧
    ∃ v', mergeDerivatives_Value (R := ℤ) scenarioD 0
        ⟨0, [1, 0, 0, 0, 0, 0, 0, 0, 0, 0, 0, 0]⟩ 1 ⟨0, List.replicate 15 0⟩ = .ok v' ∧
      v'.derivatives.length = 15 ∧
      v'.getDerivative 3 = 1 ∧ v'.getDerivative 0 = 0 := by
  refine ⟨rfl, rfl, rfl, ?_⟩
  obtain ⟨⟨v', h1, _, h3, h4, _⟩, h6⟩ :=
    mergeDerivatives_Value_scatter (R := ℤ) scenarioD 0
      ⟨0, [1, 0, 0, 0, 0, 0, 0, 0, 0, 0, 0, 0]⟩ 1 ⟨0, List.replicate 15 0⟩ rfl
      (by
        intro i hi
        have h0 : i = 0 := by
          have : i < 1 := hi
          omega
        subst h0
        decide)
  refine ⟨v', h1, h3, ?_, ?_⟩
  · rw [h1] at h6
    cases h6
    rfl
  · rw [h1] at h6
    cases h6
    rfl

/-- C12: scatter length contract.  Both `mergeDerivatives` entry points fail
at their first assertion whenever `value_in` does not hold exactly `3k+9`
derivatives, `k` being the number of active atoms of instance `jcv`, and the
destination is then as it was before the call; when the length is `3k+9` and
every link index resolves, neither fails. -/
theorem mergeDerivatives_length_contract {R : Type} [Zero R] [Add R] [Mul R] (s : MultiColvar)
    (jcv : Nat) (value_in : Value R) (df : R) (vstart : Nat) (valout : Value R)
    (buffer : List R) :
    (value_in.getNumberOfDerivatives ≠
        3 * (s.colvar_atoms.getD jcv DynamicList.empty).getNumberActive + 9 →
      mergeDerivatives_Value s jcv value_in df valout =
        .error ("plumed_assert: value_in.getNumberOfDerivatives()==" ++
                "3*colvar_atoms[jcv].getNumberActive()+9", valout) ∧
      mergeDerivatives_Vessel s jcv value_in df vstart buffer =
        .error ("plumed_assert: value_in.getNumberOfDerivatives()==" ++
                "3*colvar_atoms[jcv].getNumberActive()+9", buffer)) ∧
    (value_in.getNumberOfDerivatives =
        3 * (s.colvar_atoms.getD jcv DynamicList.empty).getNumberActive + 9 →
      (∀ i, i < (s.colvar_atoms.getD jcv DynamicList.empty).getNumberActive →
        0 ≤ linkIndex i (s.colvar_atoms.getD jcv DynamicList.empty) s.all_atoms) →
      (∃ v', mergeDerivatives_Value s jcv value_in df valout = .ok v') ∧
      (∃ b', mergeDerivatives_Vessel s jcv value_in df vstart buffer = .ok b')) := by
  constructor
  · intro h
    constructor
    · unfold mergeDerivatives_Value
      simp only [ne_eq, h, not_false_eq_true, if_true]
    · unfold mergeDerivatives_Vessel
      simp only [ne_eq, h, not_false_eq_true, if_true]
  · intro hlen hlink
    exact ⟨⟨_, mergeDerivatives_Value_eq s jcv value_in df valout hlen hlink⟩,
      ⟨_, mergeDerivatives_Vessel_eq s jcv value_in df vstart buffer hlen hlink⟩⟩

/-- Witness of C12: in scenario D a source with 11 derivatives instead of 12
makes both entry points fail and leaves the destinations as they were. -/
theorem mergeDerivatives_length_contract_witness :
    (⟨0, [1, 0, 0, 0, 0, 0, 0, 0, 0, 0, 0]⟩ : Value ℤ).getNumberOfDerivatives ≠
      3 * (scenarioD.colvar_atoms.getD 0 DynamicList.empty).getNumberActive + 9 ∧
    mergeDerivatives_Value (R := ℤ) scenarioD 0 ⟨0, [1, 0, 0, 0, 0, 0, 0, 0, 0, 0, 0]⟩ 1
        ⟨5, List.replicate 15 7⟩ =
      .error ("plumed_assert: value_in.getNumberOfDerivatives()==" ++
              "3*colvar_atoms[jcv].getNumberActive()+9", ⟨5, List.replicate 15 7⟩) ∧
    mergeDerivatives_Vessel (R := ℤ) scenarioD 0 ⟨0, [1, 0, 0, 0, 0, 0, 0, 0, 0, 0, 0]⟩ 1 2
        (List.replicate 17 7) =
      .error ("plumed_assert: value_in.getNumberOfDerivatives()==" ++
              "3*colvar_atoms[jcv].getNumberActive()+9", List.replicate 17 7) :=
  ⟨by decide,
   (mergeDerivatives_length_contract (R := ℤ) scenarioD 0
      ⟨0, [1, 0, 0, 0, 0, 0, 0, 0, 0, 0, 0]⟩ 1 2 ⟨5, List.replicate 15 7⟩
      (List.replicate 17 7)).1 (by decide)⟩

/-- C13: scatter is order-independent, over exact arithmetic.  For every list
of scatter operations (instance, source derivatives, weight) that each have a
source of `3k+9` derivatives and resolved link indices, and every permutation
of it, applying `mergeDerivatives` for them in either order to the same
destination (a zero-initialised one in particular) succeeds and yields the same
final destination, with a `Value` and with a vessel buffer as destination; and
every slot holds the sum of the amounts of all the operations, so that two
instances resolving to the same particle accumulate. -/
theorem mergeDerivatives_order_independent {R : Type} [Semiring R] (s : MultiColvar)
    (vstart : Nat) (ops ops' : List (Nat × Value R × R)) (hperm : ops.Perm ops')
    (hpre : ∀ op ∈ ops,
      op.2.1.getNumberOfDerivatives =
        3 * (s.colvar_atoms.getD op.1 DynamicList.empty).getNumberActive + 9 ∧
      ∀ i, i < (s.colvar_atoms.getD op.1 DynamicList.empty).getNumberActive →
        0 ≤ linkIndex i (s.colvar_atoms.getD op.1 DynamicList.empty) s.all_atoms)
    (valout : Value R) (buffer : List R) :
    (∃ v, ops.foldlM (fun d op => mergeDerivatives_Value s op.1 op.2.1 op.2.2 d) valout = .ok v ∧
      ops'.foldlM (fun d op => mergeDerivatives_Value s op.1 op.2.1 op.2.2 d) valout = .ok v ∧
      ∀ p, p < valout.derivatives.length →
        v.getDerivative p = valout.getDerivative p +
          (ops.map (fun op => scatteredAmount s op.1 op.2.1 op.2.2 p)).sum) ∧
    (∃ b, ops.foldlM (fun d op => mergeDerivatives_Vessel s op.1 op.2.1 op.2.2 vstart d) buffer =
        .ok b ∧
      ops'.foldlM (fun d op => mergeDerivatives_Vessel s op.1 op.2.1 op.2.2 vstart d) buffer =
        .ok b ∧
      ∀ q, q < buffer.length →
        b.getD q 0 = buffer.getD q 0 +
          (ops.map (fun op =>
            if vstart ≤ q then scatteredAmount s op.1 op.2.1 op.2.2 (q - vstart) else 0)).sum) := by
  have hpre' : ∀ op ∈ ops',
      op.2.1.getNumberOfDerivatives =
        3 * (s.colvar_atoms.getD op.1 DynamicList.empty).getNumberActive + 9 ∧
      ∀ i, i < (s.colvar_atoms.getD op.1 DynamicList.empty).getNumberActive →
        0 ≤ linkIndex i (s.colvar_atoms.getD op.1 DynamicList.empty) s.all_atoms :=
    fun op hop => hpre op (hperm.mem_iff.2 hop)
  constructor
  · obtain ⟨v, h1, h2, h3, h4⟩ := foldlM_mergeDerivatives_Value s ops hpre valout
    obtain ⟨w, g1, g2, g3, g4⟩ := foldlM_mergeDerivatives_Value s ops' hpre' valout
    have hvw : w = v := by
      cases v with
      | mk vv vd =>
        cases w with
        | mk wv wd =>
          simp only at h2 h3 h4 g2 g3 g4
          have e1 : wv = vv := by rw [g2, h2]
          have e2 : wd = vd := by
            apply list_ext_getD _ _ (by rw [g3, h3])
            intro p hp
            rw [g3] at hp
            rw [g4 p hp, h4 p hp, (hperm.map _).sum_eq]
          rw [e1, e2]
    exact ⟨v, h1, by rw [g1, hvw], h4⟩
  · obtain ⟨b, h1, h3, h4⟩ := foldlM_mergeDerivatives_Vessel s vstart ops hpre buffer
    obtain ⟨c, g1, g3, g4⟩ := foldlM_mergeDerivatives_Vessel s vstart ops' hpre' buffer
    have hcb : c = b := by
      apply list_ext_getD _ _ (by rw [g3, h3])
      intro q hq
      rw [g3] at hq
      rw [g4 q hq, h4 q hq, (hperm.map _).sum_eq]
    exact ⟨b, h1, by rw [g1, hcb], h4⟩

/-- Witness of C13: two instances that resolve to the same particle, scattered
in both orders into a zero destination, over the integers; slot 3 holds the
sum `1*1 + 2*2` of the two contributions. -/
theorem mergeDerivatives_order_independent_witness :
    ∃ v, [(0, (⟨0, [1, 0, 0, 0, 0, 0, 0, 0, 0, 0, 0, 0]⟩ : Value ℤ), (1 : ℤ)),
          (1, (⟨0, [2, 0, 0, 0, 0, 0, 0, 0, 0, 0, 0, 0]⟩ : Value ℤ), (2 : ℤ))].foldlM
        (fun d op => mergeDerivatives_Value scenarioShared op.1 op.2.1 op.2.2 d)
        ⟨0, List.replicate 15 0⟩ = .ok v ∧
      [(1, (⟨0, [2, 0, 0, 0, 0, 0, 0, 0, 0, 0, 0, 0]⟩ : Value ℤ), (2 : ℤ)),
       (0, (⟨0, [1, 0, 0, 0, 0, 0, 0, 0, 0, 0, 0, 0]⟩ : Value ℤ), (1 : ℤ))].foldlM
        (fun d op => mergeDerivatives_Value scenarioShared op.1 op.2.1 op.2.2 d)
        ⟨0, List.replicate 15 0⟩ = .ok v ∧
      v.getDerivative 3 = 5 := by
  obtain ⟨⟨v, h1, h2, _⟩, _⟩ :=
    mergeDerivatives_order_independent (R := ℤ) scenarioShared 0
      [(0, ⟨0, [1, 0, 0, 0, 0, 0, 0, 0, 0, 0, 0, 0]⟩, 1),
       (1, ⟨0, [2, 0, 0, 0, 0, 0, 0, 0, 0, 0, 0, 0]⟩, 2)]
      [(1, ⟨0, [2, 0, 0, 0, 0, 0, 0, 0, 0, 0, 0, 0]⟩, 2),
       (0, ⟨0, [1, 0, 0, 0, 0, 0, 0, 0, 0, 0, 0, 0]⟩, 1)]
      (List.Perm.swap _ _ _)
      (by
        intro op hop
        simp only [List.mem_cons, List.mem_singleton, List.not_mem_nil, or_false] at hop
        rcases hop with rfl | rfl
        · refine ⟨rfl, ?_⟩
          intro i hi
          have h0 : i = 0 := by
            have : i < 1 := hi
            omega
          subst h0
          decide
        · refine ⟨rfl, ?_⟩
          intro i hi
          have h0 : i = 0 := by
            have : i < 1 := hi
            omega
          subst h0
          decide)
      ⟨0, List.replicate 15 0⟩ []
  refine ⟨v, h1, h2, ?_⟩
  have e : [(0, (⟨0, [1, 0, 0, 0, 0, 0, 0, 0, 0, 0, 0, 0]⟩ : Value ℤ), (1 : ℤ)),
          (1, (⟨0, [2, 0, 0, 0, 0, 0, 0, 0, 0, 0, 0, 0]⟩ : Value ℤ), (2 : ℤ))].foldlM
        (fun d op => mergeDerivatives_Value scenarioShared op.1 op.2.1 op.2.2 d)
        ⟨0, List.replicate 15 0⟩ =
      .ok ⟨0, [0, 0, 0, 5, 0, 0, 0, 0, 0, 0, 0, 0, 0, 0, 0]⟩ := rfl
  rw [e] at h1
  cases h1
  rfl

/-- C20: the two scatter entry points agree.  For an instance `jcv`, a source
`value_in` with `3k+9` derivatives, a weight `df` and an offset `vstart`, every
link index resolving to one of the `N = getNumberOfAtoms()` atoms: both
`mergeDerivatives` succeed, and for every `p` in `0..3N+8` the slot
`vstart + p` of the vessel buffer and the slot `p` of the aggregate `Value`
receive the same amount; no buffer slot outside the window
`[vstart, vstart + 3N + 9)` changes, and the buffer keeps its size. -/
theorem mergeDerivatives_entry_points_agree {R : Type} [Semiring R] (s : MultiColvar)
    (jcv : Nat) (value_in : Value R) (df : R) (vstart : Nat) (valout : Value R)
    (buffer : List R)
    (hlen : value_in.getNumberOfDerivatives =
      3 * (s.colvar_atoms.getD jcv DynamicList.empty).getNumberActive + 9)
    (hlink : ∀ i, i < (s.colvar_atoms.getD jcv DynamicList.empty).getNumberActive →
      0 ≤ linkIndex i (s.colvar_atoms.getD jcv DynamicList.empty) s.all_atoms ∧
      linkIndex i (s.colvar_atoms.getD jcv DynamicList.empty) s.all_atoms <
        (getNumberOfAtoms s : Int)) :
    ∃ v' b', mergeDerivatives_Value s jcv value_in df valout = .ok v' ∧
      mergeDerivatives_Vessel s jcv value_in df vstart buffer = .ok b' ∧
      v'.derivatives.length = valout.derivatives.length ∧
      b'.length = buffer.length ∧
      (∀ p, p < 3 * getNumberOfAtoms s + 9 →
        (p < valout.derivatives.length →
          v'.getDerivative p = valout.getDerivative p + scatteredAmount s jcv value_in df p) ∧
        (vstart + p < buffer.length →
          b'.getD (vstart + p) 0 =
            buffer.getD (vstart + p) 0 + scatteredAmount s jcv value_in df p)) ∧
      (∀ q, q < vstart ∨ vstart + (3 * getNumberOfAtoms s + 9) ≤ q →
        b'.getD q 0 = buffer.getD q 0) := by
  obtain ⟨v', h1, _, h3, h4⟩ := mergeDerivatives_Value_spec s jcv value_in df valout hlen
    (fun i hi => (hlink i hi).1)
  obtain ⟨b', g1, g3, g4⟩ := mergeDerivatives_Vessel_spec s jcv value_in df vstart buffer hlen
    (fun i hi => (hlink i hi).1)
  refine ⟨v', b', h1, g1, h3, g3, ?_, ?_⟩
  · intro p _
    constructor
    · intro hp
      exact h4 p hp
    · intro hp
      rw [g4 _ hp, if_pos (Nat.le_add_right _ _), Nat.add_sub_cancel_left]
  · intro q hq
    by_cases hlt : q < buffer.length
    · rw [g4 q hlt]
      rcases hq with hq | hq
      · rw [if_neg (by omega), add_zero]
      · rw [if_pos (by omega), scatteredAmount_eq_zero s jcv value_in df _ _ (by omega), add_zero]
        intro i hi
        have := hlink i hi
        omega
    · rw [getD_of_length_le _ _ _ (by omega), getD_of_length_le _ _ _ (by omega)]

/-- Witness of C20: scenario D with offset 2 into a buffer of 18 slots. -/
theorem mergeDerivatives_entry_points_agree_witness :
    ∃ v' b', mergeDerivatives_Value (R := ℤ) scenarioD 0
        ⟨0, [1, 0, 0, 0, 0, 0, 0, 0, 0, 0, 0, 0]⟩ 1 ⟨0, List.replicate 15 0⟩ = .ok v' ∧
      mergeDerivatives_Vessel (R := ℤ) scenarioD 0
        ⟨0, [1, 0, 0, 0, 0, 0, 0, 0, 0, 0, 0, 0]⟩ 1 2 (List.replicate 18 0) = .ok b' ∧
      v'.derivatives = [0, 0, 0, 1, 0, 0, 0, 0, 0, 0, 0, 0, 0, 0, 0] ∧
      b' = [0, 0, 0, 0, 0, 1, 0, 0, 0, 0, 0, 0, 0, 0, 0, 0, 0, 0] := by
  obtain ⟨v', b', h1, h2, _⟩ :=
    mergeDerivatives_entry_points_agree (R := ℤ) scenarioD 0
      ⟨0, [1, 0, 0, 0, 0, 0, 0, 0, 0, 0, 0, 0]⟩ 1 2 ⟨0, List.replicate 15 0⟩
      (List.replicate 18 0) rfl
      (by
        intro i hi
        have h0 : i = 0 := by
          have : i < 1 := hi
          omega
        subst h0
        decide)
  refine ⟨v', b', h1, h2, ?_, ?_⟩
  · have e : mergeDerivatives_Value (R := ℤ) scenarioD 0
        ⟨0, [1, 0, 0, 0, 0, 0, 0, 0, 0, 0, 0, 0]⟩ 1 ⟨0, List.replicate 15 0⟩ =
        .ok ⟨0, [0, 0, 0, 1, 0, 0, 0, 0, 0, 0, 0, 0, 0, 0, 0]⟩ := rfl
    rw [e] at h1
    cases h1
    rfl
  · have e : mergeDerivatives_Vessel (R := ℤ) scenarioD 0
        ⟨0, [1, 0, 0, 0, 0, 0, 0, 0, 0, 0, 0, 0]⟩ 1 2 (List.replicate 18 0) =
        .ok [0, 0, 0, 0, 0, 1, 0, 0, 0, 0, 0, 0, 0, 0, 0, 0, 0, 0] := rfl
    rw [e] at h2
    cases h2
    rfl

/-- C15: weight query rejection.  The call `retrieveColvarWeight(j, ww)` fails
with an error if and only if `isPossibleToSkip()` holds for the colvar,
whatever `j` and the contents of `ww`; the error is the same for all of
them. -/
theorem retrieveColvarWeight_fails_iff {R : Type} [Zero R] [One R] (cvf : Colvar R)
    (s : MultiColvar) (j : Nat) (ww : Value R) :
    ((∃ m, retrieveColvarWeight cvf s j ww = .error m) ↔ cvf.isPossibleToSkip = true) ∧
    ((∃ w, retrieveColvarWeight cvf s j ww = .ok w) ↔ cvf.isPossibleToSkip = false) ∧
    (cvf.isPossibleToSkip = true → ∀ (s2 : MultiColvar) (j2 : Nat) (ww2 : Value R),
      retrieveColvarWeight cvf s2 j2 ww2 = retrieveColvarWeight cvf s j ww) := by
  cases h : cvf.isPossibleToSkip <;> simp [retrieveColvarWeight, h]

/-- C16: default weight.  Whenever `retrieveColvarWeight(j, ww)` succeeds, `ww`
has afterwards the value 1 and exactly `3k+9` derivatives, all of them zero,
`k` being the number of active atoms of instance `j`, whatever value and
derivatives `ww` had before. -/
theorem retrieveColvarWeight_default {R : Type} [Zero R] [One R] (cvf : Colvar R)
    (s : MultiColvar) (j : Nat) (ww w : Value R)
    (h : retrieveColvarWeight cvf s j ww = .ok w) :
    w.value = 1 ∧
    w.getNumberOfDerivatives =
      3 * (s.colvar_atoms.getD j DynamicList.empty).getNumberActive + 9 ∧
    (∀ x ∈ w.derivatives, x = 0) ∧
    w = ⟨1, List.replicate
      (3 * (s.colvar_atoms.getD j DynamicList.empty).getNumberActive + 9) 0⟩ := by
  have key : w = ⟨1, List.replicate
      (3 * (s.colvar_atoms.getD j DynamicList.empty).getNumberActive + 9) 0⟩ := by
    unfold retrieveColvarWeight at h
    cases hs : cvf.isPossibleToSkip
    · simp only [hs, Bool.false_eq_true, if_false, Except.ok.injEq] at h
      rw [← h]
      by_cases hn : ww.getNumberOfDerivatives =
          3 * (s.colvar_atoms.getD j DynamicList.empty).getNumberActive + 9
      · simp only [hn, ne_eq, not_true_eq_false, if_false, Value.set, Value.clearDerivatives]
        congr 1
        rw [← hn]
        exact List.map_const' _ _
      · simp only [ne_eq, hn, not_false_eq_true, if_true, Value.set, Value.clearDerivatives,
          Value.resizeDerivatives]
        congr 1
        rw [List.map_const']
        congr 1
        simp only [List.length_append, List.length_take, List.length_replicate]
        omega
    · simp [hs] at h
  rw [key]
  refine ⟨rfl, by simp [Value.getNumberOfDerivatives], ?_, rfl⟩
  intro x hx
  exact List.eq_of_mem_replicate hx

/-- Witness of C16: in scenario D a weight with value 7 and two derivatives
becomes the constant 1 with twelve zero derivatives. -/
theorem retrieveColvarWeight_default_witness :
    retrieveColvarWeight (R := ℤ)
        { isPossibleToSkip := false, contributionIsSmall := fun _ => false,
          compute := fun _ _ => (0, []), getCentralAtom := fun _ _ => .error "unsupported" }
        scenarioD 0 ⟨7, [3, 4]⟩ = .ok ⟨1, [0, 0, 0, 0, 0, 0, 0, 0, 0, 0, 0, 0]⟩ ∧
    (⟨1, [0, 0, 0, 0, 0, 0, 0, 0, 0, 0, 0, 0]⟩ : Value ℤ).value = 1 ∧
    (⟨1, [0, 0, 0, 0, 0, 0, 0, 0, 0, 0, 0, 0]⟩ : Value ℤ).getNumberOfDerivatives =
      3 * (scenarioD.colvar_atoms.getD 0 DynamicList.empty).getNumberActive + 9 :=
  ⟨rfl,
   (retrieveColvarWeight_default (R := ℤ)
      { isPossibleToSkip := false, contributionIsSmall := fun _ => false,
        compute := fun _ _ => (0, []), getCentralAtom := fun _ _ => .error "unsupported" }
      scenarioD 0 ⟨7, [3, 4]⟩ ⟨1, [0, 0, 0, 0, 0, 0, 0, 0, 0, 0, 0, 0]⟩ rfl).1,
   (retrieveColvarWeight_default (R := ℤ)
      { isPossibleToSkip := false, contributionIsSmall := fun _ => false,
        compute := fun _ _ => (0, []), getCentralAtom := fun _ _ => .error "unsupported" }
      scenarioD 0 ⟨7, [3, 4]⟩ ⟨1, [0, 0, 0, 0, 0, 0, 0, 0, 0, 0, 0, 0]⟩ rfl).2.1⟩

/-- C17 (as amended): derivative-buffer length invariant.  After any sequence
of evaluations that starts with `pos` empty, as the constructor leaves it,
whenever `calculateThisFunction(j)` returns for an instance `j` with at least
one active atom, the derivative buffer of `thisval` has exactly `3*k_j + 9`
entries, `k_j` being the number of active atoms of `j`; for an instance with no
active atom the call returns true and leaves `thisval` as it was. -/
theorem calculateThisFunction_buffer_length {R : Type} [Zero R] [Add R] [Mul R]
    (cvf : Colvar R) (host : Host R) (evals : List (MultiColvar × Nat)) (e0 e1 : Evaluator R)
    (he0 : e0.pos = [])
    (hseq : evals.foldlM (fun e sj =>
      (calculateThisFunction cvf host sj.1 e sj.2).bind fun r => .ok r.2) e0 = .ok e1)
    (s : MultiColvar) (j : Nat) (b : Bool) (e2 : Evaluator R)
    (h : calculateThisFunction cvf host s e1 j = .ok (b, e2)) :
    ((s.colvar_atoms.getD j DynamicList.empty).getNumberActive ≠ 0 →
      e2.thisval.getNumberOfDerivatives =
        3 * (s.colvar_atoms.getD j DynamicList.empty).getNumberActive + 9) ∧
    ((s.colvar_atoms.getD j DynamicList.empty).getNumberActive = 0 →
      b = true ∧ e2.thisval = e1.thisval) := by
  have hinv := foldlM_calculateThisFunction_inv cvf host evals e0 e1 (Or.inl he0) hseq
  obtain ⟨g0, g1⟩ := calculateThisFunction_length cvf host s e1 j b e2 hinv h
  exact ⟨fun hk => (g1 hk).2, fun hk => ⟨(g0 hk).1, by rw [(g0 hk).2]⟩⟩

/-- Witness of C17 (as amended): the first instance of `scenarioSkip`, with two
active atoms, evaluated on a new object: the buffer has `3*2+9` entries. -/
theorem calculateThisFunction_buffer_length_witness :
    ∃ b e2, calculateThisFunction sampleColvar sampleHost scenarioSkip Evaluator.init 0 =
        .ok (b, e2) ∧
      e2.thisval.getNumberOfDerivatives = 3 * 2 + 9 := by
  cases hc : calculateThisFunction sampleColvar sampleHost scenarioSkip Evaluator.init 0 with
  | error m =>
    have e : (calculateThisFunction sampleColvar sampleHost scenarioSkip Evaluator.init 0).toBool
        = true := rfl
    rw [hc] at e
    cases e
  | ok r =>
    exact ⟨r.1, r.2, rfl,
      (calculateThisFunction_buffer_length sampleColvar sampleHost [] Evaluator.init
        Evaluator.init rfl rfl scenarioSkip 0 r.1 r.2 hc).1 (by decide)⟩

/-- Counterexample to C17 as stated: in `scenarioSkip` the first instance, with
two active atoms, leaves a buffer of 15 entries; the second instance has no
active atom, and after its evaluation returns the buffer still has 15 entries,
not `3*0 + 9 = 9`. -/
theorem calculateThisFunction_buffer_length_counterexample :
    (scenarioSkip.colvar_atoms.getD 1 DynamicList.empty).getNumberActive = 0 ∧
    ((calculateThisFunction sampleColvar sampleHost scenarioSkip Evaluator.init 0).bind fun r =>
      (calculateThisFunction sampleColvar sampleHost scenarioSkip r.2 1).bind fun r2 =>
        .ok (r2.1, r2.2.thisval.getNumberOfDerivatives)) = .ok (true, 15) :=
  ⟨rfl, rfl⟩

/-- C18: zero-active-atom skip.  For an instance `j` with zero active atoms,
`calculateThisFunction(j)` returns true and leaves the whole evaluator state as
it was, whatever the pre-filter, the formula, the central-atom formula and the
host are (none of them is consulted); so in a sequence of evaluations the
evaluation of `j` can be left out without changing the outcome. -/
theorem calculateThisFunction_zero_active {R : Type} [Zero R] [Add R] [Mul R]
    (cvf : Colvar R) (host : Host R) (s : MultiColvar) (e : Evaluator R) (j : Nat)
    (h0 : (s.colvar_atoms.getD j DynamicList.empty).getNumberActive = 0) :
    calculateThisFunction cvf host s e j = .ok (true, e) ∧
    (∀ (cvf2 : Colvar R) (host2 : Host R),
      calculateThisFunction cvf2 host2 s e j = .ok (true, e)) ∧
    (∀ (before after : List Nat) (e0 : Evaluator R),
      (before ++ j :: after).foldlM (fun e i =>
        (calculateThisFunction cvf host s e i).bind fun r => .ok r.2) e0 =
      (before ++ after).foldlM (fun e i =>
        (calculateThisFunction cvf host s e i).bind fun r => .ok r.2) e0) := by
  have key : ∀ (cvf2 : Colvar R) (host2 : Host R) (e2 : Evaluator R),
      calculateThisFunction cvf2 host2 s e2 j = .ok (true, e2) := by
    intro cvf2 host2 e2
    unfold calculateThisFunction
    simp only [h0, if_true]
  refine ⟨key cvf host e, fun cvf2 host2 => key cvf2 host2 e, ?_⟩
  intro before after e0
  rw [List.foldlM_append, List.foldlM_append]
  congr 1
  funext e1
  rw [List.foldlM_cons, key cvf host e1]
  rfl

/-- Witness of C18: the second instance of `scenarioSkip` has no active atom
and its evaluation leaves a new object as it was. -/
theorem calculateThisFunction_zero_active_witness :
    (scenarioSkip.colvar_atoms.getD 1 DynamicList.empty).getNumberActive = 0 ∧
    calculateThisFunction sampleColvar sampleHost scenarioSkip Evaluator.init 1 =
      .ok (true, Evaluator.init) :=
  ⟨rfl, (calculateThisFunction_zero_active sampleColvar sampleHost scenarioSkip
    Evaluator.init 1 rfl).1⟩

/-- C14: force/virial reducer.  After `apply()`, with `N = getNumberOfAtoms()`,
a force array of `N` entries and each vessel either reporting no pending force
(`none`) or reporting a flat buffer `F` (`some F`): the force array still has
`N` entries, for every particle `j < N` and component `c` the force `f[j][c]`
is the sum over the reporting vessels of `F[3j+c]`, and for every `r`, `c` the
virial entry `v(r,c)` is the sum over the reporting vessels of `F[3N+3r+c]`
(row-major); the result does not depend on the contents of the force array and
of the virial before the call, and removing the vessels that report nothing
from the vessel list gives the same result. -/
theorem apply_reducer {R : Type} [AddCommMonoid R] (s : MultiColvar)
    (rs : List (Option (List R))) (f : List (Vector R)) (v : Tensor R)
    (hf : f.length = getNumberOfAtoms s) :
    (apply s (rs.map Vessel.ofReport) f v).1.length = getNumberOfAtoms s ∧
    (∀ j, j < getNumberOfAtoms s → ∀ c : Fin 3,
      ((apply s (rs.map Vessel.ofReport) f v).1.getD j (fun _ => 0)) c =
        ((rs.filterMap id).map (fun F => F.getD (3 * j + c.val) 0)).sum) ∧
    (∀ r c : Fin 3,
      (apply s (rs.map Vessel.ofReport) f v).2 r c =
        ((rs.filterMap id).map (fun F =>
          F.getD (3 * getNumberOfAtoms s + 3 * r.val + c.val) 0)).sum) ∧
    (∀ (f2 : List (Vector R)) (v2 : Tensor R), f2.length = f.length →
      apply s (rs.map Vessel.ofReport) f2 v2 = apply s (rs.map Vessel.ofReport) f v) ∧
    apply s ((rs.filter Option.isSome).map Vessel.ofReport) f v =
      apply s (rs.map Vessel.ofReport) f v := by
  refine ⟨?_, ?_, ?_, ?_, ?_⟩
  · rw [apply_eq]
    simp [hf]
  · intro j hj c
    rw [apply_eq]
    have hj' : j < f.length := by rw [hf]; exact hj
    simp [List.getD_eq_getElem?_getD, hj', hj]
  · intro r c
    rw [apply_eq]
  · intro f2 v2 h2
    rw [apply_eq, apply_eq, h2]
  · rw [apply_eq, apply_eq, filterMap_id_filter_isSome]

/-- Witness of C14: two atoms, one vessel reporting the buffer `1, 2, ..., 15`,
one reporting nothing and one reporting the buffer of fifteen ones, on a force
array and a virial that held other numbers: the second force is `(5, 6, 7)`
and the virial entry `(1,2)` is `13`. -/
theorem apply_reducer_witness :
    ([fun _ => 7, fun _ => 8] : List (Vector ℤ)).length = getNumberOfAtoms scenarioD ∧
    ((apply (R := ℤ) scenarioD
        ([some [1, 2, 3, 4, 5, 6, 7, 8, 9, 10, 11, 12, 13, 14, 15], none,
          some (List.replicate 15 1)].map Vessel.ofReport)
        [fun _ => 7, fun _ => 8] (fun _ _ => 9)).1.getD 1 (fun _ => 0)) 0 = 5 ∧
    (apply (R := ℤ) scenarioD
        ([some [1, 2, 3, 4, 5, 6, 7, 8, 9, 10, 11, 12, 13, 14, 15], none,
          some (List.replicate 15 1)].map Vessel.ofReport)
        [fun _ => 7, fun _ => 8] (fun _ _ => 9)).2 1 2 = 13 := by
  obtain ⟨_, h2, h3, _, _⟩ := apply_reducer (R := ℤ) scenarioD
    [some [1, 2, 3, 4, 5, 6, 7, 8, 9, 10, 11, 12, 13, 14, 15], none, some (List.replicate 15 1)]
    [fun _ => 7, fun _ => 8] (fun _ _ => 9) rfl
  refine ⟨rfl, ?_, ?_⟩
  · simpa using h2 1 (by decide) 0
  · simpa [getNumberOfAtoms, scenarioD] using h3 1 2

/-- C19: registry-resolution invariant.  After any successful `readAtoms` on a
new object, in whichever mode, every index stored in the index set of every
instance of `colvar_atoms` is strictly smaller than the number of entries of
the registry `all_atoms`; and every local atom of every instance resolves: its
link index is the stored index, which is not negative and is below the number
of atoms requested. -/
theorem readAtoms_registry_resolution (inp : Input) (natoms : Int) (v : Bool)
    (r : Int × MultiColvar) (h : readAtoms inp natoms (MultiColvar.init v) = .ok r) :
    (∀ c ∈ r.2.colvar_atoms, ∀ x ∈ c.all, x < r.2.all_atoms.all.length) ∧
    (∀ c ∈ r.2.colvar_atoms, ∀ i, i < c.getNumberActive →
      0 ≤ linkIndex i c r.2.all_atoms ∧
      linkIndex i c r.2.all_atoms < (getNumberOfAtoms r.2 : Int) ∧
      linkIndex i c r.2.all_atoms = ((c.all.getD i 0 : Nat) : Int)) := by
  obtain ⟨r1, r2, r3, h1, h2, h3, _, rfl⟩ := readAtoms_ok_inv inp natoms _ r h
  have b1 : ∀ c ∈ r1.2.colvar_atoms, ∀ x ∈ c.all, x < r1.2.all_atoms.all.length := by
    split_ifs at h1 with hk
    · exact readAtomsKeyword_bound inp natoms _ r1 rfl (by simp [MultiColvar.init]) h1
    · simp only [Except.ok.injEq] at h1
      rw [← h1]
      simp [MultiColvar.init]
  have b2 : ∀ c ∈ r2.2.colvar_atoms, ∀ x ∈ c.all, x < r2.2.all_atoms.all.length := by
    split_ifs at h2 with hk
    · exact readGroupsKeyword_bound inp r1.1 r1.2 r2 b1 h2
    · simp only [Except.ok.injEq] at h2
      rw [← h2]
      exact b1
  have b3 : ∀ c ∈ r3.2.colvar_atoms, ∀ x ∈ c.all, x < r3.2.all_atoms.all.length := by
    split_ifs at h3 with hk
    · exact readSpeciesKeyword_bound inp r2.1 r2.2 r3 b2 h3
    · simp only [Except.ok.injEq] at h3
      rw [← h3]
      exact b2
  constructor
  · intro c hc x hx
    simp only [List.mem_map] at hc
    obtain ⟨c0, hc0, rfl⟩ := hc
    exact b3 c0 hc0 x hx
  · intro c hc i hi
    simp only [List.mem_map] at hc
    obtain ⟨c0, hc0, rfl⟩ := hc
    have hact : c0.activateAll.updateActiveMembers.active = c0.all :=
      active_activateAll_updateActiveMembers c0
    have hi' : i < c0.all.length := by
      simpa [DynamicList.getNumberActive, hact] using hi
    have hlt : c0.all.getD i 0 < r3.2.all_atoms.all.length := by
      apply b3 c0 hc0
      rw [List.getD_eq_getElem?_getD, List.getElem?_eq_getElem hi']
      exact List.getElem_mem hi'
    have hN : getNumberOfAtoms
        { r3.2 with
          colvar_atoms := r3.2.colvar_atoms.map (fun l => l.activateAll.updateActiveMembers)
          all_atoms := r3.2.all_atoms.activateAll.updateActiveMembers
          requested := r3.2.all_atoms.activateAll.updateActiveMembers.retrieveActiveList } =
        r3.2.all_atoms.all.length := by
      simp only [getNumberOfAtoms, DynamicList.retrieveActiveList,
        active_activateAll_updateActiveMembers]
    have hl : linkIndex i c0.activateAll.updateActiveMembers
        r3.2.all_atoms.activateAll.updateActiveMembers = ((c0.all.getD i 0 : Nat) : Int) := by
      apply linkIndex_all_on i _ _ (c0.all.getD i 0) _ r3.2.all_atoms.all.length _ hlt
      · rw [hact, List.getD_eq_getElem?_getD, List.getElem?_eq_getElem hi']
        rfl
      · simp only [DynamicList.activateAll, DynamicList.updateActiveMembers]
        exact List.map_const' _ _
    have hall : (c0.activateAll.updateActiveMembers).all = c0.all := rfl
    simp only [hN, hall]
    rw [hl]
    exact ⟨by omega, by omega, rfl⟩

/-- Witness of C19: `ATOMS1=(5,9)`, `ATOMS2=(6,19)` on a new object: the four
stored indices are below the four entries of the registry. -/
theorem readAtoms_registry_resolution_witness :
    readAtoms (mkInput [[5, 9], [6, 19]] [] [] [] [] [] []) (-1) (MultiColvar.init false) =
      .ok (2, { readatoms := true, verbose_output := false,
                colvar_atoms := [{ all := [0, 1], onoff := [true, true], active := [0, 1] },
                                 { all := [2, 3], onoff := [true, true], active := [2, 3] }],
                all_atoms := { all := [5, 9, 6, 19], onoff := [true, true, true, true],
                               active := [5, 9, 6, 19] },
                requested := [5, 9, 6, 19] }) ∧
    ∀ c ∈ [({ all := [0, 1], onoff := [true, true], active := [0, 1] } : DynamicList Nat),
           { all := [2, 3], onoff := [true, true], active := [2, 3] }],
      ∀ x ∈ c.all, x < 4 := by
  have e : readAtoms (mkInput [[5, 9], [6, 19]] [] [] [] [] [] []) (-1)
      (MultiColvar.init false) =
      .ok (2, { readatoms := true, verbose_output := false,
                colvar_atoms := [{ all := [0, 1], onoff := [true, true], active := [0, 1] },
                                 { all := [2, 3], onoff := [true, true], active := [2, 3] }],
                all_atoms := { all := [5, 9, 6, 19], onoff := [true, true, true, true],
                               active := [5, 9, 6, 19] },
                requested := [5, 9, 6, 19] }) := rfl
  exact ⟨e, (readAtoms_registry_resolution _ _ _ _ e).1⟩

/-- C21 (as amended): when a central position is required and
`calculateThisFunction(j)` does not skip, with `k` active atoms, `central_pos`
and `D` the position and the derivative tensors that `getCentralAtom` returns
on the gathered positions, each of the three `catom_pos[c]` holds afterwards
exactly `3k+9` derivatives, its value is component `c` of
`realToScaled(central_pos)`, its derivative in slot `3i+j` is entry `(c,j)` of
the product of the TRANSPOSED inverse box with `D_i`, that is
`InvBox(0,c) D_i(0,j) + InvBox(1,c) D_i(1,j) + InvBox(2,c) D_i(2,j)`, for
every `i < k` and `j < 3`, and its 9 trailing slots are zero. -/
theorem calculateThisFunction_central_position {R : Type} [Semiring R] (cvf : Colvar R)
    (host : Host R) (s : MultiColvar) (e e2 : Evaluator R) (j : Nat)
    (hneed : e.needsCentralAtomPosition = true) (hcat : e.catom_pos.length = 3)
    (h : calculateThisFunction cvf host s e j = .ok (false, e2)) :
    ∃ (central_pos : Vector R) (D : List (Tensor R)),
      cvf.getCentralAtom e2.pos
        (if e.central_derivs.length ≠
            (s.colvar_atoms.getD j DynamicList.empty).getNumberActive then
          vectorResize e.central_derivs
            (s.colvar_atoms.getD j DynamicList.empty).getNumberActive (fun _ _ => 0)
         else e.central_derivs) = .ok (central_pos, D) ∧
      e2.central_derivs = D ∧
      e2.pos.length = (s.colvar_atoms.getD j DynamicList.empty).getNumberActive ∧
      e2.catom_pos.length = 3 ∧
      ∀ c : Fin 3,
        (e2.catom_pos.getD c ⟨0, []⟩).getNumberOfDerivatives =
          3 * (s.colvar_atoms.getD j DynamicList.empty).getNumberActive + 9 ∧
        (e2.catom_pos.getD c ⟨0, []⟩).value = host.realToScaled central_pos c ∧
        (∀ i (_ : i < (s.colvar_atoms.getD j DynamicList.empty).getNumberActive)
            (hD : i < D.length) (jj : Fin 3),
          (e2.catom_pos.getD c ⟨0, []⟩).getDerivative (3 * i + jj.val) =
            matmul host.getInvBox.transpose (D.get ⟨i, hD⟩) c jj ∧
          (e2.catom_pos.getD c ⟨0, []⟩).getDerivative (3 * i + jj.val) =
            host.getInvBox 0 c * D.get ⟨i, hD⟩ 0 jj + host.getInvBox 1 c * D.get ⟨i, hD⟩ 1 jj +
              host.getInvBox 2 c * D.get ⟨i, hD⟩ 2 jj) ∧
        (∀ m, m < 9 → (e2.catom_pos.getD c ⟨0, []⟩).getDerivative
          (3 * (s.colvar_atoms.getD j DynamicList.empty).getNumberActive + m) = 0) := by
  obtain ⟨e3, hlen, hc3, hd3, hstep⟩ := calculateThisFunction_central_step cvf host s e e2 j hneed h
  rw [← hlen] at hstep
  obtain ⟨hpos, _⟩ := centralAtomStep_frame cvf host _ e3 e2 hstep
  obtain ⟨central_pos, D, hget, hD, hl3, hall⟩ :=
    centralAtomStep_catom cvf host e3 e2 (by rw [hc3]; exact hcat) hstep
  rw [hd3, hlen, ← hpos] at hget
  refine ⟨central_pos, D, hget, hD, by rw [hpos]; exact hlen, hl3, ?_⟩
  intro c
  obtain ⟨hv, hn, hp⟩ := hall c
  rw [hlen] at hn hp
  have hslot : ∀ i (_ : i < (s.colvar_atoms.getD j DynamicList.empty).getNumberActive)
      (hD : i < D.length) (jj : Fin 3),
      (e2.catom_pos.getD c ⟨0, []⟩).getDerivative (3 * i + jj.val) =
        matmul host.getInvBox.transpose (D.get ⟨i, hD⟩) c jj := by
    intro i hi hDi jj
    have hjj : (Fin.ofNat jj.val : Fin 3) = jj := by
      fin_cases jj <;> rfl
    show (e2.catom_pos.getD c ⟨0, []⟩).derivatives.getD (3 * i + jj.val) 0 = _
    rw [hp (3 * i + jj.val) (by have := jj.isLt; omega),
      sum_slot_single (fun a c2 => matmul host.getInvBox.transpose (D.getD a (fun _ _ => 0)) c
        (Fin.ofNat c2)) _ i jj.val hi jj.isLt]
    simp only [hjj, List.getD_eq_getElem _ _ hDi, List.get_eq_getElem]
  refine ⟨hn, hv, ?_, ?_⟩
  · intro i hi hDi jj
    refine ⟨hslot i hi hDi jj, ?_⟩
    rw [hslot i hi hDi jj]
    simp only [matmul, Tensor.transpose, zero_add]
  · intro m hm
    show (e2.catom_pos.getD c ⟨0, []⟩).derivatives.getD _ 0 = _
    rw [hp _ (by omega)]
    exact sum_slot_none _ _ _ (by omega)

/-- Witness of C21 (as amended): instance 0 of `scenarioD`, one active atom,
evaluated with `centralColvar` on the sheared box of `skewHost`: each of the
three values has `3*1+9` derivatives, slot `j` holds entry `(c,j)` of the
transposed inverse box times the unit tensor, and slots 3 to 11 are zero. -/
theorem calculateThisFunction_central_position_witness :
    calculateThisFunction centralColvar skewHost scenarioD (useCentralAtom Evaluator.init) 0 =
      .ok (false, centralResult) ∧
    ∀ c : Fin 3,
      (centralResult.catom_pos.getD c ⟨0, []⟩).getNumberOfDerivatives = 3 * 1 + 9 ∧
      (∀ jj : Fin 3, (centralResult.catom_pos.getD c ⟨0, []⟩).getDerivative (3 * 0 + jj.val) =
        matmul skewHost.getInvBox.transpose (fun r c => if r = c then 1 else 0) c jj) ∧
      ∀ m, m < 9 → (centralResult.catom_pos.getD c ⟨0, []⟩).getDerivative (3 * 1 + m) = 0 := by
  have h : calculateThisFunction centralColvar skewHost scenarioD
      (useCentralAtom Evaluator.init) 0 = .ok (false, centralResult) := rfl
  obtain ⟨central_pos, D, _, hD, _, _, hall⟩ :=
    calculateThisFunction_central_position centralColvar skewHost scenarioD
      (useCentralAtom Evaluator.init) centralResult 0 rfl rfl h
  subst hD
  refine ⟨h, fun c => ⟨(hall c).1, fun jj => ?_, (hall c).2.2.2⟩⟩
  exact ((hall c).2.2.1 0 (by decide) (by decide) jj).1

/-- Counterexample to C21 as stated: in the witness scenario the central-atom
formula returns the unit tensor for local atom 0 and the inverse box has entry
`(0,1)` equal to 1 and entry `(1,0)` equal to 0; slot `3*0+0` of `catom_pos[1]`
holds 1, which is entry `(1,0)` of the transposed inverse box times the unit
tensor, while entry `(1,0)` of the inverse box times the unit tensor is 0. -/
theorem calculateThisFunction_central_position_counterexample :
    (useCentralAtom (Evaluator.init : Evaluator ℤ)).needsCentralAtomPosition = true ∧
    (scenarioD.colvar_atoms.getD 0 DynamicList.empty).getNumberActive = 1 ∧
    calculateThisFunction centralColvar skewHost scenarioD (useCentralAtom Evaluator.init) 0 =
      .ok (false, centralResult) ∧
    centralColvar.getCentralAtom centralResult.pos [fun _ _ => 0] =
      .ok (skewHost.getPosition 1, [fun r c => if r = c then 1 else 0]) ∧
    (centralResult.catom_pos.getD 1 ⟨0, []⟩).getDerivative (3 * 0 + 0) = 1 ∧
    matmul skewHost.getInvBox (fun r c => if r = c then 1 else 0) 1 0 = 0 ∧
    matmul skewHost.getInvBox.transpose (fun r c => if r = c then 1 else 0) 1 0 = 1 :=
  ⟨rfl, rfl, rfl, rfl, rfl, rfl, rfl⟩

/-- C22: mode exclusivity of `readAtoms`.  Take two input lines with the same
registered keywords and the same `ATOMS` tuples.  (1) If `ATOMS` is registered
and its first tuple is not empty, `readAtoms` gives the same result (instances,
registry, natoms, or the same error) on both lines, whatever `GROUP`, `GROUPA`,
`GROUPB`, `SPECIES`, `SPECIESA` and `SPECIESB` hold; and when the `ATOMS` reader
succeeds, the two later readers return its result unchanged on any input line.
(2) If `GROUP` is registered, the two lines have the same three group lists and
`GROUP` or `GROUPA` is not empty, the result is the same whatever the `SPECIES`
keywords hold.  (3) If `GROUP` is registered, not empty and the same in both
lines, the result is the same whatever `GROUPA`, `GROUPB` and the `SPECIES`
keywords hold. -/
theorem readAtoms_mode_exclusive (inp inp2 : Input) (natoms : Int) (s : MultiColvar)
    (hkw : inp2.keywords_exists = inp.keywords_exists)
    (hnum : inp2.numbered = inp.numbered) :
    (inp.keywords_exists .ATOMS = true →
      (∃ t rest, inp.numbered = t :: rest ∧ t ≠ []) →
        readAtoms inp2 natoms s = readAtoms inp natoms s ∧
        ∀ r1, readAtomsKeyword inp natoms s = .ok r1 → ∀ inp3 : Input,
          readGroupsKeyword inp3 r1.1 r1.2 = .ok r1 ∧
          readSpeciesKeyword inp3 r1.1 r1.2 = .ok r1) ∧
    (inp.keywords_exists .GROUP = true →
      inp2.atoms .GROUP = inp.atoms .GROUP →
      inp2.atoms .GROUPA = inp.atoms .GROUPA →
      inp2.atoms .GROUPB = inp.atoms .GROUPB →
      (parseAtomList inp .GROUP ≠ [] ∨ parseAtomList inp .GROUPA ≠ []) →
        readAtoms inp2 natoms s = readAtoms inp natoms s) ∧
    (inp.keywords_exists .GROUP = true →
      inp2.atoms .GROUP = inp.atoms .GROUP →
      parseAtomList inp .GROUP ≠ [] →
        readAtoms inp2 natoms s = readAtoms inp natoms s) := by
  have step1 : (if inp2.keywords_exists .ATOMS then readAtomsKeyword inp2 natoms s
      else .ok (natoms, s)) =
      (if inp.keywords_exists .ATOMS then readAtomsKeyword inp natoms s
        else .ok (natoms, s)) := by
    rw [hkw, readAtomsKeyword_congr inp inp2 natoms s hnum]
  have skip2 : ∀ r : Int × MultiColvar, r.2.readatoms = true →
      (if inp2.keywords_exists .GROUP then readGroupsKeyword inp2 r.1 r.2 else .ok r) =
      (if inp.keywords_exists .GROUP then readGroupsKeyword inp r.1 r.2 else .ok r) := by
    intro r hr
    rw [readGroupsKeyword_skip inp2 r.1 r.2 hr, readGroupsKeyword_skip inp r.1 r.2 hr, hkw]
  have skip3 : ∀ r : Int × MultiColvar, r.2.readatoms = true →
      (if inp2.keywords_exists .SPECIES then readSpeciesKeyword inp2 r.1 r.2 else .ok r) =
      (if inp.keywords_exists .SPECIES then readSpeciesKeyword inp r.1 r.2 else .ok r) := by
    intro r hr
    rw [readSpeciesKeyword_skip inp2 r.1 r.2 hr, readSpeciesKeyword_skip inp r.1 r.2 hr, hkw]
  refine ⟨?_, ?_, ?_⟩
  · rintro hA ⟨t, rest, ht, hne⟩
    have key : ∀ r1, readAtomsKeyword inp natoms s = .ok r1 → r1.2.readatoms = true := by
      intro r1 h1
      cases hread : s.readatoms
      · unfold readAtomsKeyword at h1
        rw [ht] at h1
        simp only [hread, Bool.false_eq_true, if_false] at h1
        exact readAtomsKeywordLoop_readatoms t rest _ _ _ _ r1 hne h1
      · rw [readAtomsKeyword_skip inp natoms s hread, Except.ok.injEq] at h1
        rw [← h1]
        exact hread
    refine ⟨?_, ?_⟩
    · apply readAtoms_congr_of_steps inp inp2 natoms s step1
      · intro r1 e1
        rw [hA, if_pos rfl] at e1
        exact skip2 r1 (key r1 e1)
      · intro r1 r2 e1 e2
        rw [hA, if_pos rfl] at e1
        have hr1 := key r1 e1
        rw [readGroupsKeyword_skip inp r1.1 r1.2 hr1, ite_self, Except.ok.injEq] at e2
        subst e2
        exact skip3 r1 hr1
    · intro r1 h1 inp3
      exact ⟨readGroupsKeyword_skip inp3 r1.1 r1.2 (key r1 h1),
        readSpeciesKeyword_skip inp3 r1.1 r1.2 (key r1 h1)⟩
  · intro hG eG eGA eGB hne
    apply readAtoms_congr_of_steps inp inp2 natoms s step1
    · intro r1 _
      rw [hkw, readGroupsKeyword_congr inp inp2 r1.1 r1.2 hkw eG eGA eGB]
    · intro r1 r2 _ e2
      rw [hG, if_pos rfl] at e2
      exact skip3 r2 (readGroupsKeyword_readatoms inp r1.1 r1.2 r2 hne e2)
  · intro hG eG hne
    apply readAtoms_congr_of_steps inp inp2 natoms s step1
    · intro r1 _
      rw [hkw, readGroupsKeyword_congr_group inp inp2 r1.1 r1.2 hkw eG hne]
    · intro r1 r2 _ e2
      rw [hG, if_pos rfl] at e2
      exact skip3 r2 (readGroupsKeyword_readatoms inp r1.1 r1.2 r2 (Or.inl hne) e2)

/-- Witness of C22: `ATOMS1=(5,9)` with and without groups and species; then
`GROUPA=(1,2)`, `GROUPB=(3)` with and without species; then `GROUP=(1,2,3)`
with and without `GROUPA`, `GROUPB` and species (both with natoms 2).  Each pair of lines gives the
same successful result on a new object. -/
theorem readAtoms_mode_exclusive_witness :
    (readAtoms (mkInput [[5, 9]] [1, 2, 3] [4] [5] [6] [7] [8]) (-1) (MultiColvar.init false) =
      readAtoms (mkInput [[5, 9]] [] [] [] [] [] []) (-1) (MultiColvar.init false) ∧
     (readAtoms (mkInput [[5, 9]] [] [] [] [] [] []) (-1) (MultiColvar.init false)).isOk
       = true) ∧
    (readAtoms (mkInput [] [] [1, 2] [3] [7, 8] [9] [10]) 2 (MultiColvar.init false) =
      readAtoms (mkInput [] [] [1, 2] [3] [] [] []) 2 (MultiColvar.init false) ∧
     (readAtoms (mkInput [] [] [1, 2] [3] [] [] []) 2 (MultiColvar.init false)).isOk
       = true) ∧
    (readAtoms (mkInput [] [1, 2, 3] [4] [5] [6] [7] [8]) 2 (MultiColvar.init false) =
      readAtoms (mkInput [] [1, 2, 3] [] [] [] [] []) 2 (MultiColvar.init false) ∧
     (readAtoms (mkInput [] [1, 2, 3] [] [] [] [] []) 2 (MultiColvar.init false)).isOk
       = true) := by
  have h1 := readAtoms_mode_exclusive (mkInput [[5, 9]] [] [] [] [] [] [])
    (mkInput [[5, 9]] [1, 2, 3] [4] [5] [6] [7] [8]) (-1) (MultiColvar.init false) rfl rfl
  have h2 := readAtoms_mode_exclusive (mkInput [] [] [1, 2] [3] [] [] [])
    (mkInput [] [] [1, 2] [3] [7, 8] [9] [10]) 2 (MultiColvar.init false) rfl rfl
  have h3 := readAtoms_mode_exclusive (mkInput [] [1, 2, 3] [] [] [] [] [])
    (mkInput [] [1, 2, 3] [4] [5] [6] [7] [8]) 2 (MultiColvar.init false) rfl rfl
  exact ⟨⟨(h1.1 rfl ⟨[5, 9], [], rfl, by decide⟩).1, rfl⟩,
    ⟨h2.2.1 rfl rfl rfl rfl (Or.inr (by decide)), rfl⟩,
    ⟨h3.2.2 rfl rfl (by decide), rfl⟩⟩

end multicolvar
end PLMD
